import Mathlib

/-!
# Peer control plane and bucket-lifecycle admin handlers

A shallow embedding of `cmd/peer-rest-server.go`,
`cmd/bucket-lifecycle-handlers.go` and `cmd/logger/message/audit/entry.go`.
The publisher/subscriber fabric and the encryption of configuration, whose
code is in other packages, are modelled from their specification.

A Go handler `func (w http.ResponseWriter, r *http.Request)` becomes a function
`Env σ → Request → Sys σ → Sys σ`:

* `Request` is the part of `*http.Request` the handlers read;
* `Sys σ` is everything a handler can change: the response writer, the
  process-wide singletons (`globalProfiler`, `globalServiceSignalCh`, the state
  `σ` owned by the external collaborators) and the log of collaborator calls;
* `Env σ` holds the collaborators that live outside these files (IAM store,
  bucket-metadata system, object layer, codecs, ...) and the constants declared
  in other files.

Go `error` values are represented by their text (`err.Error()`).
-/

namespace Minio

/-! ## Go standard library: `net/http`, `strconv` -/

/-- A Go map with string keys, as an association list. -/
abbrev GoMap (α : Type) := List (String × α)

/-- Go `m[k]` on a `map[string]string`: the zero value `""` when `k` is absent. -/
def GoMap.get (m : GoMap String) (k : String) : String :=
  (m.lookup k).getD ""

/-- Go `_, ok := m[k]`. -/
def GoMap.has {α : Type} (m : GoMap α) (k : String) : Bool :=
  (m.lookup k).isSome

/-- Go `validHeaderFieldByte`: the token characters of a header field name
(letters, digits and the fifteen marks, given by their codes). -/
def validHeaderFieldByte (c : Char) : Bool :=
  c.isAlphanum || c.toNat ∈ [33, 35, 36, 37, 38, 39, 42, 43, 45, 46, 94, 95, 96, 124, 126]

/-- The canonical case of the characters of a header field name: upper case at
the start and after `-`, lower case elsewhere. -/
def canonicalChars : Bool → List Char → List Char
  | _, [] => []
  | upper, c :: cs =>
    (if upper then c.toUpper else c.toLower)
      :: canonicalChars ((if upper then c.toUpper else c.toLower) = '-') cs

/-- Go `textproto.CanonicalMIMEHeaderKey`: a name with a character that is not a
token character is returned unchanged. -/
def CanonicalMIMEHeaderKey (s : String) : String :=
  if s.toList.all validHeaderFieldByte then String.mk (canonicalChars true s.toList) else s

/-- Go `h.Get(key)` on an `http.Header`: the first value under the canonical
key, `""` when there is none. -/
def HeaderGet (h : GoMap (List String)) (key : String) : String :=
  match h.lookup (CanonicalMIMEHeaderKey key) with
  | some (v :: _) => v
  | _ => ""

/-- An `http.ResponseWriter` as the server sees it: the header map, the status
line once it is on the wire, the header map as it was sent with the status
line, the chunks written to the body and the number of flushes. -/
structure ResponseWriter where
  Header : GoMap (List String) := []
  status : Option Nat := none
  sent : GoMap (List String) := []
  writes : List String := []
  flushes : Nat := 0
deriving DecidableEq, Repr

namespace ResponseWriter

/-- Go `w.WriteHeader(code)`: the first call sends the status line with the
header map as it is then; a later call is superfluous and ignored by `net/http`. -/
def WriteHeader (w : ResponseWriter) (code : Nat) : ResponseWriter :=
  match w.status with
  | none => { w with status := some code, sent := w.Header }
  | some _ => w

/-- Go `w.Write(b)`: sends `200 OK` first when no status line was sent yet. -/
def Write (w : ResponseWriter) (b : String) : ResponseWriter :=
  let w1 := w.WriteHeader 200
  { w1 with writes := w1.writes ++ [b] }

/-- Go `w.(http.Flusher).Flush()`: sends `200 OK` first when no status line was sent yet. -/
def Flush (w : ResponseWriter) : ResponseWriter :=
  let w1 := w.WriteHeader 200
  { w1 with flushes := w1.flushes + 1 }

/-- Go `w.Header().Set(k, v)`: the value list under the canonical key is replaced. -/
def SetHeader (w : ResponseWriter) (k v : String) : ResponseWriter :=
  { w with Header := (w.Header.filter (fun e => e.1 != CanonicalMIMEHeaderKey k))
      ++ [(CanonicalMIMEHeaderKey k, [v])] }

/-- The response body: the written chunks, in order. -/
def body (w : ResponseWriter) : String :=
  String.join w.writes

end ResponseWriter

/-- The part of `*http.Request` read by the handlers. -/
structure Request where
  /-- Go `mux.Vars(r)` -/
  vars : GoMap String := []
  /-- Go `r.Header` -/
  Header : GoMap (List String) := []
  /-- Go `r.Body`, as bytes -/
  Body : List Nat := []
  /-- Go `r.ContentLength` -/
  ContentLength : Int := 0
  /-- the error that ends the reading of `r.Body` after its bytes; `none` is a clean end -/
  BodyErr : Option String := none
  /-- Go `r.URL.Query()`: the values parsed from the query string -/
  URLQuery : GoMap (List String) := []
deriving DecidableEq, Repr

/-- Go `strconv.ParseBool`. -/
def ParseBool (str : String) : Except String Bool :=
  if str ∈ ["1", "t", "T", "true", "TRUE", "True"] then .ok true
  else if str ∈ ["0", "f", "F", "false", "FALSE", "False"] then .ok false
  else .error ("strconv.ParseBool: parsing " ++ str.quote ++ ": invalid syntax")

/-- The decimal value of a run of digits. -/
def digitsValue (ds : List Char) : Nat :=
  ds.foldl (fun a c => 10 * a + (c.toNat - 48)) 0

/-- Go `strconv.Atoi` on a 64-bit platform: an optional sign, then one or more
decimal digits, and the value must fit `int`. -/
def Atoi (s : String) : Except String Int :=
  let cs := s.toList
  let sd : Bool × List Char :=
    match cs with
    | '+' :: t => (false, t)
    | '-' :: t => (true, t)
    | _ => (false, cs)
  if sd.2 = [] ∨ ¬ sd.2.all Char.isDigit then
    .error ("strconv.Atoi: parsing " ++ s.quote ++ ": invalid syntax")
  else
    let n : Int := digitsValue sd.2
    let v : Int := if sd.1 then -n else n
    if v < -(2 : Int) ^ 63 ∨ (2 : Int) ^ 63 - 1 < v then
      .error ("strconv.Atoi: parsing " ++ s.quote ++ ": value out of range")
    else .ok v

/-- The pieces of a character list between the occurrences of `sep`. -/
def splitChars (sep : Char) : List Char → List (List Char)
  | [] => [[]]
  | c :: cs =>
    if c = sep then [] :: splitChars sep cs
    else
      match splitChars sep cs with
      | [] => [[c]]
      | piece :: pieces => (c :: piece) :: pieces

/-- Go `strings.Split(s, sep)` for a separator of one character: the pieces of
`s` between the separators, `[""]` for the empty string. -/
def Split (s : String) (sep : Char) : List String :=
  (splitChars sep s.toList).map String.mk

/-! ## Types declared in other files of the package -/

/-- IAM user kinds (`regularUser`, `stsUser`). -/
inductive IAMUserType
  | regularUser
  | stsUser
deriving DecidableEq, Repr

/-- An `event.RulesMap`: event name, object-name pattern, target id. -/
abbrev RulesMap := List (String × String × String)

/-- An `event.Config` (bucket notification configuration) with its `ToRulesMap()`. -/
structure NotificationConfig where
  ToRulesMap : RulesMap
deriving DecidableEq, Repr

/-- The fields of `BucketMetadata` read by `LoadBucketMetadataHandler`; `none` is Go `nil`. -/
structure BucketMetadata where
  notificationConfig : Option NotificationConfig := none
  bucketTargetConfig : Option (List String) := none
deriving DecidableEq, Repr

/-- The payload of `ServerUpdateHandler`. -/
structure serverUpdateInfo where
  URL : String
  Sha256Sum : String
  Time : String
  ReleaseInfo : String
deriving DecidableEq, Repr

/-- A server configuration as returned by `getValidConfig`. -/
abbrev ServerConfig := List (String × String)

/-- A metric as produced by `ReportMetrics`. -/
abbrev Metric := String

/-- Go `APIErrorCode` of the S3 API: the codes named in the lifecycle handlers,
and all the others by number. -/
inductive APIErrorCode
  | ErrNone
  | ErrServerNotInitialized
  | ErrMissingContentMD5
  | ErrOther (n : Nat)
deriving DecidableEq, Repr

/-- An `APIError`: the S3 error code string and the HTTP status it is sent with. -/
structure APIError where
  Code : String
  HTTPStatusCode : Nat
deriving DecidableEq, Repr

/-- Go `policy.Action` values used by the lifecycle handlers. -/
inductive Action
  | PutBucketLifecycleAction
  | GetBucketLifecycleAction
deriving DecidableEq, Repr

/-- A lifecycle rule: its id and the storage class of its transition (`none` when
the rule has no transition). -/
structure LifecycleRule where
  ID : String
  TransitionStorageClass : Option String
deriving DecidableEq, Repr

/-- A parsed `lifecycle.Lifecycle` document. -/
structure Lifecycle where
  Rules : List LifecycleRule
deriving DecidableEq, Repr

/-- The object layer (`ObjectLayer`): `GetBucketInfo` returns the error, if any. -/
structure ObjectLayer where
  GetBucketInfo : String → Option String

/-! ## Calls to external collaborators -/

/-- One invocation of a collaborator that lives outside the embedded files. -/
inductive Call
  /-- Go `GlobalIAMSys.DeletePolicy(policyName)` -/
  | DeletePolicy (policyName : String)
  /-- Go `GlobalIAMSys.LoadPolicy(objAPI, policyName)` -/
  | LoadPolicy (policyName : String)
  /-- Go `GlobalIAMSys.LoadPolicyMapping(objAPI, userOrGroup, isGroup)` -/
  | LoadPolicyMapping (userOrGroup : String) (isGroup : Bool)
  /-- Go `GlobalIAMSys.DeleteServiceAccount(ctx, accessKey)` -/
  | DeleteServiceAccount (accessKey : String)
  /-- Go `GlobalIAMSys.LoadServiceAccount(accessKey)` -/
  | LoadServiceAccount (accessKey : String)
  /-- Go `GlobalIAMSys.DeleteUser(accessKey)` -/
  | DeleteUser (accessKey : String)
  /-- Go `GlobalIAMSys.LoadUser(objAPI, accessKey, userType)` -/
  | LoadUser (accessKey : String) (userType : IAMUserType)
  /-- Go `GlobalIAMSys.LoadGroup(objAPI, group)` -/
  | LoadGroup (group : String)
  /-- Go `startProfiler(profiler)` -/
  | startProfiler (profiler : String)
  /-- Go `v.Stop()` on the profiler with identity `id` -/
  | profilerStop (id : Nat)
  /-- Go `globalReplicationStats.Delete(bucketName)` -/
  | replicationStatsDelete (bucketName : String)
  /-- Go `globalBucketMetadataSys.Remove(bucketName)` -/
  | bucketMetadataRemove (bucketName : String)
  /-- Go `localMetacacheMgr.deleteBucketCache(bucketName)` -/
  | deleteBucketCache (bucketName : String)
  /-- Go `globalBucketMetadataSys.Set(bucketName, meta)` -/
  | bucketMetadataSet (bucketName : String) (meta : BucketMetadata)
  /-- Go `GlobalNotificationSys.AddRulesMap(bucketName, rulesMap)` -/
  | AddRulesMap (bucketName : String) (rulesMap : RulesMap)
  /-- Go `globalBucketTargetSys.UpdateAllTargets(bucketName, targets)` -/
  | UpdateAllTargets (bucketName : String) (targets : List String)
  /-- Go `updateServer(info.URL, info.Sha256Sum, info.Time, info.ReleaseInfo, getMinioMode())` -/
  | updateServer (info : serverUpdateInfo)
  /-- Go `applyDynamicConfig(ctx, objAPI, srvCfg)` -/
  | applyDynamicConfig (srvCfg : ServerConfig)
  /-- Go `ReportMetrics(ctx, GetGeneratorsForPeer)` -/
  | ReportMetrics
  /-- Go `globalBucketMetadataSys.Update(bucket, configFile, configData)`; `none` is Go `nil` -/
  | bucketMetadataUpdate (bucket configFile : String) (configData : Option (List Nat))
  /-- Go `WriteErrorResponse(ctx, w, apiErr, r.URL, guessIsBrowserReq(r))` of the S3 API -/
  | apiWriteErrorResponse (apiErr : APIError)
  /-- Go `writeSuccessResponseHeadersOnly(w)` -/
  | writeSuccessResponseHeadersOnly
  /-- Go `writeSuccessNoContent(w)` -/
  | writeSuccessNoContent
  /-- The deferred `logger.AuditLog(ctx, w, r, mustGetClaimsFromToken(r))`, with the API name -/
  | AuditLog (api : String)
deriving DecidableEq, Repr

/-- The collaborators and constants that the embedded handlers use but that are
declared outside the embedded files. `σ` is the state those collaborators own
(IAM tables, bucket-metadata, replication-stats and metacache caches,
notification rules, bucket targets, the installed binary, ...). -/
structure Env (σ : Type) where
  /-- Go `storageServerRequestValidate(r)`: the error, if any -/
  storageServerRequestValidate : Request → Option String
  /-- Go `newObjectLayerFn()`; `none` is Go `nil` -/
  newObjectLayerFn : Option ObjectLayer
  /-- whether `localMetacacheMgr != nil` -/
  localMetacacheMgr : Bool
  /-- a collaborator call: the error it returns, if any, and the state it leaves -/
  exec : Call → σ → Option String × σ
  /-- Go `loadBucketMetadata(ctx, objAPI, bucketName)` -/
  loadBucketMetadata : String → σ → Except String BucketMetadata
  /-- Go `getValidConfig(objAPI)` -/
  getValidConfig : σ → Except String ServerConfig
  /-- Go `gob.NewDecoder(r.Body).Decode(&rulesMap)` -/
  gobDecodeRulesMap : List Nat → Except String RulesMap
  /-- Go `gob.NewDecoder(r.Body).Decode(&info)` -/
  gobDecodeServerUpdateInfo : List Nat → Except String serverUpdateInfo
  /-- the metrics delivered on the channel returned by `ReportMetrics` -/
  reportedMetrics : σ → List Metric
  /-- Go `enc.Encode(m)` of the gob encoder: the bytes written, or the error -/
  gobEncodeMetric : Metric → Except String String
  /-- Go `checkRequestAuthType(ctx, r, action, bucket, "")` -/
  checkRequestAuthType : Request → Action → String → APIErrorCode
  /-- the entries of the `errorCodes` table other than `ErrMissingContentMD5` -/
  errorCodes : APIErrorCode → APIError
  /-- Go `ToAPIError(ctx, err)` -/
  ToAPIError : String → APIError
  /-- Go `lifecycle.ParseLifecycleConfig(reader)` -/
  ParseLifecycleConfig : List Nat → Except String Lifecycle
  /-- Go `bucketLifecycle.Validate()` -/
  Validate : Lifecycle → Option String
  /-- whether a transition storage class resolves to a configured remote target of the bucket -/
  transitionTarget : String → String → Bool
  /-- the error of `validateLifecycleTransition` for a class that does not resolve -/
  errTransitionTarget : String → String
  /-- Go `xml.Marshal(bucketLifecycle)` -/
  xmlMarshal : Lifecycle → Except String (List Nat)
  /-- Go `errServerNotInitialized.Error()` -/
  errServerNotInitialized : String
  /-- Go `errInvalidArgument.Error()` -/
  errInvalidArgument : String
  /-- route variable names of `peer-rest-common.go` -/
  peerRESTPolicy : String
  peerRESTUserOrGroup : String
  peerRESTIsGroup : String
  peerRESTUser : String
  peerRESTUserTemp : String
  peerRESTGroup : String
  peerRESTProfiler : String
  peerRESTBucket : String
  peerRESTSignal : String
  /-- Go `serviceSignal` constants of `service.go` -/
  serviceRestart : Int
  serviceStop : Int
  serviceReloadDynamic : Int
  /-- Go `xhttp.ContentMD5` -/
  ContentMD5 : String

/-- Everything a handler can change. -/
structure Sys (σ : Type) where
  /-- the response writer of the request being served -/
  w : ResponseWriter := {}
  /-- the state owned by the external collaborators -/
  st : σ
  /-- the collaborator calls made so far, oldest first -/
  calls : List Call := []
  /-- Go `globalProfiler`; `none` is the Go `nil` map -/
  globalProfiler : Option (GoMap Nat) := none
  /-- the kind of every profiler started so far; a profiler's identity is its index -/
  started : List String := []
  /-- the identities of the profilers on which `Stop()` was called -/
  stopped : List Nat := []
  /-- the values sent on `globalServiceSignalCh`, oldest first -/
  globalServiceSignalCh : List Int := []

/-- The state at the start of a request: a new response writer and no calls yet. -/
def Sys.init {σ : Type} (st : σ) : Sys σ :=
  { st := st }

/-- The process state handed to the next request: a new response writer. -/
def Sys.nextRequest {σ : Type} (s : Sys σ) : Sys σ :=
  { s with w := {} }

/-- The entries of `globalProfiler`; the `nil` map has none. -/
def Sys.registry {σ : Type} (s : Sys σ) : GoMap Nat :=
  s.globalProfiler.getD []

/-- The profiler with identity `i` is of kind `k` and live: it was started as a
`k` profiler and `Stop()` was not called on it. -/
def Sys.running {σ : Type} (s : Sys σ) (k : String) (i : Nat) : Prop :=
  s.started[i]? = some k ∧ i ∉ s.stopped

/-- The profilers of the requested kinds are tracked: the identities in `stopped`
and in `globalProfiler` are those of started profilers, and every live profiler
of a requested kind is registered in `globalProfiler` under its kind. -/
def Sys.profilersTracked {σ : Type} (s : Sys σ) (profiles : List String) : Prop :=
  (∀ j ∈ s.stopped, j < s.started.length) ∧
  (∀ e ∈ s.registry, e.2 < s.started.length) ∧
  (∀ k ∈ profiles, ∀ i, s.running k i → (k, i) ∈ s.registry)

/-- Call a collaborator: log the call and let it act on its state. -/
def invoke {σ : Type} (env : Env σ) (c : Call) (s : Sys σ) : Option String × Sys σ :=
  ((env.exec c s.st).1, { s with st := (env.exec c s.st).2, calls := s.calls ++ [c] })

/-- Log a call that acts on nothing but what the call itself records. -/
def record {σ : Type} (c : Call) (s : Sys σ) : Sys σ :=
  { s with calls := s.calls ++ [c] }

/-- The final `w.(http.Flusher).Flush()` of a handler. -/
def Flush {σ : Type} (s : Sys σ) : Sys σ :=
  { s with w := s.w.Flush }

/-! ## `cmd/peer-rest-server.go` -/

namespace peerRESTServer

variable {σ : Type}

/-- The method `WriteErrorResponse`: status 403 and the error text as the body. -/
def WriteErrorResponse (err : String) (s : Sys σ) : Sys σ :=
  { s with w := (s.w.WriteHeader 403).Write err }

/-- IsValid - To authenticate and verify the time difference. -/
def IsValid (env : Env σ) (r : Request) (s : Sys σ) : Bool × Sys σ :=
  match env.storageServerRequestValidate r with
  | some err => (false, WriteErrorResponse err s)
  | none => (true, s)

/-- DeletePolicyHandler - deletes a policy on the server. -/
def DeletePolicyHandler (env : Env σ) (r : Request) (s : Sys σ) : Sys σ :=
  let v := IsValid env r s
  if !v.1 then WriteErrorResponse "Invalid request" v.2 else
  match env.newObjectLayerFn with
  | none => WriteErrorResponse env.errServerNotInitialized v.2
  | some _ =>
    let policyName := r.vars.get env.peerRESTPolicy
    if policyName = "" then WriteErrorResponse "policyName is missing" v.2 else
    match invoke env (.DeletePolicy policyName) v.2 with
    | (some err, s1) => WriteErrorResponse err s1
    | (none, s1) => Flush s1

/-- LoadPolicyHandler - reloads a policy on the server. -/
def LoadPolicyHandler (env : Env σ) (r : Request) (s : Sys σ) : Sys σ :=
  let v := IsValid env r s
  if !v.1 then WriteErrorResponse "Invalid request" v.2 else
  match env.newObjectLayerFn with
  | none => WriteErrorResponse env.errServerNotInitialized v.2
  | some _ =>
    let policyName := r.vars.get env.peerRESTPolicy
    if policyName = "" then WriteErrorResponse "policyName is missing" v.2 else
    match invoke env (.LoadPolicy policyName) v.2 with
    | (some err, s1) => WriteErrorResponse err s1
    | (none, s1) => Flush s1

/-- LoadPolicyMappingHandler - reloads a policy mapping on the server. -/
def LoadPolicyMappingHandler (env : Env σ) (r : Request) (s : Sys σ) : Sys σ :=
  let v := IsValid env r s
  if !v.1 then WriteErrorResponse "Invalid request" v.2 else
  match env.newObjectLayerFn with
  | none => WriteErrorResponse env.errServerNotInitialized v.2
  | some _ =>
    let userOrGroup := r.vars.get env.peerRESTUserOrGroup
    if userOrGroup = "" then WriteErrorResponse "user-or-group is missing" v.2 else
    let isGroup := r.vars.has env.peerRESTIsGroup
    match invoke env (.LoadPolicyMapping userOrGroup isGroup) v.2 with
    | (some err, s1) => WriteErrorResponse err s1
    | (none, s1) => Flush s1

/-- DeleteServiceAccountHandler - deletes a service account on the server. -/
def DeleteServiceAccountHandler (env : Env σ) (r : Request) (s : Sys σ) : Sys σ :=
  let v := IsValid env r s
  if !v.1 then WriteErrorResponse "Invalid request" v.2 else
  match env.newObjectLayerFn with
  | none => WriteErrorResponse env.errServerNotInitialized v.2
  | some _ =>
    let accessKey := r.vars.get env.peerRESTUser
    if accessKey = "" then WriteErrorResponse "service account name is missing" v.2 else
    match invoke env (.DeleteServiceAccount accessKey) v.2 with
    | (some err, s1) => WriteErrorResponse err s1
    | (none, s1) => Flush s1

/-- LoadServiceAccountHandler - reloads a service account on the server. -/
def LoadServiceAccountHandler (env : Env σ) (r : Request) (s : Sys σ) : Sys σ :=
  let v := IsValid env r s
  if !v.1 then WriteErrorResponse "Invalid request" v.2 else
  match env.newObjectLayerFn with
  | none => WriteErrorResponse env.errServerNotInitialized v.2
  | some _ =>
    let accessKey := r.vars.get env.peerRESTUser
    if accessKey = "" then WriteErrorResponse "service account parameter is missing" v.2 else
    match invoke env (.LoadServiceAccount accessKey) v.2 with
    | (some err, s1) => WriteErrorResponse err s1
    | (none, s1) => Flush s1

/-- DeleteUserHandler - deletes a user on the server. -/
def DeleteUserHandler (env : Env σ) (r : Request) (s : Sys σ) : Sys σ :=
  let v := IsValid env r s
  if !v.1 then WriteErrorResponse "Invalid request" v.2 else
  match env.newObjectLayerFn with
  | none => WriteErrorResponse env.errServerNotInitialized v.2
  | some _ =>
    let accessKey := r.vars.get env.peerRESTUser
    if accessKey = "" then WriteErrorResponse "username is missing" v.2 else
    match invoke env (.DeleteUser accessKey) v.2 with
    | (some err, s1) => WriteErrorResponse err s1
    | (none, s1) => Flush s1

/-- LoadUserHandler - reloads a user on the server. -/
def LoadUserHandler (env : Env σ) (r : Request) (s : Sys σ) : Sys σ :=
  let v := IsValid env r s
  if !v.1 then WriteErrorResponse "Invalid request" v.2 else
  match env.newObjectLayerFn with
  | none => WriteErrorResponse env.errServerNotInitialized v.2
  | some _ =>
    let accessKey := r.vars.get env.peerRESTUser
    if accessKey = "" then WriteErrorResponse "username is missing" v.2 else
    match ParseBool (r.vars.get env.peerRESTUserTemp) with
    | .error err => WriteErrorResponse err v.2
    | .ok temp =>
      let userType := if temp then IAMUserType.stsUser else IAMUserType.regularUser
      match invoke env (.LoadUser accessKey userType) v.2 with
      | (some err, s1) => WriteErrorResponse err s1
      | (none, s1) => Flush s1

/-- LoadGroupHandler - reloads group along with members list. -/
def LoadGroupHandler (env : Env σ) (r : Request) (s : Sys σ) : Sys σ :=
  let v := IsValid env r s
  if !v.1 then WriteErrorResponse "Invalid request" v.2 else
  match env.newObjectLayerFn with
  | none => WriteErrorResponse env.errServerNotInitialized v.2
  | some _ =>
    let group := r.vars.get env.peerRESTGroup
    match invoke env (.LoadGroup group) v.2 with
    | (some err, s1) => WriteErrorResponse err s1
    | (none, s1) => Flush s1

/-- Modelled from the spec: `startProfiler` belongs to the profiling engine, which
is not in src and is referenced only by contract. A successful start yields a
new running profiler (its identity is the next index of `started`); whether the
start succeeds is decided by the collaborator. -/
def startProfiler (env : Env σ) (profiler : String) (s : Sys σ) : Except String Nat × Sys σ :=
  match invoke env (.startProfiler profiler) s with
  | (some err, s1) => (.error err, s1)
  | (none, s1) => (.ok s1.started.length, { s1 with started := s1.started ++ [profiler] })

/-- Modelled from the spec: `minioProfiler.Stop` belongs to the profiling engine,
which is not in src. The profiler with identity `v` stops running. -/
def profilerStop (env : Env σ) (v : Nat) (s : Sys σ) : Sys σ :=
  let s1 := (invoke env (.profilerStop v) s).2
  { s1 with stopped := s1.stopped ++ [v] }

/-- Go `delete(globalProfiler, k)`. -/
def deleteProfiler (k : String) (s : Sys σ) : Sys σ :=
  { s with globalProfiler := s.globalProfiler.map (fun m => m.filter (fun e => e.1 != k)) }

/-- Go `globalProfiler[profiler] = prof`. -/
def setProfiler (profiler : String) (prof : Nat) (s : Sys σ) : Sys σ :=
  let m := (s.globalProfiler.getD []).filter (fun e => e.1 != profiler)
  { s with globalProfiler := some (m ++ [(profiler, prof)]) }

/-- The loop "Stop profiler of all types if already running": for every entry
`(k, v)` of `globalProfiler` and every requested `p` equal to `k`, stop `v` and
delete `k`. The entries are visited in the order of the association list. -/
def stopRunning (env : Env σ) (profiles : List String) (s : Sys σ) : Sys σ :=
  (s.globalProfiler.getD []).foldl
    (fun s1 kv => profiles.foldl
      (fun s2 p => if p = kv.1 then deleteProfiler kv.1 (profilerStop env kv.2 s2) else s2) s1) s

/-- The loop that starts every requested profiler and registers it; the first
failing start aborts the handler with its error. Ends with the final flush. -/
def startProfilers (env : Env σ) : List String → Sys σ → Sys σ
  | [], s => Flush s
  | profiler :: rest, s =>
    match startProfiler env profiler s with
    | (.error err, s1) => WriteErrorResponse err s1
    | (.ok prof, s1) => startProfilers env rest (setProfiler profiler prof s1)

/-- StartProfilingHandler - Issues the start profiling command. -/
def StartProfilingHandler (env : Env σ) (r : Request) (s : Sys σ) : Sys σ :=
  let v := IsValid env r s
  if !v.1 then WriteErrorResponse "Invalid request" v.2 else
  let profiles := Split (r.vars.get env.peerRESTProfiler) ','
  if profiles.length = 0 then WriteErrorResponse "profiler name is missing" v.2 else
  let s1 : Sys σ :=
    if v.2.globalProfiler.isNone then { v.2 with globalProfiler := some [] } else v.2
  startProfilers env profiles (stopRunning env profiles s1)

/-- DeleteBucketMetadataHandler - Delete in memory bucket metadata -/
def DeleteBucketMetadataHandler (env : Env σ) (r : Request) (s : Sys σ) : Sys σ :=
  let v := IsValid env r s
  if !v.1 then WriteErrorResponse "Invalid request" v.2 else
  let bucketName := r.vars.get env.peerRESTBucket
  if bucketName = "" then WriteErrorResponse "Bucket name is missing" v.2 else
  let s1 := (invoke env (.replicationStatsDelete bucketName) v.2).2
  let s2 := (invoke env (.bucketMetadataRemove bucketName) s1).2
  if env.localMetacacheMgr then (invoke env (.deleteBucketCache bucketName) s2).2 else s2

/-- LoadBucketMetadataHandler - reloads in memory bucket metadata -/
def LoadBucketMetadataHandler (env : Env σ) (r : Request) (s : Sys σ) : Sys σ :=
  let v := IsValid env r s
  if !v.1 then WriteErrorResponse "Invalid request" v.2 else
  let bucketName := r.vars.get env.peerRESTBucket
  if bucketName = "" then WriteErrorResponse "Bucket name is missing" v.2 else
  match env.newObjectLayerFn with
  | none => WriteErrorResponse env.errServerNotInitialized v.2
  | some _ =>
    match env.loadBucketMetadata bucketName v.2.st with
    | .error err => WriteErrorResponse err v.2
    | .ok m =>
      let s1 := (invoke env (.bucketMetadataSet bucketName m) v.2).2
      let s2 :=
        match m.notificationConfig with
        | some cfg => (invoke env (.AddRulesMap bucketName cfg.ToRulesMap) s1).2
        | none => s1
      match m.bucketTargetConfig with
      | some targets => (invoke env (.UpdateAllTargets bucketName targets) s2).2
      | none => s2

/-- PutBucketNotificationHandler - Set bucket policy. -/
def PutBucketNotificationHandler (env : Env σ) (r : Request) (s : Sys σ) : Sys σ :=
  let v := IsValid env r s
  if !v.1 then WriteErrorResponse "Invalid request" v.2 else
  let bucketName := r.vars.get env.peerRESTBucket
  if bucketName = "" then WriteErrorResponse "Bucket name is missing" v.2 else
  if r.ContentLength < 0 then WriteErrorResponse env.errInvalidArgument v.2 else
  match env.gobDecodeRulesMap r.Body with
  | .error err => WriteErrorResponse err v.2
  | .ok rulesMap => Flush (invoke env (.AddRulesMap bucketName rulesMap) v.2).2

/-- ServerUpdateHandler - updates the current server. -/
def ServerUpdateHandler (env : Env σ) (r : Request) (s : Sys σ) : Sys σ :=
  let v := IsValid env r s
  if !v.1 then WriteErrorResponse "Invalid request" v.2 else
  if r.ContentLength < 0 then WriteErrorResponse env.errInvalidArgument v.2 else
  match env.gobDecodeServerUpdateInfo r.Body with
  | .error err => WriteErrorResponse err v.2
  | .ok info =>
    match invoke env (.updateServer info) v.2 with
    | (some err, s1) => WriteErrorResponse err s1
    | (none, s1) => s1

/-- The error text of `errUnsupportedSignal`. -/
def errUnsupportedSignal : String :=
  "unsupported signal: only restart and stop signals are supported"

/-- Go `globalServiceSignalCh <- signal`. The value is appended to the channel's
history; waiting for room in the channel is not part of the embedding. -/
def sendServiceSignal (signal : Int) (s : Sys σ) : Sys σ :=
  { s with globalServiceSignalCh := s.globalServiceSignalCh ++ [signal] }

/-- SignalServiceHandler - signal service handler. The flush is deferred: it
runs after the `switch`, on every path. -/
def SignalServiceHandler (env : Env σ) (r : Request) (s : Sys σ) : Sys σ :=
  let v := IsValid env r s
  if !v.1 then WriteErrorResponse "Invalid request" v.2 else
  let signalString := r.vars.get env.peerRESTSignal
  if signalString = "" then WriteErrorResponse "signal name is missing" v.2 else
  match Atoi signalString with
  | .error err => WriteErrorResponse err v.2
  | .ok si =>
    let signal := si
    Flush (
      if signal = env.serviceRestart then sendServiceSignal signal v.2
      else if signal = env.serviceStop then sendServiceSignal signal v.2
      else if signal = env.serviceReloadDynamic then
        match env.newObjectLayerFn with
        | none => WriteErrorResponse env.errServerNotInitialized v.2
        | some _ =>
          match env.getValidConfig v.2.st with
          | .error err => WriteErrorResponse err v.2
          | .ok srvCfg =>
            match invoke env (.applyDynamicConfig srvCfg) v.2 with
            | (some err, s1) => WriteErrorResponse err s1
            | (none, s1) => s1
      else WriteErrorResponse errUnsupportedSignal v.2)

/-- The loop `for m := range ch` of `GetPeerMetrics`, followed by the final flush. -/
def encodeMetrics (env : Env σ) : List Metric → Sys σ → Sys σ
  | [], s => Flush s
  | m :: rest, s =>
    match env.gobEncodeMetric m with
    | .error err => WriteErrorResponse ("Encoding metric failed: " ++ err) s
    | .ok b => encodeMetrics env rest { s with w := s.w.Write b }

/-- GetPeerMetrics gets the metrics to be federated across peers. -/
def GetPeerMetrics (env : Env σ) (r : Request) (s : Sys σ) : Sys σ :=
  let v := IsValid env r s
  let s1 := if !v.1 then WriteErrorResponse "invalid request" v.2 else v.2
  let s2 := Flush { s1 with w := s1.w.WriteHeader 200 }
  let s3 := record .ReportMetrics s2
  encodeMetrics env (env.reportedMetrics s3.st) s3

end peerRESTServer

/-- The state-mutating peer handlers of the route table. -/
inductive MutatingHandler
  | DeletePolicy
  | LoadPolicy
  | LoadPolicyMapping
  | DeleteUser
  | LoadUser
  | DeleteServiceAccount
  | LoadServiceAccount
  | LoadGroup
  | StartProfiling
  | DeleteBucketMetadata
  | LoadBucketMetadata
  | PutBucketNotification
  | SignalService
  | ServerUpdate
deriving DecidableEq, Repr

/-- The handler function registered for a state-mutating route. -/
def MutatingHandler.serve {σ : Type} :
    MutatingHandler → Env σ → Request → Sys σ → Sys σ
  | .DeletePolicy => peerRESTServer.DeletePolicyHandler
  | .LoadPolicy => peerRESTServer.LoadPolicyHandler
  | .LoadPolicyMapping => peerRESTServer.LoadPolicyMappingHandler
  | .DeleteUser => peerRESTServer.DeleteUserHandler
  | .LoadUser => peerRESTServer.LoadUserHandler
  | .DeleteServiceAccount => peerRESTServer.DeleteServiceAccountHandler
  | .LoadServiceAccount => peerRESTServer.LoadServiceAccountHandler
  | .LoadGroup => peerRESTServer.LoadGroupHandler
  | .StartProfiling => peerRESTServer.StartProfilingHandler
  | .DeleteBucketMetadata => peerRESTServer.DeleteBucketMetadataHandler
  | .LoadBucketMetadata => peerRESTServer.LoadBucketMetadataHandler
  | .PutBucketNotification => peerRESTServer.PutBucketNotificationHandler
  | .SignalService => peerRESTServer.SignalServiceHandler
  | .ServerUpdate => peerRESTServer.ServerUpdateHandler

/-! ## `cmd/bucket-lifecycle-handlers.go` -/

/-- Lifecycle configuration file. -/
def bucketLifecycleConfig : String := "lifecycle.xml"

/-- Go `io.LimitReader(body, n)` read to the end: at most `n` bytes, none when `n ≤ 0`. -/
def LimitReader (body : List Nat) (n : Int) : List Nat :=
  body.take n.toNat

/-- Modelled from the spec: the `errorCodes` table of the S3 API is not in src.
Its entry for `ErrMissingContentMD5` is the spec's "400/`MissingContentMD5`";
the other entries are those of the environment. -/
def errorCodes.ToAPIErr {σ : Type} (env : Env σ) : APIErrorCode → APIError
  | .ErrMissingContentMD5 => { Code := "MissingContentMD5", HTTPStatusCode := 400 }
  | code => env.errorCodes code

/-- Modelled from the spec: `WriteErrorResponse` of the S3 API is not in src. The
error is "mapped to a structured API error response": its HTTP status is sent
and the body carries its code. -/
def WriteErrorResponse {σ : Type} (apiErr : APIError) (s : Sys σ) : Sys σ :=
  let s1 := record (.apiWriteErrorResponse apiErr) s
  { s1 with w := (s1.w.WriteHeader apiErr.HTTPStatusCode).Write apiErr.Code }

/-- Modelled from the spec: `writeSuccessResponseHeadersOnly` is not in src;
"200 with empty body". -/
def writeSuccessResponseHeadersOnly {σ : Type} (s : Sys σ) : Sys σ :=
  let s1 := record .writeSuccessResponseHeadersOnly s
  { s1 with w := s1.w.WriteHeader 200 }

/-- Modelled from the spec: `writeSuccessNoContent` is not in src; "→ 204". -/
def writeSuccessNoContent {σ : Type} (s : Sys σ) : Sys σ :=
  let s1 := record .writeSuccessNoContent s
  { s1 with w := s1.w.WriteHeader 204 }

/-- Modelled from the spec: `validateLifecycleTransition` is not in src; "every
transition storage class must resolve to a configured remote target". The
first rule whose transition class does not resolve gives the error. -/
def validateLifecycleTransition {σ : Type} (env : Env σ) (bucket : String)
    (lc : Lifecycle) : Option String :=
  ((lc.Rules.filterMap (fun rule => rule.TransitionStorageClass)).find?
    (fun sc => !env.transitionTarget bucket sc)).map env.errTransitionTarget

namespace ObjectAPIHandlers

variable {σ : Type}

/-- PutBucketLifecycleHandler - This HTTP handler stores given bucket lifecycle
configuration. The deferred audit log runs when the handler returns. -/
def PutBucketLifecycleHandler (env : Env σ) (r : Request) (s : Sys σ) : Sys σ :=
  record (.AuditLog "PutBucketLifecycle") (
    match env.newObjectLayerFn with
    | none => WriteErrorResponse (errorCodes.ToAPIErr env .ErrServerNotInitialized) s
    | some objAPI =>
      let bucket := r.vars.get "bucket"
      if !r.Header.has env.ContentMD5 then
        WriteErrorResponse (errorCodes.ToAPIErr env .ErrMissingContentMD5) s
      else
      let s3Error := env.checkRequestAuthType r .PutBucketLifecycleAction bucket
      if s3Error ≠ .ErrNone then WriteErrorResponse (errorCodes.ToAPIErr env s3Error) s else
      match objAPI.GetBucketInfo bucket with
      | some err => WriteErrorResponse (env.ToAPIError err) s
      | none =>
        match env.ParseLifecycleConfig (LimitReader r.Body r.ContentLength) with
        | .error err => WriteErrorResponse (env.ToAPIError err) s
        | .ok bucketLifecycle =>
          match env.Validate bucketLifecycle with
          | some err => WriteErrorResponse (env.ToAPIError err) s
          | none =>
            match validateLifecycleTransition env bucket bucketLifecycle with
            | some err => WriteErrorResponse (env.ToAPIError err) s
            | none =>
              match env.xmlMarshal bucketLifecycle with
              | .error err => WriteErrorResponse (env.ToAPIError err) s
              | .ok configData =>
                match invoke env
                  (.bucketMetadataUpdate bucket bucketLifecycleConfig (some configData)) s with
                | (some err, s1) => WriteErrorResponse (env.ToAPIError err) s1
                | (none, s1) => writeSuccessResponseHeadersOnly s1)

/-- DeleteBucketLifecycleHandler - This HTTP handler removes bucket lifecycle
configuration. The deferred audit log runs when the handler returns. -/
def DeleteBucketLifecycleHandler (env : Env σ) (r : Request) (s : Sys σ) : Sys σ :=
  record (.AuditLog "DeleteBucketLifecycle") (
    match env.newObjectLayerFn with
    | none => WriteErrorResponse (errorCodes.ToAPIErr env .ErrServerNotInitialized) s
    | some objAPI =>
      let bucket := r.vars.get "bucket"
      let s3Error := env.checkRequestAuthType r .PutBucketLifecycleAction bucket
      if s3Error ≠ .ErrNone then WriteErrorResponse (errorCodes.ToAPIErr env s3Error) s else
      match objAPI.GetBucketInfo bucket with
      | some err => WriteErrorResponse (env.ToAPIError err) s
      | none =>
        match invoke env (.bucketMetadataUpdate bucket bucketLifecycleConfig none) s with
        | (some err, s1) => WriteErrorResponse (env.ToAPIError err) s1
        | (none, s1) => writeSuccessNoContent s1)

end ObjectAPIHandlers

/-- The IAM handlers that read a required route variable before calling `GlobalIAMSys`. -/
inductive IAMHandler
  | DeletePolicy
  | LoadPolicy
  | LoadPolicyMapping
  | DeleteUser
  | LoadUser
  | DeleteServiceAccount
  | LoadServiceAccount
deriving DecidableEq, Repr

/-- The handler function registered for an IAM route. -/
def IAMHandler.serve {σ : Type} : IAMHandler → Env σ → Request → Sys σ → Sys σ
  | .DeletePolicy => peerRESTServer.DeletePolicyHandler
  | .LoadPolicy => peerRESTServer.LoadPolicyHandler
  | .LoadPolicyMapping => peerRESTServer.LoadPolicyMappingHandler
  | .DeleteUser => peerRESTServer.DeleteUserHandler
  | .LoadUser => peerRESTServer.LoadUserHandler
  | .DeleteServiceAccount => peerRESTServer.DeleteServiceAccountHandler
  | .LoadServiceAccount => peerRESTServer.LoadServiceAccountHandler

/-- The route variable an IAM route requires: policy, userOrGroup or user. -/
def IAMHandler.requiredVar {σ : Type} (env : Env σ) : IAMHandler → String
  | .DeletePolicy => env.peerRESTPolicy
  | .LoadPolicy => env.peerRESTPolicy
  | .LoadPolicyMapping => env.peerRESTUserOrGroup
  | .DeleteUser => env.peerRESTUser
  | .LoadUser => env.peerRESTUser
  | .DeleteServiceAccount => env.peerRESTUser
  | .LoadServiceAccount => env.peerRESTUser

/-! ## Info probes of `cmd/peer-rest-server.go` -/

/-- The fields of `madmin.ServerDrivesInfo`; a drive's performance record is kept as text. -/
structure ServerDrivesInfo where
  Addr : String := ""
  Serial : List String := []
  Parallel : List String := []
  Error : String := ""
deriving DecidableEq, Repr

/-- The environment of the info probes: the collaborators of `Env` and the
local probes and codecs, which are declared outside the embedded files. -/
structure ProbeEnv (σ : Type) extends Env σ where
  /-- Go `getLocalDrives(ctx, parallel, globalEndpoints, r)` -/
  getLocalDrives : Bool → Request → σ → ServerDrivesInfo
  /-- Go `gob.NewEncoder(w).Encode(info)`: the bytes written, or the error -/
  gobEncodeDrivesInfo : ServerDrivesInfo → Except String String

/-- The text of `io.ErrUnexpectedEOF`. -/
def ErrUnexpectedEOF : String := "unexpected EOF"

/-- The text of `io.EOF`. -/
def EOF : String := "EOF"

/-- Go `io.Copy(ioutil.Discard, r.Body)`: the number of bytes read and the error
that stopped the copy, if any. -/
def copyBody (r : Request) : Nat × Option String :=
  (r.Body.length, r.BodyErr)

/-- Go `fmt.Errorf("Subnet health: short read: expected %d found %d", expected, found)`,
as its text. -/
def shortReadError (expected : Int) (found : Int) : String :=
  "Subnet health: short read: expected " ++ toString expected ++ " found " ++ toString found

namespace peerRESTServer

variable {σ : Type}

/-- Go `w.Header().Set(k, v)` on the response writer of the request. -/
def setHeader (k v : String) (s : Sys σ) : Sys σ :=
  { s with w := s.w.SetHeader k v }

/-- The payload that `DriveInfoHandler` builds from the serial and the parallel
probe: the address and serial figures of the first, the parallel figures of the
second, and the error text built from both errors. -/
def drivesInfo (infoSerial infoParallel : ServerDrivesInfo) : ServerDrivesInfo :=
  let errStr := ""
  let errStr := if infoSerial.Error ≠ "" then "serial: " ++ infoSerial.Error else errStr
  let errStr :=
    if infoParallel.Error ≠ "" then errStr ++ " parallel: " ++ infoParallel.Error else errStr
  { Addr := infoSerial.Addr, Serial := infoSerial.Serial, Parallel := infoParallel.Parallel,
    Error := errStr }

/-- DriveInfoHandler - returns Drive info. An encoding error is only logged; the
flush is deferred. -/
def DriveInfoHandler (env : ProbeEnv σ) (r : Request) (s : Sys σ) : Sys σ :=
  let v := IsValid env.toEnv r s
  if !v.1 then WriteErrorResponse "Invalid request" v.2 else
  let infoSerial := env.getLocalDrives false r v.2.st
  let infoParallel := env.getLocalDrives true r v.2.st
  let info := drivesInfo infoSerial infoParallel
  Flush (
    match env.gobEncodeDrivesInfo info with
    | .ok b => { v.2 with w := v.2.w.Write b }
    | .error _ => v.2)

/-- NetInfoHandler: reads the request body to the end and reports in the
`FinalStatus` trailer. Logging of the errors is not part of the embedding. -/
def NetInfoHandler (env : Env σ) (r : Request) (s : Sys σ) : Sys σ :=
  let v := IsValid env r s
  if !v.1 then WriteErrorResponse "Invalid request" v.2 else
  let s1 := setHeader "Trailer" "FinalStatus" v.2
  let s2 := setHeader "Content-Type" "application/octet-stream" s1
  let s3 : Sys σ := { s2 with w := s2.w.WriteHeader 200 }
  let n := (copyBody r).1
  let err := (copyBody r).2
  if err = some ErrUnexpectedEOF then setHeader "FinalStatus" ErrUnexpectedEOF s3 else
  if err ≠ none ∧ err ≠ some EOF then setHeader "FinalStatus" (err.getD "") s3 else
  if (n : Int) ≠ r.ContentLength then
    setHeader "FinalStatus" (shortReadError r.ContentLength n) s3
  else Flush (setHeader "FinalStatus" "Success" s3)

end peerRESTServer

/-! ## Locks and health of `cmd/peer-rest-server.go` -/

/-- The environment of `GetLocksHandler`: the collaborators of `Env`, the lock
server and its codec, which are declared outside the embedded files. A lock
map gives, per resource, the texts of its lock requesters. -/
structure LocksEnv (σ : Type) extends Env σ where
  /-- Go `globalLockServer.DupLockMap()` -/
  DupLockMap : σ → GoMap (List String)
  /-- Go `gob.NewEncoder(w).Encode(lockMap)`: the bytes written, or the error -/
  gobEncodeLockMap : GoMap (List String) → Except String String

namespace peerRESTServer

variable {σ : Type}

/-- GetLocksHandler - returns list of older lock from the server. An encoding
error is only logged. -/
def GetLocksHandler (env : LocksEnv σ) (r : Request) (s : Sys σ) : Sys σ :=
  let v := IsValid env.toEnv r s
  if !v.1 then WriteErrorResponse "Invalid request" v.2 else
  Flush (
    match env.gobEncodeLockMap (env.DupLockMap v.2.st) with
    | .ok b => { v.2 with w := v.2.w.Write b }
    | .error _ => v.2)

/-- HealthHandler - returns true of health -/
def HealthHandler (env : Env σ) (r : Request) (s : Sys σ) : Sys σ :=
  (IsValid env r s).2

end peerRESTServer

/-! ## `cmd/logger/message/audit/entry.go`

Go maps are references. The maps that `ToEntry` reads and writes live in a
`MapHeap`, and the function receives and returns the heap, so that a write to
one map is visible through every reference to it and to no other map. -/

/-- Go `strings.Join(elems, sep)`. -/
def Join (elems : List String) (sep : String) : String :=
  sep.intercalate elems

/-- Go `strings.Trim(s, cutset)` for a cutset of one character: the leading and
the trailing occurrences of the character are removed. -/
def Trim (s : String) (c : Char) : String :=
  String.mk ((s.toList.dropWhile (fun x => x == c)).reverse.dropWhile (fun x => x == c)).reverse

/-- Go `m[k] = v`: the entry of `k` is replaced. -/
def GoMap.set {α : Type} (m : GoMap α) (k : String) (v : α) : GoMap α :=
  m.filter (fun e => e.1 != k) ++ [(k, v)]

/-- The maps on the Go heap, by address: the `http.Header` maps and the
`map[string]string` maps. -/
structure MapHeap where
  headers : List (GoMap (List String)) := []
  strings : List (GoMap String) := []
deriving DecidableEq, Repr

namespace MapHeap

/-- The `http.Header` map at an address. -/
def header (h : MapHeap) (a : Nat) : GoMap (List String) :=
  h.headers.getD a []

/-- The `map[string]string` at an address. -/
def string (h : MapHeap) (a : Nat) : GoMap String :=
  h.strings.getD a []

/-- Go `make(map[string]string, n)`: a new empty map and its address. -/
def make (h : MapHeap) : Nat × MapHeap :=
  (h.strings.length, { h with strings := h.strings ++ [[]] })

/-- Go `m[k] = v` for the `map[string]string` at address `a`. -/
def store (h : MapHeap) (a : Nat) (k v : String) : MapHeap :=
  { h with strings := h.strings.set a ((h.string a).set k v) }

/-- The map behind a reference; `none` is the `nil` map. -/
def deref (h : MapHeap) : Option Nat → GoMap String
  | none => []
  | some a => h.string a

end MapHeap

/-- Version - represents the current version of audit log structure. -/
def Version : String := "1"

/-- The nested `API` record of an audit entry. -/
structure EntryAPI where
  Name : String := ""
  Bucket : String := ""
  Object : String := ""
  Status : String := ""
  StatusCode : Int := 0
  TimeToFirstByte : String := ""
  TimeToResponse : String := ""
deriving DecidableEq, Repr

/-- Entry - audit entry logs. The three `map[string]string` fields are
references into the heap (`none` is `nil`); claims and tags are kept by value,
their values as text. -/
structure Entry where
  Version : String := ""
  DeploymentID : String := ""
  Time : String := ""
  Trigger : String := ""
  API : EntryAPI := {}
  RemoteHost : String := ""
  RequestID : String := ""
  UserAgent : String := ""
  ReqClaims : GoMap String := []
  ReqQuery : Option Nat := none
  ReqHeader : Option Nat := none
  RespHeader : Option Nat := none
  Tags : GoMap String := []
deriving DecidableEq, Repr

/-- What `ToEntry` takes from outside its file: the clock, `handlers.GetSourceIP`
and the header names of `xhttp`. -/
structure AuditEnv where
  /-- Go `time.Now().UTC().Format(time.RFC3339Nano)` -/
  now : String
  /-- Go `handlers.GetSourceIP(r)`, given the request with its header map -/
  GetSourceIP : Request → String
  /-- Go `xhttp.AmzRequestID` -/
  AmzRequestID : String
  /-- Go `xhttp.ETag` -/
  ETag : String

/-- NewEntry - constructs an audit entry object with some fields filled -/
def NewEntry (aenv : AuditEnv) (deploymentID : String) : Entry :=
  { Version := Version, DeploymentID := deploymentID, Time := aenv.now }

/-- The loop `for k, v := range src { dst[k] = strings.Join(v, ",") }`, where
`dst` is the address of a `map[string]string`. -/
def joinInto (src : GoMap (List String)) (dst : Nat) (h : MapHeap) : MapHeap :=
  src.foldl (fun h kv => h.store dst kv.1 (Join kv.2 ",")) h

/-- ToEntry - constructs an audit entry from a http request. `w` is the address
of the map returned by `w.Header()`, `rHeader` the address of `r.Header`; the
other fields of the request are read from `r`. -/
def ToEntry (aenv : AuditEnv) (w : Nat) (r : Request) (rHeader : Nat)
    (reqClaims : GoMap String) (deploymentID : String) (h : MapHeap) : Entry × MapHeap :=
  let entry := NewEntry aenv deploymentID
  let entry := { entry with
    RemoteHost := aenv.GetSourceIP { r with Header := h.header rHeader }
    UserAgent := HeaderGet (h.header rHeader) "User-Agent"
    ReqClaims := reqClaims }
  let q := r.URLQuery
  let reqQuery := h.make.1
  let h := joinInto q reqQuery h.make.2
  let entry := { entry with ReqQuery := some reqQuery }
  let reqHeader := h.make.1
  let h := joinInto (h.header rHeader) reqHeader h.make.2
  let entry := { entry with ReqHeader := some reqHeader }
  let wh := h.header w
  let entry := { entry with RequestID := HeaderGet wh aenv.AmzRequestID }
  let respHeader := h.make.1
  let h := joinInto wh respHeader h.make.2
  let entry := { entry with RespHeader := some respHeader }
  let etag := (h.string respHeader).get aenv.ETag
  let h := if etag ≠ "" then h.store respHeader aenv.ETag (Trim etag '"') else h
  (entry, h)

/-- The map that the loop of `joinInto` builds in an empty map. -/
def joined (src : GoMap (List String)) : GoMap String :=
  src.foldl (fun m kv => m.set kv.1 (Join kv.2 ",")) []

/-- A Go map has one entry per key. -/
def GoMap.wellFormed {α : Type} (m : GoMap α) : Prop :=
  (m.map Prod.fst).Nodup

/-- The sample audit environment. -/
def sampleAuditEnv : AuditEnv :=
  { now := "2021-01-01T00:00:00Z", GetSourceIP := fun _ => "10.0.0.1",
    AmzRequestID := "x-amz-request-id", ETag := "ETag" }

/-- A heap with the header map of a response at address 0 (a request id and a
quoted ETag) and the header map of a request at address 1. -/
def sampleAuditHeap : MapHeap :=
  { headers := [[("X-Amz-Request-Id", ["16A2"]), ("ETag", ["\"9b2cf535f27731c9\""])],
                [("User-Agent", ["mc"]), ("Accept", ["a", "b"])]] }

/-- A request with the query `prefix=logs/&events=put&events=delete`. -/
def sampleAuditRequest : Request :=
  { URLQuery := [("prefix", ["logs/"]), ("events", ["put", "delete"])] }

/-! ## Local disks (`getLocalDiskIDs`) -/

/-- A disk (`StorageAPI`), by what `getLocalDiskIDs` asks of it: `IsLocal()` and
the result of `GetDiskID()`. -/
structure StorageAPI where
  IsLocal : Bool
  GetDiskID : Except String String

/-- An erasure set: `getDisks()`, where `none` is a `nil` disk. -/
structure erasureObjects where
  getDisks : List (Option StorageAPI)

/-- The sets of one pool (`erasureSets`). -/
structure erasureSets where
  sets : List erasureObjects

/-- All pools (`erasureServerPools`). -/
structure erasureServerPools where
  serverPools : List erasureSets

/-- The body of the innermost loop of `getLocalDiskIDs`: what one disk does to `ids`. -/
def appendLocalDiskID (ids : List String) (disk : Option StorageAPI) : List String :=
  match disk with
  | none => ids
  | some disk =>
    if disk.IsLocal then
      match disk.GetDiskID with
      | .error _ => ids
      | .ok id => if id = "" then ids else ids ++ [id]
    else ids

/-- Return disk IDs of all the local disks. -/
def getLocalDiskIDs (z : erasureServerPools) : List String :=
  z.serverPools.foldl
    (fun ids pool => pool.sets.foldl
      (fun ids set => set.getDisks.foldl appendLocalDiskID ids) ids) []

/-- The id that a disk contributes according to the spec: the disk is not `nil`,
is local, `GetDiskID` returns no error and the id is not empty. -/
def localDiskID (disk : Option StorageAPI) : Option String :=
  match disk with
  | none => none
  | some disk =>
    match disk.GetDiskID with
    | .error _ => none
    | .ok id => if disk.IsLocal = true ∧ id ≠ "" then some id else none

/-- All disks in pool-then-set-then-disk order. -/
def allDisks (z : erasureServerPools) : List (Option StorageAPI) :=
  (z.serverPools.map (fun pool => (pool.sets.map (fun set => set.getDisks)).flatten)).flatten

/-- The collaborators' state after they served the given calls in order. -/
def served {σ : Type} (env : Env σ) (calls : List Call) (st : σ) : σ :=
  calls.foldl (fun st c => (env.exec c st).2) st

/-- The evictions the spec lists for `DeleteBucketMetadata(bucket)`: replication
stats, bucket metadata, and the metacache when a metacache manager exists. -/
def bucketEvictions {σ : Type} (env : Env σ) (bucket : String) : List Call :=
  [Call.replicationStatsDelete bucket, Call.bucketMetadataRemove bucket]
    ++ (if env.localMetacacheMgr then [Call.deleteBucketCache bucket] else [])

/-- The cache updates the spec lists for a successful `LoadBucketMetadata(bucket)`
with metadata `m`: the metadata entry is set, the notification rules are added
when `m.notificationConfig` is not `nil`, the targets are updated when
`m.bucketTargetConfig` is not `nil`. -/
def bucketReloads (bucket : String) (m : BucketMetadata) : List Call :=
  [Call.bucketMetadataSet bucket m]
    ++ (match m.notificationConfig with
        | some cfg => [Call.AddRulesMap bucket cfg.ToRulesMap]
        | none => [])
    ++ (match m.bucketTargetConfig with
        | some targets => [Call.UpdateAllTargets bucket targets]
        | none => [])

/-! ## Publisher/subscriber fabric -/

/-- A subscription: the buffered channel of the subscriber, by its capacity and
the events waiting in it (oldest first), and the filter predicate. -/
structure Subscription (ε : Type) where
  cap : Nat
  buffer : List ε
  filter : ε → Bool

/-- Modelled from the spec: `Publish` of the pubsub package is not in src.
"Iterate current subscribers. For each, evaluate its filter predicate on the
event; if true, attempt non-blocking send to the subscriber's buffer. If the
send would block, drop the event for that subscriber silently." A send would
block when the buffer holds as many events as its capacity. -/
def Publish {ε : Type} (subs : List (Subscription ε)) (item : ε) : List (Subscription ε) :=
  subs.map (fun sub =>
    if sub.filter item then
      if sub.buffer.length < sub.cap then { sub with buffer := sub.buffer ++ [item] }
      else sub
    else sub)

/-- Modelled from the spec: `Subscribe` of the pubsub package is not in src.
"`Subscribe(buffer, done, predicate)` registers a subscription." -/
def Subscribe {ε : Type} (subs : List (Subscription ε)) (cap : Nat) (filter : ε → Bool) :
    List (Subscription ε) :=
  subs ++ [{ cap := cap, buffer := [], filter := filter }]

/-- The subscription that `ListenHandler` registers with `globalHTTPListen`:
`ch := make(chan interface{}, 2000)` and the handler's filter. -/
def listenSubscribe {ε : Type} (subs : List (Subscription ε)) (filter : ε → Bool) :
    List (Subscription ε) :=
  Subscribe subs 2000 filter

/-! ## Streams of `cmd/peer-rest-server.go`: `Listen`, `Trace`, `ConsoleLog` -/

namespace event

/-- Go `event.Name`, by its text (`s3:ObjectCreated:Put`, ...). -/
abbrev Name := String

/-- Go `event.Bucket`: the field the handlers read. -/
structure Bucket where
  Name : String := ""
deriving DecidableEq, Repr

/-- Go `event.Object`: the field the handlers read. -/
structure Object where
  Key : String := ""
deriving DecidableEq, Repr

/-- Go `event.Metadata`: the fields the handlers read. -/
structure Metadata where
  Bucket : Bucket := {}
  Object : Object := {}
deriving DecidableEq, Repr

/-- Go `event.Event`: the fields the handlers read; `{}` is the zero value
`event.Event{}`. -/
structure Event where
  EventName : Name := ""
  S3 : Metadata := {}
deriving DecidableEq, Repr

end event

namespace trace

/-- Go `trace.Info`: the node and the function of the traced call; `{}` is the
zero value `trace.Info{}`. -/
structure Info where
  NodeName : String := ""
  FuncName : String := ""
deriving DecidableEq, Repr

end trace

/-- Go `madmin.ServiceTraceOpts`. The threshold is a `time.Duration` (nanoseconds). -/
structure ServiceTraceOpts where
  S3 : Bool := false
  Internal : Bool := false
  Storage : Bool := false
  OS : Bool := false
  OnlyErrors : Bool := false
  Threshold : Int := 0
deriving DecidableEq, Repr

/-- A Go `interface{}` value that travels on a publisher, by its dynamic type. -/
inductive Any
  /-- an `event.Event` -/
  | Event (ev : event.Event)
  /-- a `trace.Info` -/
  | Info (info : trace.Info)
  /-- a console log entry, by its text -/
  | LogEntry (entry : String)
deriving DecidableEq, Repr

/-- Go `values[key]` on a `url.Values`: the values of the key, none when it is absent. -/
def Values.index (values : GoMap (List String)) (key : String) : List String :=
  (values.lookup key).getD []

/-- Go `url.Values.Get(key)`: the first value of the key, `""` when there is none. -/
def Values.Get (values : GoMap (List String)) (key : String) : String :=
  match Values.index values key with
  | [] => ""
  | value :: _ => value

/-- The environment of the stream handlers: the collaborators of `Env`, the
`event` package, the trace filter, the gob codec and the query parameter
names, all declared outside the embedded files. -/
structure StreamEnv (σ : Type) extends Env σ where
  /-- Go `event.ValidateFilterRuleValue(value)`: the error, if any -/
  ValidateFilterRuleValue : String → Option String
  /-- Go `event.NewPattern(prefix, suffix)` -/
  NewPattern : String → String → String
  /-- Go `event.ParseName(s)` -/
  ParseName : String → Except String event.Name
  /-- Go `event.NewRulesMap(eventNames, pattern, targetID)`; the target id by its `ID` field -/
  NewRulesMap : List event.Name → String → String → RulesMap
  /-- Go `rulesMap.MatchSimple(eventName, objectName)` -/
  MatchSimple : RulesMap → event.Name → String → Bool
  /-- Go `mustGetUUID()` -/
  mustGetUUID : σ → String
  /-- Go `mustTrace(entry, traceOpts)` -/
  mustTrace : Any → ServiceTraceOpts → Bool
  /-- Go `time.ParseDuration(t)` -/
  ParseDuration : String → Except String Int
  /-- Go `enc.Encode(v)` of the gob encoder made on the response writer, given
  the values this encoder has sent before: the bytes written, or the error of
  the encoding or of the write (the peer has gone) -/
  gobEncode : List Any → Any → Except String String
  /-- query parameter names of `peer-rest-common.go` -/
  peerRESTListenBucket : String
  peerRESTListenPrefix : String
  peerRESTListenSuffix : String
  peerRESTListenEvents : String
  peerRESTTraceErr : String
  peerRESTTraceStorage : String
  peerRESTTraceInternal : String
  peerRESTTraceS3 : String
  peerRESTTraceOS : String
  peerRESTTraceThreshold : String

/-- A stream handler and what it holds while it serves. -/
structure StreamSys (σ : Type) where
  /-- the response writer and the process state -/
  sys : Sys σ
  /-- the handler's subscription at its publisher: the channel `ch` and the filter -/
  subs : List (Subscription Any) := []
  /-- the period of `keepAliveTicker` in milliseconds; `none` when the handler has no ticker -/
  keepAliveTicker : Option Nat := none
  /-- the values handed to `enc.Encode`, oldest first -/
  encoded : List Any := []
  /-- the channel `doneCh`: `none` before it is made, `some true` once it is closed -/
  doneCh : Option Bool := none
  /-- whether the handler has returned -/
  returned : Bool := false

/-- What happens next at a stream handler that waits in its `select`. -/
inductive Occurrence
  /-- the publisher publishes `item` -/
  | publish (item : Any)
  /-- the select takes `case entry := <-ch`, the oldest entry waiting in `ch` -/
  | recv
  /-- the period of the keep-alive ticker has passed and the select takes `case <-keepAliveTicker.C` -/
  | tick
  /-- the request context is cancelled and the select takes `case <-r.Context().Done()` -/
  | done
deriving DecidableEq, Repr

/-- A handler that returns before it makes `doneCh`. -/
def StreamSys.exit {σ : Type} (s : Sys σ) : StreamSys σ :=
  { sys := s, returned := true }

/-- The handler returns from its loop: the deferred `close(doneCh)` runs. -/
def StreamSys.ret {σ : Type} (t : StreamSys σ) : StreamSys σ :=
  { t with doneCh := some true, returned := true }

/-- The publisher publishes `item` while the handler is subscribed. -/
def StreamSys.offer {σ : Type} (item : Any) (t : StreamSys σ) : StreamSys σ :=
  { t with subs := Publish t.subs item }

/-- Go `<-ch` when an entry waits in `ch`: the oldest entry, and the state without it. -/
def StreamSys.receive {σ : Type} (t : StreamSys σ) : Option (Any × StreamSys σ) :=
  match t.subs with
  | [] => none
  | sub :: others =>
    match sub.buffer with
    | [] => none
    | entry :: waiting => some (entry, { t with subs := { sub with buffer := waiting } :: others })

namespace peerRESTServer

variable {σ : Type}

/-- The body of both cases of a stream `select`:
`if err := enc.Encode(v); err != nil { return }` and then `w.(http.Flusher).Flush()`. -/
def encodeFlush (env : StreamEnv σ) (v : Any) (t : StreamSys σ) : StreamSys σ :=
  match env.gobEncode t.encoded v with
  | .error _ => { t with encoded := t.encoded ++ [v] }.ret
  | .ok b =>
    { t with encoded := t.encoded ++ [v], sys := Flush { t.sys with w := t.sys.w.Write b } }

/-- The block that `ListenHandler` runs for `peerRESTListenPrefix` and again for
`peerRESTListenSuffix`: more than one value is an `invalid request`, a single
value must pass `event.ValidateFilterRuleValue`, no value leaves the empty string. -/
def filterRuleValue (env : StreamEnv σ) (values : GoMap (List String)) (key : String) :
    Except String String :=
  if (Values.index values key).length > 1 then .error "invalid request" else
  match Values.index values key with
  | [value] =>
    match env.ValidateFilterRuleValue value with
    | some err => .error err
    | none => .ok value
  | _ => .ok ""

/-- The loop `for _, ev := range values[peerRESTListenEvents]` of `ListenHandler`:
the parsed names, or the error of the first text that `event.ParseName` rejects. -/
def parseNames (env : StreamEnv σ) : List String → Except String (List event.Name)
  | [] => .ok []
  | ev :: rest =>
    match env.ParseName ev with
    | .error err => .error err
    | .ok eventName =>
      match parseNames env rest with
      | .error err => .error err
      | .ok eventNames => .ok (eventName :: eventNames)

/-- The filter that `ListenHandler` hands to `globalHTTPListen.Subscribe`. -/
def listenFilter (env : StreamEnv σ) (values : GoMap (List String)) (rulesMap : RulesMap)
    (evI : Any) : Bool :=
  match evI with
  | .Event ev =>
    if ev.S3.Bucket.Name ≠ "" ∧ Values.Get values env.peerRESTListenBucket ≠ "" then
      if ev.S3.Bucket.Name ≠ Values.Get values env.peerRESTListenBucket then false
      else env.MatchSimple rulesMap ev.EventName ev.S3.Object.Key
    else env.MatchSimple rulesMap ev.EventName ev.S3.Object.Key
  | _ => false

/-- One pass of the `for { select { ... } }` of `ListenHandler`. The select has
no case for the end of the request context, and `case ev := <-ch` cannot be
taken while nothing waits in `ch`: then the handler goes on waiting. -/
def listenSelect (env : StreamEnv σ) (t : StreamSys σ) (o : Occurrence) : StreamSys σ :=
  if t.returned then t else
  match o with
  | .publish item => t.offer item
  | .recv =>
    match t.receive with
    | some (ev, t1) => encodeFlush env ev t1
    | none => t
  | .tick => encodeFlush env (.Event {}) t
  | .done => t

/-- ListenHandler sends http trace messages back to peer rest client. The
handler serves until an encode fails; `timeline` is what happens while it serves. -/
def ListenHandler (env : StreamEnv σ) (r : Request) (timeline : List Occurrence)
    (s : Sys σ) : StreamSys σ :=
  let v := IsValid env.toEnv r s
  if !v.1 then StreamSys.exit (WriteErrorResponse "invalid request" v.2) else
  let values := r.URLQuery
  match filterRuleValue env values env.peerRESTListenPrefix with
  | .error err => StreamSys.exit (WriteErrorResponse err v.2)
  | .ok prefix_ =>
    match filterRuleValue env values env.peerRESTListenSuffix with
    | .error err => StreamSys.exit (WriteErrorResponse err v.2)
    | .ok suffix =>
      let pattern := env.NewPattern prefix_ suffix
      match parseNames env (Values.index values env.peerRESTListenEvents) with
      | .error err => StreamSys.exit (WriteErrorResponse err v.2)
      | .ok eventNames =>
        let rulesMap := env.NewRulesMap eventNames pattern (env.mustGetUUID v.2.st)
        let s1 := Flush { v.2 with w := v.2.w.WriteHeader 200 }
        let t : StreamSys σ :=
          { sys := s1, doneCh := some false,
            subs := listenSubscribe [] (listenFilter env values rulesMap),
            keepAliveTicker := some 500 }
        timeline.foldl (listenSelect env) t

/-- The function `extractTraceOptsFromPeerRequest`. -/
def extractTraceOptsFromPeerRequest (env : StreamEnv σ) (r : Request) :
    Except String ServiceTraceOpts :=
  let q := r.URLQuery
  let opts : ServiceTraceOpts :=
    { OnlyErrors := Values.Get q env.peerRESTTraceErr == "true",
      Storage := Values.Get q env.peerRESTTraceStorage == "true",
      Internal := Values.Get q env.peerRESTTraceInternal == "true",
      S3 := Values.Get q env.peerRESTTraceS3 == "true",
      OS := Values.Get q env.peerRESTTraceOS == "true" }
  let t := Values.Get q env.peerRESTTraceThreshold
  if t ≠ "" then
    match env.ParseDuration t with
    | .error err => .error err
    | .ok d => .ok { opts with Threshold := d }
  else .ok opts

/-- One pass of the `for { select { ... } }` of `TraceHandler`; as in
`ListenHandler`, with the zero `trace.Info` as the keep-alive value. -/
def traceSelect (env : StreamEnv σ) (t : StreamSys σ) (o : Occurrence) : StreamSys σ :=
  if t.returned then t else
  match o with
  | .publish item => t.offer item
  | .recv =>
    match t.receive with
    | some (entry, t1) => encodeFlush env entry t1
    | none => t
  | .tick => encodeFlush env (.Info {}) t
  | .done => t

/-- TraceHandler sends http trace messages back to peer rest client. -/
def TraceHandler (env : StreamEnv σ) (r : Request) (timeline : List Occurrence)
    (s : Sys σ) : StreamSys σ :=
  let v := IsValid env.toEnv r s
  if !v.1 then StreamSys.exit (WriteErrorResponse "Invalid request" v.2) else
  match extractTraceOptsFromPeerRequest env r with
  | .error _ => StreamSys.exit (WriteErrorResponse "Invalid request" v.2)
  | .ok traceOpts =>
    let s1 := Flush { v.2 with w := v.2.w.WriteHeader 200 }
    let t : StreamSys σ :=
      { sys := s1, doneCh := some false,
        subs := Subscribe [] 2000 (fun entry => env.mustTrace entry traceOpts),
        keepAliveTicker := some 500 }
    timeline.foldl (traceSelect env) t

/-- One pass of the `for { select { ... } }` of `ConsoleLogHandler`: it has no
ticker case, and it has a case for the end of the request context. -/
def consoleLogSelect (env : StreamEnv σ) (t : StreamSys σ) (o : Occurrence) : StreamSys σ :=
  if t.returned then t else
  match o with
  | .publish item => t.offer item
  | .recv =>
    match t.receive with
    | some (entry, t1) => encodeFlush env entry t1
    | none => t
  | .tick => t
  | .done => t.ret

/-- ConsoleLogHandler sends console logs of this node back to peer rest client.
The subscription `Subscribe(ch, doneCh, "", 0, string(logger.All), nil)` asks
for the entries of every node and every kind, none of the past ones, with no
filter. -/
def ConsoleLogHandler (env : StreamEnv σ) (r : Request) (timeline : List Occurrence)
    (s : Sys σ) : StreamSys σ :=
  let v := IsValid env.toEnv r s
  if !v.1 then StreamSys.exit (WriteErrorResponse "Invalid request" v.2) else
  let s1 := setHeader "Connection" "close" v.2
  let s2 := Flush { s1 with w := s1.w.WriteHeader 200 }
  let t : StreamSys σ :=
    { sys := s2, doneCh := some false, subs := Subscribe [] 2000 (fun _ => true) }
  timeline.foldl (consoleLogSelect env) t

end peerRESTServer

/-- Every encode of the values `sent` succeeded, each after the values before it. -/
def allEncoded {σ : Type} (env : StreamEnv σ) (sent : List Any) : Prop :=
  ∀ before v, before ++ [v] <+: sent → ∃ b, env.gobEncode before v = .ok b

/-- The handler serves: it has not returned, `doneCh` is open and every encode
so far succeeded. -/
def StreamSys.serving {σ : Type} (env : StreamEnv σ) (t : StreamSys σ) : Prop :=
  t.returned = false ∧ t.doneCh = some false ∧ allEncoded env t.encoded

/-- The handler has ended on the first encode error: it has returned, `doneCh`
is closed, and the last value handed to the encoder is the only one whose
encode failed. -/
def StreamSys.endedOnFirstError {σ : Type} (env : StreamEnv σ) (t : StreamSys σ) : Prop :=
  t.returned = true ∧ t.doneCh = some true ∧
    ∃ sent v err, t.encoded = sent ++ [v] ∧ env.gobEncode sent v = .error err ∧
      allEncoded env sent

/-- Between the stream states `t` and `t1` exactly one envelope, `v`, is sent:
`v` is the one value handed to the encoder; when that encode succeeds its bytes
are written, the response is flushed once and the handler serves on; when it
fails nothing is written or flushed and the handler has returned with `doneCh`
closed. -/
def StreamSys.sends {σ : Type} (env : StreamEnv σ) (v : Any) (t t1 : StreamSys σ) : Prop :=
  t1.encoded = t.encoded ++ [v] ∧
  match env.gobEncode t.encoded v with
  | .ok b =>
    t1.sys.w.writes = t.sys.w.writes ++ [b] ∧ t1.sys.w.flushes = t.sys.w.flushes + 1 ∧
      t1.returned = false ∧ t1.doneCh = some false
  | .error _ => t1.sys.w = t.sys.w ∧ t1.returned = true ∧ t1.doneCh = some true

namespace event

/-- Modelled from the spec: `event.NewPattern` (package `pkg/event`) is not in
src. "`Listen` parses optional `prefix` / `suffix`": the "prefix/suffix pattern"
of the object keys that begin with the prefix and end with the suffix, written
with the wildcard `*` between the two; an absent part is the empty string. -/
def NewPattern (prefix_ suffix : String) : String :=
  prefix_ ++ "*" ++ suffix

/-- Modelled from the spec: the match of an object key against a "prefix/suffix
pattern" (package `pkg/wildcard`, not in src): `*` stands for any run of
characters, every other character for itself. -/
def wildcardMatch : List Char → List Char → Bool
  | [], name => name.isEmpty
  | p :: pattern, name =>
    if p = '*' then name.tails.any (fun rest => wildcardMatch pattern rest)
    else
      match name with
      | [] => false
      | c :: cs => p == c && wildcardMatch pattern cs

/-- Modelled from the spec: `event.NewRulesMap` is not in src. "builds a
rules-map keyed by a freshly-minted target id": one rule per requested event
name, with the pattern and the target id. -/
def NewRulesMap (eventNames : List Name) (pattern : String) (targetID : String) : RulesMap :=
  eventNames.map (fun eventName => (eventName, pattern, targetID))

/-- Modelled from the spec: `RulesMap.MatchSimple` is not in src. A rules-map
matches an event name and an object key when one of its rules is for that name
and its pattern matches the key. -/
def MatchSimple (rulesMap : RulesMap) (eventName : Name) (objectName : String) : Bool :=
  rulesMap.any (fun rule =>
    rule.1 == eventName && wildcardMatch rule.2.1.toList objectName.toList)

end event

/-! ## KMS-backed stream encryption of configuration -/

/-- A `kms.Context`: an ordered mapping from strings to strings. -/
abbrev Context := GoMap String

/-- A KMS, by its contract: `GenerateKey` gives a new data key and its wrapped
form for a context, `DecryptKey` unwraps a data key under a context. -/
structure KMS where
  GenerateKey : Context → List Nat × List Nat
  DecryptKey : List Nat → Context → Except String (List Nat)

/-- The contract of a KMS: a data key wrapped under a context unwraps under the
same context. -/
def KMS.lawful (kms : KMS) : Prop :=
  ∀ ctx, kms.DecryptKey (kms.GenerateKey ctx).2 ctx = .ok (kms.GenerateKey ctx).1

/-- An AEAD for streams, by its contract: `Seal` and `Open` take the data key, the
nonce of the stream, the position of the chunk and the associated data. -/
structure StreamCipher where
  Algorithm : String
  chunkSize : Nat
  Seal : List Nat → List Nat → Nat → Context → List Nat → List Nat
  Open : List Nat → List Nat → Nat → Context → List Nat → Except String (List Nat)

/-- The contract of an AEAD: what was sealed opens under the same key, nonce,
position and associated data. -/
def StreamCipher.lawful (c : StreamCipher) : Prop :=
  ∀ key nonce i ad chunk, c.Open key nonce i ad (c.Seal key nonce i ad chunk) = .ok chunk

/-- Modelled from the spec: the framing of `cmd/config/crypto.go`, which is not
in src: "ciphertext stream framed as algorithm id, wrapped data key, nonce,
ciphertext chunks". -/
structure EncryptedConfig where
  Algorithm : String
  WrappedKey : List Nat
  Nonce : List Nat
  Chunks : List (List Nat)
deriving DecidableEq, Repr

/-- The pieces of at most `size + 1` bytes of a byte sequence, in order; `fuel`
bounds the number of pieces. -/
def chunksAux (size : Nat) : Nat → List Nat → List (List Nat)
  | 0, _ => []
  | _ + 1, [] => []
  | fuel + 1, b :: bs => (b :: bs).take (size + 1) :: chunksAux size fuel ((b :: bs).drop (size + 1))

/-- The chunks of a plaintext for a chunk size (a size of zero counts as one). -/
def chunks (size : Nat) (plaintext : List Nat) : List (List Nat) :=
  chunksAux (size - 1) plaintext.length plaintext

/-- Seal the chunks of a stream, the first one at position `i`. -/
def sealChunks (c : StreamCipher) (key nonce : List Nat) (ad : Context) :
    Nat → List (List Nat) → List (List Nat)
  | _, [] => []
  | i, chunk :: rest => c.Seal key nonce i ad chunk :: sealChunks c key nonce ad (i + 1) rest

/-- Open the chunks of a stream, the first one at position `i`, and concatenate
the plaintext; the first chunk that fails authentication gives the error. -/
def openChunks (c : StreamCipher) (key nonce : List Nat) (ad : Context) :
    Nat → List (List Nat) → Except String (List Nat)
  | _, [] => .ok []
  | i, sealed :: rest =>
    match c.Open key nonce i ad sealed with
    | .error e => .error e
    | .ok chunk =>
      match openChunks c key nonce ad (i + 1) rest with
      | .error e => .error e
      | .ok tail => .ok (chunk ++ tail)

/-- Modelled from the spec: `Encrypt` of `cmd/config/crypto.go` is not in src.
"`Encrypt(kms, plaintextReader, context)` gives a ciphertextReader"; the
ciphertext is "framed as algorithm id, wrapped data key, nonce, ciphertext
chunks" and the context is "bound into the AEAD associated data". The result
is the ciphertext stream read to its end; `nonce` is the random nonce drawn
for the stream. -/
def Encrypt (kms : KMS) (c : StreamCipher) (nonce : List Nat) (plaintext : List Nat)
    (ctx : Context) : EncryptedConfig :=
  { Algorithm := c.Algorithm
    WrappedKey := (kms.GenerateKey ctx).2
    Nonce := nonce
    Chunks := sealChunks c (kms.GenerateKey ctx).1 nonce ctx 0 (chunks c.chunkSize plaintext) }

/-- Modelled from the spec: `Decrypt` of `cmd/config/crypto.go` is not in src; the
"inverse" of `Encrypt`: the data key is unwrapped under the context, every
chunk is opened with the context as associated data, and "decrypt with a
differing context MUST fail". The result is the plaintext stream read to
its end, or the error that ends it. -/
def Decrypt (kms : KMS) (c : StreamCipher) (ciphertext : EncryptedConfig) (ctx : Context) :
    Except String (List Nat) :=
  if ciphertext.Algorithm ≠ c.Algorithm then .error "unsupported algorithm"
  else
    match kms.DecryptKey ciphertext.WrappedKey ctx with
    | .error e => .error e
    | .ok key => openChunks c key ciphertext.Nonce ctx 0 ciphertext.Chunks

/-- A KMS for examples: the wrapped key records the size of the context. -/
def sampleKMS : KMS :=
  { GenerateKey := fun ctx => ([221, 237, 173, 184], [ctx.length])
    DecryptKey := fun wrapped ctx =>
      if wrapped = [ctx.length] then .ok [221, 237, 173, 184] else .error "access denied" }

/-- A stream cipher for examples: a sealed chunk carries its position and the
size of the associated data in front of the shifted bytes. -/
def sampleCipher : StreamCipher :=
  { Algorithm := "AES-256-GCM"
    chunkSize := 4
    Seal := fun _ _ i ad chunk => i :: ad.length :: chunk.map (fun b => b + 1)
    Open := fun _ _ i ad sealed =>
      match sealed with
      | j :: n :: body =>
        if j = i ∧ n = ad.length then .ok (body.map (fun b => b - 1))
        else .error "authentication failed"
      | _ => .error "authentication failed" }

/-! ## A sample deployment

A concrete environment on which the theorems below are instantiated: the
collaborators keep a journal of the calls they served, peer requests are valid
when they carry an `Authorization` header, and the bucket `mybucket` exists. -/

/-- The object layer of the sample environment: only `mybucket` exists. -/
def sampleObjectLayer : ObjectLayer :=
  { GetBucketInfo := fun b => if b = "mybucket" then none else some "NoSuchBucket" }

/-- The sample environment. -/
def sampleEnv : Env (List Call) where
  storageServerRequestValidate := fun r =>
    if r.Header.has "Authorization" then none else some "JWT token missing"
  newObjectLayerFn := some sampleObjectLayer
  localMetacacheMgr := true
  exec := fun c st => (none, st ++ [c])
  loadBucketMetadata := fun _ _ => .ok {}
  getValidConfig := fun _ => .ok []
  gobDecodeRulesMap := fun _ => .ok []
  gobDecodeServerUpdateInfo := fun _ => .error "EOF"
  reportedMetrics := fun _ => ["minio_node_uptime"]
  gobEncodeMetric := fun m => .ok m
  checkRequestAuthType := fun r _ _ =>
    if r.Header.has "Authorization" then .ErrNone else .ErrOther 1
  errorCodes := fun code =>
    match code with
    | .ErrServerNotInitialized => { Code := "XMinioServerNotInitialized", HTTPStatusCode := 503 }
    | _ => { Code := "AccessDenied", HTTPStatusCode := 403 }
  ToAPIError := fun err => { Code := err, HTTPStatusCode := 400 }
  ParseLifecycleConfig := fun body =>
    match body with
    | [0] => .ok { Rules := [{ ID := "expire", TransitionStorageClass := none }] }
    | [1] => .ok { Rules := [{ ID := "tier", TransitionStorageClass := some "S3:GLACIER_X" }] }
    | _ => .error "MalformedXML"
  Validate := fun _ => none
  transitionTarget := fun _ sc => sc == "S3:TIER1"
  errTransitionTarget := fun _ => "InvalidStorageClass"
  xmlMarshal := fun lc => .ok [lc.Rules.length]
  errServerNotInitialized := "Server not initialized, please try again"
  errInvalidArgument := "Invalid arguments specified"
  peerRESTPolicy := "policy"
  peerRESTUserOrGroup := "user-or-group"
  peerRESTIsGroup := "is-group"
  peerRESTUser := "user"
  peerRESTUserTemp := "user-temp"
  peerRESTGroup := "group"
  peerRESTProfiler := "profiler"
  peerRESTBucket := "bucket"
  peerRESTSignal := "signal"
  serviceRestart := 0
  serviceStop := 1
  serviceReloadDynamic := 2
  ContentMD5 := "Content-Md5"

/-- A peer request that passes validation in the sample environment. -/
def signedRequest (vars : GoMap String) : Request :=
  { vars := vars, Header := [("Authorization", ["Bearer token"])] }

/-- A peer request that fails validation in the sample environment. -/
def unsignedRequest (vars : GoMap String) : Request :=
  { vars := vars }

/-- The steps of PUT lifecycle that come before `Update`, as the spec lists
them: object layer present, `Content-MD5` present, authorization, bucket
exists, XML parse, `Validate()`, `validateLifecycleTransition`, marshal. The
result is the marshalled configuration when every step succeeds. -/
def putLifecycleSteps {σ : Type} (env : Env σ) (r : Request) : Option (List Nat) :=
  match env.newObjectLayerFn with
  | none => none
  | some objAPI =>
    if r.Header.has env.ContentMD5 = true
        ∧ env.checkRequestAuthType r .PutBucketLifecycleAction (r.vars.get "bucket") = .ErrNone
        ∧ objAPI.GetBucketInfo (r.vars.get "bucket") = none then
      match env.ParseLifecycleConfig (LimitReader r.Body r.ContentLength) with
      | .error _ => none
      | .ok lc =>
        if env.Validate lc = none
            ∧ validateLifecycleTransition env (r.vars.get "bucket") lc = none then
          match env.xmlMarshal lc with
          | .error _ => none
          | .ok configData => some configData
        else none
    else none

/-- A PUT/DELETE lifecycle request for `bucket` carrying the given headers and body. -/
def lifecycleRequest (bucket : String) (header : GoMap (List String)) (body : List Nat) :
    Request :=
  { vars := [("bucket", bucket)], Header := header, Body := body,
    ContentLength := body.length }

/-- The sample environment with a stored notification configuration: every
bucket's metadata has one notification rule and no bucket targets. -/
def sampleEnvWithNotifications : Env (List Call) :=
  { sampleEnv with
    loadBucketMetadata := fun _ _ =>
      .ok { notificationConfig :=
              some { ToRulesMap := [("s3:ObjectCreated:Put", "*", "arn:minio:sqs::1:webhook")] },
            bucketTargetConfig := none } }

/-- The sample environment with drive probes: the serial probe reports the
error `disk offline`, the parallel probe reports `timeout`. -/
def sampleProbeEnv : ProbeEnv (List Call) :=
  { sampleEnv with
    getLocalDrives := fun parallel _ _ =>
      if parallel then { Addr := "node1:9000", Parallel := ["d1"], Error := "timeout" }
      else { Addr := "node1:9000", Serial := ["d1"], Error := "disk offline" }
    gobEncodeDrivesInfo := fun info => .ok info.Error }

/-- A signed `NetInfo` request with the given body and declared length. -/
def netInfoRequest (body : List Nat) (declared : Int) : Request :=
  { Header := [("Authorization", ["Bearer token"])], Body := body, ContentLength := declared }

/-- One pool of two sets: a `nil` disk, local disks with the ids `a` and `c`, a
remote disk, a local disk with an empty id and a local disk whose id fails. -/
def samplePools : erasureServerPools :=
  { serverPools := [{ sets := [
      { getDisks := [none, some { IsLocal := true, GetDiskID := .ok "a" },
          some { IsLocal := false, GetDiskID := .ok "b" }] },
      { getDisks := [some { IsLocal := true, GetDiskID := .ok "" },
          some { IsLocal := true, GetDiskID := .error "disk not found" },
          some { IsLocal := true, GetDiskID := .ok "c" }] }] }] }

/-- A listener whose 2000-deep buffer is full. -/
def fullListener : Subscription Nat :=
  { cap := 2000, buffer := List.replicate 2000 0, filter := fun _ => true }

/-- A listener with two events waiting in its 2000-deep buffer. -/
def readyListener : Subscription Nat :=
  { cap := 2000, buffer := [1, 2], filter := fun _ => true }

/-- A publisher with a full listener in front of a ready one. -/
def samplePublisher : List (Subscription Nat) :=
  [fullListener, readyListener]

/-- The sample environment with a lock server that holds one lock. -/
def sampleLocksEnv : LocksEnv (List Call) :=
  { sampleEnv with
    DupLockMap := fun _ => [("mybucket/object", ["writer node1:9000"])]
    gobEncodeLockMap := fun m => .ok (String.join (m.map (fun e => e.1))) }

/-- The text that the sample gob codec writes for a value. -/
def sampleEncoding : Any → String
  | .Event ev => "event " ++ ev.EventName ++ " " ++ ev.S3.Object.Key ++ ";"
  | .Info info => "trace " ++ info.FuncName ++ ";"
  | .LogEntry entry => "log " ++ entry ++ ";"

/-- The sample environment with streams: the `event` package as modelled from
the spec, a trace filter that lets every `trace.Info` pass, and a peer that
takes three envelopes and then goes away, so that the fourth encode fails. -/
def sampleStreamEnv : StreamEnv (List Call) :=
  { sampleEnv with
    ValidateFilterRuleValue := fun value =>
      if value.length ≤ 1024 then none else some "invalid filter value"
    NewPattern := event.NewPattern
    ParseName := fun name =>
      if name ∈ ["s3:ObjectCreated:Put", "s3:ObjectCreated:Copy", "s3:ObjectRemoved:Delete",
          "s3:ObjectAccessed:Get"] then .ok name
      else .error ("invalid event name " ++ name)
    NewRulesMap := event.NewRulesMap
    MatchSimple := event.MatchSimple
    mustGetUUID := fun _ => "6ba7b810-9dad-41d1-80b4-00c04fd430c8"
    mustTrace := fun entry _ =>
      match entry with
      | .Info _ => true
      | _ => false
    ParseDuration := fun t =>
      if t = "1s" then .ok 1000000000 else .error ("time: invalid duration " ++ t)
    gobEncode := fun sent v =>
      if sent.length < 3 then .ok (sampleEncoding v) else .error "write: broken pipe"
    peerRESTListenBucket := "bucket"
    peerRESTListenPrefix := "prefix"
    peerRESTListenSuffix := "suffix"
    peerRESTListenEvents := "events"
    peerRESTTraceErr := "err"
    peerRESTTraceStorage := "storage"
    peerRESTTraceInternal := "internal"
    peerRESTTraceS3 := "s3"
    peerRESTTraceOS := "os"
    peerRESTTraceThreshold := "threshold" }

/-- The signed request `listen?prefix=logs/&suffix=.json&events=s3:ObjectCreated:Put`. -/
def listenRequest : Request :=
  { Header := [("Authorization", ["Bearer token"])],
    URLQuery := [("prefix", ["logs/"]), ("suffix", [".json"]),
      ("events", ["s3:ObjectCreated:Put"])] }

/-- A signed request without parameters. -/
def streamRequest : Request :=
  { Header := [("Authorization", ["Bearer token"])] }

/-- An `s3:ObjectCreated:Put` event for the object `key` of `bucket`. -/
def putEvent (bucket key : String) : Any :=
  .Event { EventName := "s3:ObjectCreated:Put",
           S3 := { Bucket := { Name := bucket }, Object := { Key := key } } }

/-! ## Theorems -/

section Theorems

variable {σ : Type}

open peerRESTServer

/-- A request that fails validation leaves `IsValid` with the 403 response. -/
theorem IsValid_of_error (env : Env σ) (r : Request) (s : Sys σ) (e : String)
    (hv : env.storageServerRequestValidate r = some e) :
    IsValid env r s = (false, peerRESTServer.WriteErrorResponse e s) := by
  simp [IsValid, hv]

/-- A request that passes validation leaves `IsValid` without any effect. -/
theorem IsValid_of_ok (env : Env σ) (r : Request) (s : Sys σ)
    (hv : env.storageServerRequestValidate r = none) :
    IsValid env r s = (true, s) := by
  simp [IsValid, hv]

/-- C1: every state-mutating peer handler answers a request that fails
`storageServerRequestValidate` with status 403 and touches nothing but the
response writer: the collaborators' state (IAM tables, bucket-metadata,
replication-stats and metacache caches, notification rules), the call log, the
profiler registry and the profilers, and the service-signal channel are all
unchanged. -/
theorem invalid_request_is_forbidden_and_mutates_nothing (h : MutatingHandler)
    (env : Env σ) (r : Request) (s : Sys σ) (e : String)
    (hv : env.storageServerRequestValidate r = some e) (hw : s.w.status = none) :
    (h.serve env r s).w.status = some 403 ∧
    (h.serve env r s).st = s.st ∧
    (h.serve env r s).calls = s.calls ∧
    (h.serve env r s).globalProfiler = s.globalProfiler ∧
    (h.serve env r s).started = s.started ∧
    (h.serve env r s).stopped = s.stopped ∧
    (h.serve env r s).globalServiceSignalCh = s.globalServiceSignalCh := by
  cases h <;>
    simp [MutatingHandler.serve, DeletePolicyHandler, LoadPolicyHandler,
      LoadPolicyMappingHandler, DeleteUserHandler, LoadUserHandler,
      DeleteServiceAccountHandler, LoadServiceAccountHandler, LoadGroupHandler,
      StartProfilingHandler, DeleteBucketMetadataHandler, LoadBucketMetadataHandler,
      PutBucketNotificationHandler, SignalServiceHandler, ServerUpdateHandler,
      IsValid_of_error env r s e hv, peerRESTServer.WriteErrorResponse,
      ResponseWriter.WriteHeader, ResponseWriter.Write, hw]

/-- Witness of C1: an unsigned `SignalService` restart request in the sample environment. -/
theorem invalid_request_is_forbidden_and_mutates_nothing_witness :
    (sampleEnv.storageServerRequestValidate (unsignedRequest [("signal", "0")])
        = some "JWT token missing" ∧
      (Sys.init ([] : List Call)).w.status = none) ∧
    ((MutatingHandler.SignalService.serve sampleEnv (unsignedRequest [("signal", "0")])
        (Sys.init [])).w.status = some 403 ∧
      (MutatingHandler.SignalService.serve sampleEnv (unsignedRequest [("signal", "0")])
        (Sys.init [])).st = [] ∧
      (MutatingHandler.SignalService.serve sampleEnv (unsignedRequest [("signal", "0")])
        (Sys.init [])).globalServiceSignalCh = []) :=
  have h := invalid_request_is_forbidden_and_mutates_nothing MutatingHandler.SignalService
    sampleEnv (unsignedRequest [("signal", "0")]) (Sys.init []) "JWT token missing" rfl rfl
  ⟨⟨rfl, rfl⟩, h.1, h.2.1, h.2.2.2.2.2.2⟩

/-- C2 (the code at the failing input): on an unsigned request `GetPeerMetrics`
does not stop after the 403 response. It goes on to call `ReportMetrics` and
encodes the metric into the body, after the two error texts; the status stays
403 only because the later `WriteHeader(200)` is superfluous. -/
theorem GetPeerMetrics_continues_after_failed_validation :
    sampleEnv.storageServerRequestValidate (unsignedRequest []) = some "JWT token missing" ∧
    (GetPeerMetrics sampleEnv (unsignedRequest []) (Sys.init [])).calls = [Call.ReportMetrics] ∧
    (GetPeerMetrics sampleEnv (unsignedRequest []) (Sys.init [])).w.writes
      = ["JWT token missing", "invalid request", "minio_node_uptime"] ∧
    (GetPeerMetrics sampleEnv (unsignedRequest []) (Sys.init [])).w.status = some 403 ∧
    (GetPeerMetrics sampleEnv (unsignedRequest []) (Sys.init [])).w.flushes = 2 := by
  refine ⟨rfl, rfl, rfl, rfl, rfl⟩

/-- The body after one more write is the old body followed by the new chunk. -/
theorem body_append_write (ws : List String) (b : String) :
    String.join (ws ++ [b]) = String.join ws ++ b := by
  apply String.ext
  simp [String.data_join]

/-- The body of a response with a single write is that write. -/
theorem body_single_write (b : String) : String.join [b] = b := by
  apply String.ext
  simp [String.data_join]

/-- The empty string is not a number for `strconv.Atoi`. -/
theorem Atoi_empty (si : Int) : Atoi "" ≠ .ok si := by
  simp [Atoi]

/-- C3: for a valid `SignalService` request whose signal parses as the integer
`si`, the handler sends on `globalServiceSignalCh` exactly once, the value `si`,
when `si` is `serviceRestart` or `serviceStop`, and sends nothing otherwise; and
when `si` is none of `serviceRestart`, `serviceStop`, `serviceReloadDynamic` the
response is 403 with the text of `errUnsupportedSignal`. -/
theorem SignalService_sends_iff_restart_or_stop (env : Env σ) (r : Request) (s : Sys σ)
    (si : Int)
    (hv : env.storageServerRequestValidate r = none)
    (hp : Atoi (r.vars.get env.peerRESTSignal) = .ok si)
    (hw : s.w = {}) :
    ((si = env.serviceRestart ∨ si = env.serviceStop) →
      (SignalServiceHandler env r s).globalServiceSignalCh
        = s.globalServiceSignalCh ++ [si]) ∧
    (¬ (si = env.serviceRestart ∨ si = env.serviceStop) →
      (SignalServiceHandler env r s).globalServiceSignalCh = s.globalServiceSignalCh) ∧
    (si ≠ env.serviceRestart → si ≠ env.serviceStop → si ≠ env.serviceReloadDynamic →
      (SignalServiceHandler env r s).w.status = some 403 ∧
      (SignalServiceHandler env r s).w.body
        = "unsupported signal: only restart and stop signals are supported" ∧
      (SignalServiceHandler env r s).globalServiceSignalCh = s.globalServiceSignalCh ∧
      (SignalServiceHandler env r s).calls = s.calls ∧
      (SignalServiceHandler env r s).st = s.st) := by
  have hne : r.vars.get env.peerRESTSignal ≠ "" := by
    intro h0
    rw [h0] at hp
    exact Atoi_empty si hp
  refine ⟨?_, ?_, ?_⟩
  · rintro (h | h)
    · simp [SignalServiceHandler, IsValid_of_ok env r s hv, hne, hp, h, sendServiceSignal,
        Flush]
    · by_cases h1 : si = env.serviceRestart
      · simp [SignalServiceHandler, IsValid_of_ok env r s hv, hne, hp, h1, sendServiceSignal,
          Flush]
      · simp [SignalServiceHandler, IsValid_of_ok env r s hv, hne, hp, h, h1,
          sendServiceSignal, Flush]
  · intro h
    have h1 : si ≠ env.serviceRestart := fun h1 => h (Or.inl h1)
    have h2 : si ≠ env.serviceStop := fun h2 => h (Or.inr h2)
    by_cases h3 : si = env.serviceReloadDynamic
    · subst h3
      have h3 : True := trivial
      cases hn : env.newObjectLayerFn with
      | none =>
        simp [SignalServiceHandler, IsValid_of_ok env r s hv, hne, hp, h1, h2, h3, hn, Flush,
          peerRESTServer.WriteErrorResponse]
      | some o =>
        cases hg : env.getValidConfig s.st with
        | error err =>
          simp [SignalServiceHandler, IsValid_of_ok env r s hv, hne, hp, h1, h2, h3, hn, hg,
            Flush, peerRESTServer.WriteErrorResponse]
        | ok cfg =>
          cases he : (env.exec (Call.applyDynamicConfig cfg) s.st).1 <;>
            simp [SignalServiceHandler, IsValid_of_ok env r s hv, hne, hp, h1, h2, h3, hn, hg,
              he, invoke, Flush, peerRESTServer.WriteErrorResponse]
    · simp [SignalServiceHandler, IsValid_of_ok env r s hv, hne, hp, h1, h2, h3, Flush,
        peerRESTServer.WriteErrorResponse]
  · intro h1 h2 h3
    simp [SignalServiceHandler, IsValid_of_ok env r s hv, hne, hp, h1, h2, h3, Flush,
      peerRESTServer.WriteErrorResponse, ResponseWriter.WriteHeader, ResponseWriter.Write,
      ResponseWriter.Flush, ResponseWriter.body, hw, errUnsupportedSignal, body_single_write]

/-- Witness of C3: a signed `SignalService` request with signal `1` (`serviceStop`)
in the sample environment. -/
theorem SignalService_sends_iff_restart_or_stop_witness :
    (sampleEnv.storageServerRequestValidate (signedRequest [("signal", "1")]) = none ∧
      Atoi ((signedRequest [("signal", "1")]).vars.get sampleEnv.peerRESTSignal) = .ok 1 ∧
      (Sys.init ([] : List Call)).w = {}) ∧
    (SignalServiceHandler sampleEnv (signedRequest [("signal", "1")])
      (Sys.init [])).globalServiceSignalCh = [] ++ [1] :=
  ⟨⟨rfl, rfl, rfl⟩,
    (SignalService_sends_iff_restart_or_stop sampleEnv (signedRequest [("signal", "1")])
      (Sys.init []) 1 rfl rfl rfl).1 (Or.inr rfl)⟩

/-- C4: each of the seven IAM handlers answers a valid request on an initialised
object layer whose required route variable is empty with status 403 and a
body ending in "is missing", and makes no collaborator call, so that no
`GlobalIAMSys` operation runs and the collaborators' state is unchanged. -/
theorem iam_missing_parameter_is_forbidden (h : IAMHandler) (env : Env σ) (r : Request)
    (s : Sys σ) (o : ObjectLayer)
    (hv : env.storageServerRequestValidate r = none)
    (ho : env.newObjectLayerFn = some o)
    (hp : r.vars.get (h.requiredVar env) = "")
    (hw : s.w.status = none) :
    (h.serve env r s).w.status = some 403 ∧
    (∃ p, (h.serve env r s).w.body = s.w.body ++ p ++ "is missing") ∧
    (h.serve env r s).calls = s.calls ∧
    (h.serve env r s).st = s.st := by
  cases h
  case DeletePolicy =>
    refine ⟨?_, ⟨"policyName ", ?_⟩, ?_, ?_⟩ <;>
      simp_all [IAMHandler.serve, IAMHandler.requiredVar, DeletePolicyHandler,
        IsValid_of_ok env r s hv, peerRESTServer.WriteErrorResponse,
        ResponseWriter.WriteHeader, ResponseWriter.Write, ResponseWriter.body,
        body_append_write, String.append_assoc]
  case LoadPolicy =>
    refine ⟨?_, ⟨"policyName ", ?_⟩, ?_, ?_⟩ <;>
      simp_all [IAMHandler.serve, IAMHandler.requiredVar, LoadPolicyHandler,
        IsValid_of_ok env r s hv, peerRESTServer.WriteErrorResponse,
        ResponseWriter.WriteHeader, ResponseWriter.Write, ResponseWriter.body,
        body_append_write, String.append_assoc]
  case LoadPolicyMapping =>
    refine ⟨?_, ⟨"user-or-group ", ?_⟩, ?_, ?_⟩ <;>
      simp_all [IAMHandler.serve, IAMHandler.requiredVar, LoadPolicyMappingHandler,
        IsValid_of_ok env r s hv, peerRESTServer.WriteErrorResponse,
        ResponseWriter.WriteHeader, ResponseWriter.Write, ResponseWriter.body,
        body_append_write, String.append_assoc]
  case DeleteUser =>
    refine ⟨?_, ⟨"username ", ?_⟩, ?_, ?_⟩ <;>
      simp_all [IAMHandler.serve, IAMHandler.requiredVar, DeleteUserHandler,
        IsValid_of_ok env r s hv, peerRESTServer.WriteErrorResponse,
        ResponseWriter.WriteHeader, ResponseWriter.Write, ResponseWriter.body,
        body_append_write, String.append_assoc]
  case LoadUser =>
    refine ⟨?_, ⟨"username ", ?_⟩, ?_, ?_⟩ <;>
      simp_all [IAMHandler.serve, IAMHandler.requiredVar, LoadUserHandler,
        IsValid_of_ok env r s hv, peerRESTServer.WriteErrorResponse,
        ResponseWriter.WriteHeader, ResponseWriter.Write, ResponseWriter.body,
        body_append_write, String.append_assoc]
  case DeleteServiceAccount =>
    refine ⟨?_, ⟨"service account name ", ?_⟩, ?_, ?_⟩ <;>
      simp_all [IAMHandler.serve, IAMHandler.requiredVar, DeleteServiceAccountHandler,
        IsValid_of_ok env r s hv, peerRESTServer.WriteErrorResponse,
        ResponseWriter.WriteHeader, ResponseWriter.Write, ResponseWriter.body,
        body_append_write, String.append_assoc]
  case LoadServiceAccount =>
    refine ⟨?_, ⟨"service account parameter ", ?_⟩, ?_, ?_⟩ <;>
      simp_all [IAMHandler.serve, IAMHandler.requiredVar, LoadServiceAccountHandler,
        IsValid_of_ok env r s hv, peerRESTServer.WriteErrorResponse,
        ResponseWriter.WriteHeader, ResponseWriter.Write, ResponseWriter.body,
        body_append_write, String.append_assoc]

/-- Witness of C4: a signed `LoadUser` request with an empty `user` variable in
the sample environment. -/
theorem iam_missing_parameter_is_forbidden_witness :
    (sampleEnv.storageServerRequestValidate (signedRequest [("user", "")]) = none ∧
      (signedRequest [("user", "")]).vars.get (IAMHandler.LoadUser.requiredVar sampleEnv) = "" ∧
      (Sys.init ([] : List Call)).w.status = none) ∧
    ((IAMHandler.LoadUser.serve sampleEnv (signedRequest [("user", "")])
        (Sys.init [])).w.status = some 403 ∧
      (IAMHandler.LoadUser.serve sampleEnv (signedRequest [("user", "")])
        (Sys.init [])).calls = []) :=
  have h := iam_missing_parameter_is_forbidden IAMHandler.LoadUser sampleEnv
    (signedRequest [("user", "")]) (Sys.init [])
    sampleObjectLayer rfl rfl rfl rfl
  ⟨⟨rfl, rfl, rfl⟩, h.1, h.2.2.1⟩

/-- C5 (the code at the failing input): `LoadGroupHandler` has no check of the
group variable. A valid request with an empty group on an initialised object
layer reaches `GlobalIAMSys.LoadGroup(objAPI, "")`; when that call succeeds the
response is 200 with an empty body instead of 403 "... is missing". -/
theorem LoadGroupHandler_calls_LoadGroup_with_empty_group :
    sampleEnv.storageServerRequestValidate (signedRequest [("group", "")]) = none ∧
    sampleEnv.newObjectLayerFn.isSome = true ∧
    (signedRequest [("group", "")]).vars.get sampleEnv.peerRESTGroup = "" ∧
    (LoadGroupHandler sampleEnv (signedRequest [("group", "")]) (Sys.init [])).calls
      = [Call.LoadGroup ""] ∧
    (LoadGroupHandler sampleEnv (signedRequest [("group", "")]) (Sys.init [])).st
      = [Call.LoadGroup ""] ∧
    (LoadGroupHandler sampleEnv (signedRequest [("group", "")]) (Sys.init [])).w.status
      = some 200 ∧
    (LoadGroupHandler sampleEnv (signedRequest [("group", "")]) (Sys.init [])).w.writes = [] := by
  refine ⟨rfl, rfl, rfl, rfl, rfl, rfl, rfl⟩

/-- C7: a PUT lifecycle request without a `Content-MD5` header, on an initialised
object layer, is answered with the `MissingContentMD5` error, HTTP status 400;
the only calls are that error response and the audit log, so
`globalBucketMetadataSys.Update` is not called and the collaborators' state
(bucket metadata included) is unchanged. -/
theorem PutBucketLifecycle_requires_ContentMD5 (env : Env σ) (r : Request) (s : Sys σ)
    (o : ObjectLayer)
    (ho : env.newObjectLayerFn = some o)
    (hmd5 : r.Header.has env.ContentMD5 = false)
    (hw : s.w = {}) :
    (ObjectAPIHandlers.PutBucketLifecycleHandler env r s).w.status = some 400 ∧
    (ObjectAPIHandlers.PutBucketLifecycleHandler env r s).w.body = "MissingContentMD5" ∧
    (ObjectAPIHandlers.PutBucketLifecycleHandler env r s).calls
      = s.calls ++ [Call.apiWriteErrorResponse
          { Code := "MissingContentMD5", HTTPStatusCode := 400 },
        Call.AuditLog "PutBucketLifecycle"] ∧
    (∀ bucket configFile configData, Call.bucketMetadataUpdate bucket configFile configData
      ∉ (ObjectAPIHandlers.PutBucketLifecycleHandler env r s).calls.drop s.calls.length) ∧
    (ObjectAPIHandlers.PutBucketLifecycleHandler env r s).st = s.st := by
  simp [ObjectAPIHandlers.PutBucketLifecycleHandler, ho, hmd5, errorCodes.ToAPIErr,
    WriteErrorResponse, record, ResponseWriter.WriteHeader, ResponseWriter.Write,
    ResponseWriter.body, body_single_write, hw]

/-- Witness of C7: a PUT lifecycle request for `mybucket` without any header in
the sample environment. -/
theorem PutBucketLifecycle_requires_ContentMD5_witness :
    ((unsignedRequest [("bucket", "mybucket")]).Header.has sampleEnv.ContentMD5 = false ∧
      (Sys.init ([] : List Call)).w = {}) ∧
    ((ObjectAPIHandlers.PutBucketLifecycleHandler sampleEnv
        (unsignedRequest [("bucket", "mybucket")]) (Sys.init [])).w.status = some 400 ∧
      (ObjectAPIHandlers.PutBucketLifecycleHandler sampleEnv
        (unsignedRequest [("bucket", "mybucket")]) (Sys.init [])).st = []) :=
  have h := PutBucketLifecycle_requires_ContentMD5 sampleEnv
    (unsignedRequest [("bucket", "mybucket")]) (Sys.init [])
    sampleObjectLayer rfl rfl rfl
  ⟨⟨rfl, rfl⟩, h.1, h.2.2.2.2⟩

/-- C8 (counterexample): a PUT lifecycle request that fails authorization (no
`Authorization` header, error `AccessDenied`/403) and has no `Content-MD5` header
is answered with `MissingContentMD5`/400, not with the authorization error. -/
theorem PutBucketLifecycle_auth_before_ContentMD5_counterexample :
    sampleEnv.checkRequestAuthType (lifecycleRequest "mybucket" [] [0])
      .PutBucketLifecycleAction "mybucket" = .ErrOther 1 ∧
    errorCodes.ToAPIErr sampleEnv (.ErrOther 1)
      = { Code := "AccessDenied", HTTPStatusCode := 403 } ∧
    (lifecycleRequest "mybucket" [] [0]).Header.has sampleEnv.ContentMD5 = false ∧
    (ObjectAPIHandlers.PutBucketLifecycleHandler sampleEnv (lifecycleRequest "mybucket" [] [0])
      (Sys.init [])).w.status ≠ some 403 ∧
    (ObjectAPIHandlers.PutBucketLifecycleHandler sampleEnv (lifecycleRequest "mybucket" [] [0])
      (Sys.init [])).calls
      = [Call.apiWriteErrorResponse { Code := "MissingContentMD5", HTTPStatusCode := 400 },
        Call.AuditLog "PutBucketLifecycle"] := by
  refine ⟨rfl, rfl, rfl, by decide, rfl⟩

/-- C8 (amended): `PutBucketLifecycleHandler` checks the `Content-MD5` header
first and authorization second. On an initialised object layer, a request that
fails `checkRequestAuthType` is answered with `MissingContentMD5` when it lacks
the header, and with the authorization error when it has the header. -/
theorem PutBucketLifecycle_checks_ContentMD5_before_auth (env : Env σ) (r : Request)
    (s : Sys σ) (o : ObjectLayer)
    (ho : env.newObjectLayerFn = some o)
    (ha : env.checkRequestAuthType r .PutBucketLifecycleAction (r.vars.get "bucket")
      ≠ .ErrNone)
    (hw : s.w = {}) :
    (r.Header.has env.ContentMD5 = false →
      (ObjectAPIHandlers.PutBucketLifecycleHandler env r s).calls
        = s.calls ++ [Call.apiWriteErrorResponse
            { Code := "MissingContentMD5", HTTPStatusCode := 400 },
          Call.AuditLog "PutBucketLifecycle"] ∧
      (ObjectAPIHandlers.PutBucketLifecycleHandler env r s).w.status = some 400) ∧
    (r.Header.has env.ContentMD5 = true →
      (ObjectAPIHandlers.PutBucketLifecycleHandler env r s).calls
        = s.calls ++ [Call.apiWriteErrorResponse (errorCodes.ToAPIErr env
            (env.checkRequestAuthType r .PutBucketLifecycleAction (r.vars.get "bucket"))),
          Call.AuditLog "PutBucketLifecycle"] ∧
      (ObjectAPIHandlers.PutBucketLifecycleHandler env r s).w.status
        = some (errorCodes.ToAPIErr env
            (env.checkRequestAuthType r .PutBucketLifecycleAction
              (r.vars.get "bucket"))).HTTPStatusCode) := by
  constructor
  · intro hmd5
    simp [ObjectAPIHandlers.PutBucketLifecycleHandler, ho, hmd5, errorCodes.ToAPIErr,
      WriteErrorResponse, record, ResponseWriter.WriteHeader, ResponseWriter.Write, hw]
  · intro hmd5
    simp [ObjectAPIHandlers.PutBucketLifecycleHandler, ho, hmd5, ha,
      WriteErrorResponse, record, ResponseWriter.WriteHeader, ResponseWriter.Write, hw]

/-- Witness of C8 (amended): the request of the counterexample, and the same
request with a `Content-MD5` header. -/
theorem PutBucketLifecycle_checks_ContentMD5_before_auth_witness :
    (sampleEnv.checkRequestAuthType (lifecycleRequest "mybucket" [("Content-Md5", ["x"])] [0])
        .PutBucketLifecycleAction "mybucket" ≠ .ErrNone ∧
      (Sys.init ([] : List Call)).w = {}) ∧
    (ObjectAPIHandlers.PutBucketLifecycleHandler sampleEnv
      (lifecycleRequest "mybucket" [("Content-Md5", ["x"])] [0]) (Sys.init [])).w.status
      = some 403 :=
  ⟨⟨by decide, rfl⟩,
    ((PutBucketLifecycle_checks_ContentMD5_before_auth sampleEnv
      (lifecycleRequest "mybucket" [("Content-Md5", ["x"])] [0]) (Sys.init [])
      sampleObjectLayer rfl (by decide) rfl).2 rfl).2⟩

/-- A transition to a storage class that resolves to no configured remote target
makes `validateLifecycleTransition` fail. -/
theorem validateLifecycleTransition_unregistered (env : Env σ) (bucket : String)
    (lc : Lifecycle) (rule : LifecycleRule) (sc : String)
    (hr : rule ∈ lc.Rules) (hsc : rule.TransitionStorageClass = some sc)
    (ht : env.transitionTarget bucket sc = false) :
    validateLifecycleTransition env bucket lc ≠ none := by
  have hmem : sc ∈ lc.Rules.filterMap (fun rule => rule.TransitionStorageClass) :=
    List.mem_filterMap.mpr ⟨rule, hr, hsc⟩
  have hsome : ((lc.Rules.filterMap (fun rule => rule.TransitionStorageClass)).find?
      (fun sc => !env.transitionTarget bucket sc)).isSome = true :=
    List.find?_isSome.mpr ⟨sc, hmem, by simp [ht]⟩
  intro h
  simp only [validateLifecycleTransition, Option.map_eq_none'] at h
  rw [h] at hsome
  exact absurd hsome (by simp)

/-- C9: in `PutBucketLifecycleHandler`, `globalBucketMetadataSys.Update(bucket,
"lifecycle.xml", data)` is called, once, exactly when every earlier step
succeeds. When a step fails the only calls are one error response and the audit
log, and the collaborators' state is unchanged, so no lifecycle is stored; a
transition to a storage class without a registered target is such a failure.
The headers-only success response (200, empty body) is written only after
`Update` returned no error; when `Update` fails its error is the response. -/
theorem PutBucketLifecycle_update_iff_all_steps_succeed (env : Env σ) (r : Request)
    (s : Sys σ) (hw : s.w = {}) :
    (∀ configData, putLifecycleSteps env r = some configData →
      (ObjectAPIHandlers.PutBucketLifecycleHandler env r s).st
        = (env.exec (.bucketMetadataUpdate (r.vars.get "bucket") "lifecycle.xml"
            (some configData)) s.st).2 ∧
      ((env.exec (.bucketMetadataUpdate (r.vars.get "bucket") "lifecycle.xml"
            (some configData)) s.st).1 = none →
        (ObjectAPIHandlers.PutBucketLifecycleHandler env r s).calls
          = s.calls ++ [Call.bucketMetadataUpdate (r.vars.get "bucket") "lifecycle.xml"
              (some configData),
            Call.writeSuccessResponseHeadersOnly, Call.AuditLog "PutBucketLifecycle"] ∧
        (ObjectAPIHandlers.PutBucketLifecycleHandler env r s).w.status = some 200 ∧
        (ObjectAPIHandlers.PutBucketLifecycleHandler env r s).w.writes = []) ∧
      (∀ err, (env.exec (.bucketMetadataUpdate (r.vars.get "bucket") "lifecycle.xml"
            (some configData)) s.st).1 = some err →
        (ObjectAPIHandlers.PutBucketLifecycleHandler env r s).calls
          = s.calls ++ [Call.bucketMetadataUpdate (r.vars.get "bucket") "lifecycle.xml"
              (some configData),
            Call.apiWriteErrorResponse (env.ToAPIError err),
            Call.AuditLog "PutBucketLifecycle"] ∧
        (ObjectAPIHandlers.PutBucketLifecycleHandler env r s).w.status
          = some (env.ToAPIError err).HTTPStatusCode)) ∧
    (putLifecycleSteps env r = none →
      (∃ apiErr, (ObjectAPIHandlers.PutBucketLifecycleHandler env r s).calls
          = s.calls ++ [Call.apiWriteErrorResponse apiErr,
            Call.AuditLog "PutBucketLifecycle"] ∧
        (ObjectAPIHandlers.PutBucketLifecycleHandler env r s).w.status
          = some apiErr.HTTPStatusCode) ∧
      (ObjectAPIHandlers.PutBucketLifecycleHandler env r s).st = s.st) ∧
    (∀ lc rule sc, env.ParseLifecycleConfig (LimitReader r.Body r.ContentLength) = .ok lc →
      rule ∈ lc.Rules → rule.TransitionStorageClass = some sc →
      env.transitionTarget (r.vars.get "bucket") sc = false →
      putLifecycleSteps env r = none) := by
  refine ⟨?_, ?_, ?_⟩
  · intro configData hsteps
    cases hn : env.newObjectLayerFn with
    | none => simp [putLifecycleSteps, hn] at hsteps
    | some o =>
      simp only [putLifecycleSteps, hn] at hsteps
      split_ifs at hsteps with h1
      obtain ⟨hm, ha, hb⟩ := h1
      cases hp : env.ParseLifecycleConfig (LimitReader r.Body r.ContentLength) with
      | error e => simp [hp] at hsteps
      | ok lc =>
        simp only [hp] at hsteps
        split_ifs at hsteps with h2
        obtain ⟨hvl, ht⟩ := h2
        cases hx : env.xmlMarshal lc with
        | error e => simp [hx] at hsteps
        | ok data =>
          simp only [hx, Option.some.injEq] at hsteps
          subst hsteps
          refine ⟨?_, ?_, ?_⟩
          · cases he : (env.exec (.bucketMetadataUpdate (r.vars.get "bucket") "lifecycle.xml"
                (some data)) s.st).1 <;>
              simp [ObjectAPIHandlers.PutBucketLifecycleHandler, hn, hm, ha, hb, hp, hvl, ht,
                hx, he, invoke, bucketLifecycleConfig, WriteErrorResponse,
                writeSuccessResponseHeadersOnly, record]
          · intro he
            simp [ObjectAPIHandlers.PutBucketLifecycleHandler, hn, hm, ha, hb, hp, hvl, ht,
              hx, he, invoke, bucketLifecycleConfig, writeSuccessResponseHeadersOnly, record,
              ResponseWriter.WriteHeader, hw]
          · intro err he
            simp [ObjectAPIHandlers.PutBucketLifecycleHandler, hn, hm, ha, hb, hp, hvl, ht,
              hx, he, invoke, bucketLifecycleConfig, WriteErrorResponse, record,
              ResponseWriter.WriteHeader, ResponseWriter.Write, hw]
  · intro hsteps
    cases hn : env.newObjectLayerFn with
    | none =>
      simp [ObjectAPIHandlers.PutBucketLifecycleHandler, hn, WriteErrorResponse, record,
        ResponseWriter.WriteHeader, ResponseWriter.Write, hw]
    | some o =>
      cases hm : r.Header.has env.ContentMD5 with
      | false =>
        simp [ObjectAPIHandlers.PutBucketLifecycleHandler, hn, hm, WriteErrorResponse, record,
          ResponseWriter.WriteHeader, ResponseWriter.Write, hw]
      | true =>
        by_cases ha : env.checkRequestAuthType r .PutBucketLifecycleAction
            (r.vars.get "bucket") = .ErrNone
        · cases hb : o.GetBucketInfo (r.vars.get "bucket") with
          | some e =>
            simp [ObjectAPIHandlers.PutBucketLifecycleHandler, hn, hm, ha, hb,
              WriteErrorResponse, record, ResponseWriter.WriteHeader, ResponseWriter.Write, hw]
          | none =>
            cases hp : env.ParseLifecycleConfig (LimitReader r.Body r.ContentLength) with
            | error e =>
              simp [ObjectAPIHandlers.PutBucketLifecycleHandler, hn, hm, ha, hb, hp,
                WriteErrorResponse, record, ResponseWriter.WriteHeader, ResponseWriter.Write,
                hw]
            | ok lc =>
              cases hvl : env.Validate lc with
              | some e =>
                simp [ObjectAPIHandlers.PutBucketLifecycleHandler, hn, hm, ha, hb, hp, hvl,
                  WriteErrorResponse, record, ResponseWriter.WriteHeader,
                  ResponseWriter.Write, hw]
              | none =>
                cases ht : validateLifecycleTransition env (r.vars.get "bucket") lc with
                | some e =>
                  simp [ObjectAPIHandlers.PutBucketLifecycleHandler, hn, hm, ha, hb, hp, hvl,
                    ht, WriteErrorResponse, record, ResponseWriter.WriteHeader,
                    ResponseWriter.Write, hw]
                | none =>
                  cases hx : env.xmlMarshal lc with
                  | error e =>
                    simp [ObjectAPIHandlers.PutBucketLifecycleHandler, hn, hm, ha, hb, hp,
                      hvl, ht, hx, WriteErrorResponse, record, ResponseWriter.WriteHeader,
                      ResponseWriter.Write, hw]
                  | ok data =>
                    simp [putLifecycleSteps, hn, hm, ha, hb, hp, hvl, ht, hx] at hsteps
        · simp [ObjectAPIHandlers.PutBucketLifecycleHandler, hn, hm, ha, WriteErrorResponse,
            record, ResponseWriter.WriteHeader, ResponseWriter.Write, hw]
  · intro lc rule sc hp hr hsc htt
    have hne := validateLifecycleTransition_unregistered env (r.vars.get "bucket") lc rule sc
      hr hsc htt
    cases hn : env.newObjectLayerFn with
    | none => simp [putLifecycleSteps, hn]
    | some o => simp [putLifecycleSteps, hn, hp, hne]

/-- Witness of C9: the spec's scenario in the sample environment, a signed PUT for
`mybucket` with `Content-MD5` whose document has a transition to `S3:GLACIER_X`,
a storage class without a registered target: status 400, nothing stored. -/
theorem PutBucketLifecycle_update_iff_all_steps_succeed_witness :
    (Sys.init ([] : List Call)).w = {} ∧
    putLifecycleSteps sampleEnv (lifecycleRequest "mybucket"
      [("Content-Md5", ["x"]), ("Authorization", ["t"])] [1]) = none ∧
    (ObjectAPIHandlers.PutBucketLifecycleHandler sampleEnv (lifecycleRequest "mybucket"
      [("Content-Md5", ["x"]), ("Authorization", ["t"])] [1]) (Sys.init [])).w.status
      = some 400 ∧
    (ObjectAPIHandlers.PutBucketLifecycleHandler sampleEnv (lifecycleRequest "mybucket"
      [("Content-Md5", ["x"]), ("Authorization", ["t"])] [1]) (Sys.init [])).st = [] :=
  ⟨rfl, rfl, rfl,
    ((PutBucketLifecycle_update_iff_all_steps_succeed sampleEnv (lifecycleRequest "mybucket"
      [("Content-Md5", ["x"]), ("Authorization", ["t"])] [1]) (Sys.init []) rfl).2.1 rfl).2⟩

/-- C10: a DELETE lifecycle request that passes authorization on an existing
bucket calls `globalBucketMetadataSys.Update(bucket, "lifecycle.xml", nil)`
exactly once, and the response is 204 with no body when that call succeeds.
When the object layer is absent, authorization fails or the bucket does not
exist, the only calls are one error response and the audit log: `Update` is not
called and the collaborators' state is unchanged. -/
theorem DeleteBucketLifecycle_updates_once_after_checks (env : Env σ) (r : Request)
    (s : Sys σ) (hw : s.w = {}) :
    (∀ o, env.newObjectLayerFn = some o →
      env.checkRequestAuthType r .PutBucketLifecycleAction (r.vars.get "bucket") = .ErrNone →
      o.GetBucketInfo (r.vars.get "bucket") = none →
      (ObjectAPIHandlers.DeleteBucketLifecycleHandler env r s).st
        = (env.exec (.bucketMetadataUpdate (r.vars.get "bucket") "lifecycle.xml" none)
            s.st).2 ∧
      ((env.exec (.bucketMetadataUpdate (r.vars.get "bucket") "lifecycle.xml" none)
            s.st).1 = none →
        (ObjectAPIHandlers.DeleteBucketLifecycleHandler env r s).calls
          = s.calls ++ [Call.bucketMetadataUpdate (r.vars.get "bucket") "lifecycle.xml" none,
            Call.writeSuccessNoContent, Call.AuditLog "DeleteBucketLifecycle"] ∧
        (ObjectAPIHandlers.DeleteBucketLifecycleHandler env r s).w.status = some 204 ∧
        (ObjectAPIHandlers.DeleteBucketLifecycleHandler env r s).w.writes = []) ∧
      (∀ err, (env.exec (.bucketMetadataUpdate (r.vars.get "bucket") "lifecycle.xml" none)
            s.st).1 = some err →
        (ObjectAPIHandlers.DeleteBucketLifecycleHandler env r s).calls
          = s.calls ++ [Call.bucketMetadataUpdate (r.vars.get "bucket") "lifecycle.xml" none,
            Call.apiWriteErrorResponse (env.ToAPIError err),
            Call.AuditLog "DeleteBucketLifecycle"])) ∧
    ((env.newObjectLayerFn = none ∨
        env.checkRequestAuthType r .PutBucketLifecycleAction (r.vars.get "bucket") ≠ .ErrNone ∨
        ∃ o err, env.newObjectLayerFn = some o ∧
          o.GetBucketInfo (r.vars.get "bucket") = some err) →
      (∃ apiErr, (ObjectAPIHandlers.DeleteBucketLifecycleHandler env r s).calls
          = s.calls ++ [Call.apiWriteErrorResponse apiErr,
            Call.AuditLog "DeleteBucketLifecycle"] ∧
        (ObjectAPIHandlers.DeleteBucketLifecycleHandler env r s).w.status
          = some apiErr.HTTPStatusCode) ∧
      (ObjectAPIHandlers.DeleteBucketLifecycleHandler env r s).st = s.st) := by
  constructor
  · intro o hn ha hb
    refine ⟨?_, ?_, ?_⟩
    · cases he : (env.exec (.bucketMetadataUpdate (r.vars.get "bucket") "lifecycle.xml"
          none) s.st).1 <;>
        simp [ObjectAPIHandlers.DeleteBucketLifecycleHandler, hn, ha, hb, he, invoke,
          bucketLifecycleConfig, WriteErrorResponse, writeSuccessNoContent, record]
    · intro he
      simp [ObjectAPIHandlers.DeleteBucketLifecycleHandler, hn, ha, hb, he, invoke,
        bucketLifecycleConfig, writeSuccessNoContent, record, ResponseWriter.WriteHeader, hw]
    · intro err he
      simp [ObjectAPIHandlers.DeleteBucketLifecycleHandler, hn, ha, hb, he, invoke,
        bucketLifecycleConfig, WriteErrorResponse, record]
  · intro hfail
    cases hn : env.newObjectLayerFn with
    | none =>
      simp [ObjectAPIHandlers.DeleteBucketLifecycleHandler, hn, WriteErrorResponse, record,
        ResponseWriter.WriteHeader, ResponseWriter.Write, hw]
    | some o =>
      by_cases ha : env.checkRequestAuthType r .PutBucketLifecycleAction
          (r.vars.get "bucket") = .ErrNone
      · rcases hfail with h | h | ⟨o1, err, h1, h2⟩
        · simp [hn] at h
        · exact absurd ha h
        · rw [hn] at h1
          cases h1
          simp [ObjectAPIHandlers.DeleteBucketLifecycleHandler, hn, ha, h2, WriteErrorResponse,
            record, ResponseWriter.WriteHeader, ResponseWriter.Write, hw]
      · simp [ObjectAPIHandlers.DeleteBucketLifecycleHandler, hn, ha, WriteErrorResponse,
          record, ResponseWriter.WriteHeader, ResponseWriter.Write, hw]

/-- Witness of C10: a signed DELETE lifecycle request for `mybucket` in the sample
environment: one `Update` call, journalled by the collaborator, and status 204. -/
theorem DeleteBucketLifecycle_updates_once_after_checks_witness :
    (Sys.init ([] : List Call)).w = {} ∧
    (ObjectAPIHandlers.DeleteBucketLifecycleHandler sampleEnv
      (lifecycleRequest "mybucket" [("Authorization", ["t"])] []) (Sys.init [])).calls
      = [] ++ [Call.bucketMetadataUpdate "mybucket" "lifecycle.xml" none,
        Call.writeSuccessNoContent, Call.AuditLog "DeleteBucketLifecycle"] ∧
    (ObjectAPIHandlers.DeleteBucketLifecycleHandler sampleEnv
      (lifecycleRequest "mybucket" [("Authorization", ["t"])] []) (Sys.init [])).w.status
      = some 204 :=
  have h := ((DeleteBucketLifecycle_updates_once_after_checks sampleEnv
    (lifecycleRequest "mybucket" [("Authorization", ["t"])] []) (Sys.init []) rfl).1
    sampleObjectLayer rfl rfl rfl).2.1 rfl
  ⟨rfl, h.1, h.2.1⟩

/-- `strings.Split` never returns an empty list. -/
theorem splitChars_ne_nil (sep : Char) (cs : List Char) : splitChars sep cs ≠ [] := by
  cases cs with
  | nil => simp [splitChars]
  | cons c cs =>
    simp only [splitChars]
    split_ifs
    · simp
    · split <;> simp

/-- `strings.Split` returns at least one piece. -/
theorem Split_length_ne_zero (s : String) (sep : Char) : (Split s sep).length ≠ 0 := by
  simp [Split, splitChars_ne_nil]

/-- Deleting a key from `globalProfiler` removes its entries from the registry. -/
theorem registry_deleteProfiler (k : String) (s : Sys σ) :
    (deleteProfiler k s).registry = s.registry.filter (fun e => e.1 != k) := by
  cases h : s.globalProfiler <;> simp [deleteProfiler, Sys.registry, h]

/-- The inner loop of `stopRunning` for one entry `(k, v)` of `globalProfiler`:
when `k` is requested, `v` is stopped and `k` is deleted. -/
theorem stopMatching_effect (env : Env σ) (k : String) (v : Nat) (P : List String)
    (t : Sys σ) :
    (P.foldl (fun s2 p => if p = k then deleteProfiler k (profilerStop env v s2) else s2)
      t).started = t.started ∧
    (P.foldl (fun s2 p => if p = k then deleteProfiler k (profilerStop env v s2) else s2)
      t).w = t.w ∧
    (∀ j, j ∈ (P.foldl (fun s2 p => if p = k then deleteProfiler k (profilerStop env v s2)
      else s2) t).stopped ↔ j ∈ t.stopped ∨ (j = v ∧ k ∈ P)) ∧
    (∀ e, e ∈ (P.foldl (fun s2 p => if p = k then deleteProfiler k (profilerStop env v s2)
      else s2) t).registry ↔ e ∈ t.registry ∧ ¬ (e.1 = k ∧ k ∈ P)) := by
  induction P generalizing t with
  | nil => simp
  | cons p ps ih =>
    simp only [List.foldl_cons]
    by_cases hp : p = k
    · subst hp
      simp only [if_true]
      obtain ⟨h1, h2, h3, h4⟩ := ih (deleteProfiler p (profilerStop env v t))
      refine ⟨?_, ?_, ?_, ?_⟩
      · rw [h1]; rfl
      · rw [h2]; rfl
      · intro j
        rw [h3]
        simp only [deleteProfiler, profilerStop, invoke, List.mem_append, List.mem_singleton,
          List.mem_cons, true_or, and_true]
        tauto
      · intro e
        rw [h4, registry_deleteProfiler]
        have hr : (profilerStop env v t).registry = t.registry := rfl
        simp only [hr, List.mem_filter, List.mem_cons, true_or, and_true, bne_iff_ne, ne_eq,
          decide_eq_true_eq]
        tauto
    · simp only [hp, if_false]
      obtain ⟨h1, h2, h3, h4⟩ := ih t
      refine ⟨h1, h2, ?_, ?_⟩
      · intro j
        rw [h3]
        have : k ∈ p :: ps ↔ k ∈ ps := by
          simp only [List.mem_cons]
          constructor
          · rintro (h | h)
            · exact absurd h.symm hp
            · exact h
          · exact Or.inr
        rw [this]
      · intro e
        rw [h4]
        have : k ∈ p :: ps ↔ k ∈ ps := by
          simp only [List.mem_cons]
          constructor
          · rintro (h | h)
            · exact absurd h.symm hp
            · exact h
          · exact Or.inr
        rw [this]

/-- The loop `stopRunning` over a snapshot `L` of `globalProfiler`: the
registered profilers of the requested kinds are stopped and their keys deleted. -/
theorem stopLoop_effect (env : Env σ) (P : List String) (L : GoMap Nat) (t : Sys σ) :
    (L.foldl (fun s1 kv => P.foldl (fun s2 p =>
      if p = kv.1 then deleteProfiler kv.1 (profilerStop env kv.2 s2) else s2) s1)
      t).started = t.started ∧
    (L.foldl (fun s1 kv => P.foldl (fun s2 p =>
      if p = kv.1 then deleteProfiler kv.1 (profilerStop env kv.2 s2) else s2) s1)
      t).w = t.w ∧
    (∀ j, j ∈ (L.foldl (fun s1 kv => P.foldl (fun s2 p =>
      if p = kv.1 then deleteProfiler kv.1 (profilerStop env kv.2 s2) else s2) s1)
      t).stopped ↔ j ∈ t.stopped ∨ ∃ k ∈ P, (k, j) ∈ L) ∧
    (∀ e, e ∈ (L.foldl (fun s1 kv => P.foldl (fun s2 p =>
      if p = kv.1 then deleteProfiler kv.1 (profilerStop env kv.2 s2) else s2) s1)
      t).registry ↔ e ∈ t.registry ∧ ¬ (e.1 ∈ P ∧ e.1 ∈ L.map Prod.fst)) := by
  induction L generalizing t with
  | nil => simp
  | cons kv rest ih =>
    simp only [List.foldl_cons]
    obtain ⟨a1, a2, a3, a4⟩ := stopMatching_effect env kv.1 kv.2 P t
    obtain ⟨h1, h2, h3, h4⟩ := ih (P.foldl (fun s2 p =>
      if p = kv.1 then deleteProfiler kv.1 (profilerStop env kv.2 s2) else s2) t)
    refine ⟨h1.trans a1, h2.trans a2, ?_, ?_⟩
    · intro j
      rw [h3, a3]
      constructor
      · rintro ((h | ⟨rfl, hk⟩) | ⟨k, hk, hm⟩)
        · exact Or.inl h
        · exact Or.inr ⟨kv.1, hk, List.mem_cons_self _ _⟩
        · exact Or.inr ⟨k, hk, List.mem_cons_of_mem _ hm⟩
      · rintro (h | ⟨k, hk, hm⟩)
        · exact Or.inl (Or.inl h)
        · rcases List.mem_cons.mp hm with h | h
          · subst h
            exact Or.inl (Or.inr ⟨rfl, hk⟩)
          · exact Or.inr ⟨k, hk, h⟩
    · intro e
      rw [h4, a4]
      simp only [List.map_cons, List.mem_cons]
      constructor
      · rintro ⟨⟨he, h5⟩, h6⟩
        refine ⟨he, ?_⟩
        rintro ⟨hp, h | h⟩
        · exact h5 ⟨h, h ▸ hp⟩
        · exact h6 ⟨hp, h⟩
      · rintro ⟨he, h5⟩
        refine ⟨⟨he, ?_⟩, ?_⟩
        · rintro ⟨h, hk⟩
          exact h5 ⟨h ▸ hk, Or.inl h⟩
        · rintro ⟨hp, h⟩
          exact h5 ⟨hp, Or.inr h⟩

/-- Registering a profiler replaces the entry of its kind. -/
theorem registry_setProfiler (p : String) (v : Nat) (s : Sys σ) :
    (setProfiler p v s).registry = s.registry.filter (fun e => e.1 != p) ++ [(p, v)] := by
  simp [setProfiler, Sys.registry]

/-- A successful `startProfiler` yields the next identity and touches neither
the registry, the stopped profilers nor the response. -/
theorem startProfiler_success (env : Env σ) (p : String) (t : Sys σ)
    (hp : (env.exec (.startProfiler p) t.st).1 = none) :
    (peerRESTServer.startProfiler env p t).1 = .ok t.started.length ∧
    (peerRESTServer.startProfiler env p t).2.started = t.started ++ [p] ∧
    (peerRESTServer.startProfiler env p t).2.stopped = t.stopped ∧
    (peerRESTServer.startProfiler env p t).2.w = t.w ∧
    (peerRESTServer.startProfiler env p t).2.registry = t.registry := by
  simp [peerRESTServer.startProfiler, invoke, hp, Sys.registry]

/-- The loop `startProfilers` when every start succeeds and the requested kinds
are pairwise distinct: one new profiler per kind, registered under its kind;
nothing is stopped; the response is flushed. -/
theorem startProfilers_effect (env : Env σ) (P : List String) (t : Sys σ)
    (hnd : P.Nodup)
    (hstart : ∀ k ∈ P, ∀ st, (env.exec (.startProfiler k) st).1 = none) :
    (startProfilers env P t).started = t.started ++ P ∧
    (startProfilers env P t).stopped = t.stopped ∧
    (startProfilers env P t).w = t.w.Flush ∧
    (∀ k i, (k, i) ∈ (startProfilers env P t).registry ↔
      ((k, i) ∈ t.registry ∧ k ∉ P) ∨ ∃ n, P[n]? = some k ∧ i = t.started.length + n) := by
  induction P generalizing t with
  | nil => simp [startProfilers, Flush, Sys.registry]
  | cons p ps ih =>
    have hp : (env.exec (.startProfiler p) t.st).1 = none :=
      hstart p (List.mem_cons_self _ _) t.st
    have hnd1 : ps.Nodup := (List.nodup_cons.mp hnd).2
    have hpn : p ∉ ps := (List.nodup_cons.mp hnd).1
    have hstart1 : ∀ k ∈ ps, ∀ st, (env.exec (.startProfiler k) st).1 = none :=
      fun k hk => hstart k (List.mem_cons_of_mem _ hk)
    obtain ⟨b1, b2, b3, b4, b5⟩ := startProfiler_success env p t hp
    rcases hsp : peerRESTServer.startProfiler env p t with ⟨res, t1⟩
    rw [hsp] at b1 b2 b3 b4 b5
    simp only at b1 b2 b3 b4 b5
    subst b1
    simp only [startProfilers, hsp]
    obtain ⟨h1, h2, h3, h4⟩ := ih (setProfiler p t.started.length t1) hnd1 hstart1
    have hst : (setProfiler p t.started.length t1).started = t.started ++ [p] := b2
    have hsw : (setProfiler p t.started.length t1).w = t.w := b4
    have hss : (setProfiler p t.started.length t1).stopped = t.stopped := b3
    refine ⟨?_, ?_, ?_, ?_⟩
    · rw [h1, hst]
      simp
    · rw [h2, hss]
    · rw [h3, hsw]
    · intro k i
      rw [h4, registry_setProfiler, hst, b5]
      simp only [List.mem_append, List.mem_filter, List.mem_singleton, Prod.mk.injEq,
        bne_iff_ne, ne_eq, decide_eq_true_eq, List.mem_cons, not_or, List.length_append,
        List.length_singleton, List.not_mem_nil, or_false]
      constructor
      · rintro (⟨(⟨hm, hk⟩ | ⟨rfl, rfl⟩), hps⟩ | ⟨n, hn, rfl⟩)
        · exact Or.inl ⟨hm, hk, hps⟩
        · exact Or.inr ⟨0, by simp, rfl⟩
        · exact Or.inr ⟨n + 1, by simpa using hn, by omega⟩
      · rintro (⟨hm, hk, hps⟩ | ⟨n, hn, rfl⟩)
        · exact Or.inl ⟨Or.inl ⟨hm, hk⟩, hps⟩
        · cases n with
          | zero =>
            simp only [List.getElem?_cons_zero, Option.some.injEq] at hn
            subst hn
            exact Or.inl ⟨Or.inr ⟨rfl, rfl⟩, hpn⟩
          | succ m =>
            simp only [List.getElem?_cons_succ] at hn
            exact Or.inr ⟨m, hn, by omega⟩

/-- The effect of one valid `StartProfiling` request whose kinds are pairwise
distinct and all start: the registered profilers of the requested kinds are
stopped, one new profiler per requested kind is started and registered, and the
response is flushed. -/
theorem StartProfiling_effect (env : Env σ) (r : Request) (s : Sys σ)
    (hv : env.storageServerRequestValidate r = none)
    (hnd : (Split (r.vars.get env.peerRESTProfiler) ',').Nodup)
    (hstart : ∀ k ∈ Split (r.vars.get env.peerRESTProfiler) ',', ∀ st,
      (env.exec (.startProfiler k) st).1 = none) :
    (StartProfilingHandler env r s).started
      = s.started ++ Split (r.vars.get env.peerRESTProfiler) ',' ∧
    (StartProfilingHandler env r s).w = s.w.Flush ∧
    (∀ j, j ∈ (StartProfilingHandler env r s).stopped ↔
      j ∈ s.stopped ∨ ∃ k ∈ Split (r.vars.get env.peerRESTProfiler) ',', (k, j) ∈ s.registry) ∧
    (∀ k i, (k, i) ∈ (StartProfilingHandler env r s).registry ↔
      ((k, i) ∈ s.registry ∧ k ∉ Split (r.vars.get env.peerRESTProfiler) ',') ∨
      ∃ n, (Split (r.vars.get env.peerRESTProfiler) ',')[n]? = some k ∧
        i = s.started.length + n) := by
  obtain ⟨t, ht, hts, htp, htw, htr⟩ : ∃ t : Sys σ,
      t = (if s.globalProfiler.isNone then { s with globalProfiler := some [] } else s) ∧
      t.started = s.started ∧ t.stopped = s.stopped ∧ t.w = s.w ∧ t.registry = s.registry := by
    refine ⟨_, rfl, ?_, ?_, ?_, ?_⟩ <;>
      cases h : s.globalProfiler <;> simp [Sys.registry, h]
  have hH : StartProfilingHandler env r s
      = startProfilers env (Split (r.vars.get env.peerRESTProfiler) ',')
          (stopRunning env (Split (r.vars.get env.peerRESTProfiler) ',') t) := by
    have hne : Split (r.vars.get env.peerRESTProfiler) ',' ≠ [] := by
      intro h
      exact Split_length_ne_zero (r.vars.get env.peerRESTProfiler) ',' (by rw [h]; rfl)
    simp [StartProfilingHandler, IsValid_of_ok env r s hv, hne, ht]
  obtain ⟨a1, a2, a3, a4⟩ :=
    stopLoop_effect env (Split (r.vars.get env.peerRESTProfiler) ',') t.registry t
  obtain ⟨b1, b2, b3, b4⟩ := startProfilers_effect env
    (Split (r.vars.get env.peerRESTProfiler) ',')
    (stopRunning env (Split (r.vars.get env.peerRESTProfiler) ',') t) hnd hstart
  have hsr : stopRunning env (Split (r.vars.get env.peerRESTProfiler) ',') t
      = t.registry.foldl (fun s1 kv => (Split (r.vars.get env.peerRESTProfiler) ',').foldl
          (fun s2 p => if p = kv.1 then deleteProfiler kv.1 (profilerStop env kv.2 s2) else s2)
          s1) t := rfl
  rw [← hsr] at a1 a2 a3 a4
  rw [hH]
  refine ⟨?_, ?_, ?_, ?_⟩
  · rw [b1, a1, hts]
  · rw [b3, a2, htw]
  · intro j
    rw [b2, a3, htp, htr]
  · intro k i
    rw [b4, a4, a1, hts, htr]
    constructor
    · rintro (⟨⟨hm, -⟩, hk⟩ | h)
      · exact Or.inl ⟨hm, hk⟩
      · exact Or.inr h
    · rintro (⟨hm, hk⟩ | h)
      · exact Or.inl ⟨⟨hm, fun h => hk h.1⟩, hk⟩
      · exact Or.inr h

/-- One `StartProfiling` step keeps the profilers tracked and leaves, for every
requested kind, exactly one registered profiler, which is the only live one of
that kind; the keys of `globalProfiler` are the old keys and the requested kinds. -/
theorem tracked_after_start (P : List String) (hnd : P.Nodup) (s t : Sys σ)
    (h1 : t.started = s.started ++ P)
    (h3 : ∀ j, j ∈ t.stopped ↔ j ∈ s.stopped ∨ ∃ k ∈ P, (k, j) ∈ s.registry)
    (h4 : ∀ k i, (k, i) ∈ t.registry ↔
      ((k, i) ∈ s.registry ∧ k ∉ P) ∨ ∃ n, P[n]? = some k ∧ i = s.started.length + n)
    (ht : s.profilersTracked P) :
    t.profilersTracked P ∧
    (∀ k ∈ P, ∃ i, (k, i) ∈ t.registry ∧ (∀ j, (k, j) ∈ t.registry → j = i) ∧
      ∀ j, t.running k j ↔ j = i) ∧
    (∀ k, k ∈ t.registry.map Prod.fst ↔ k ∈ s.registry.map Prod.fst ∨ k ∈ P) := by
  obtain ⟨w1, w2, w3⟩ := ht
  have hlen : t.started.length = s.started.length + P.length := by
    rw [h1, List.length_append]
  have hidx : ∀ n k, P[n]? = some k → n < P.length := by
    intro n k h
    exact (List.getElem?_eq_some.mp h).1
  have key : ∀ k ∈ P, ∃ i, (k, i) ∈ t.registry ∧ (∀ j, (k, j) ∈ t.registry → j = i) ∧
      ∀ j, t.running k j ↔ j = i := by
    intro k hk
    obtain ⟨n, hn⟩ := List.getElem?_of_mem hk
    have hnl := hidx n k hn
    have huniq : ∀ m, P[m]? = some k → m = n := by
      intro m hm
      exact (List.getElem?_inj hnl hnd (hn.trans hm.symm)).symm
    refine ⟨s.started.length + n, (h4 k _).mpr (Or.inr ⟨n, hn, rfl⟩), ?_, ?_⟩
    · intro j hj
      rcases (h4 k j).mp hj with ⟨-, hkn⟩ | ⟨m, hm, rfl⟩
      · exact absurd hk hkn
      · rw [huniq m hm]
    · intro j
      constructor
      · rintro ⟨hs, hns⟩
        rw [h1] at hs
        by_cases hj : j < s.started.length
        · rw [List.getElem?_append_left hj] at hs
          have hns0 : j ∉ s.stopped := fun h => hns ((h3 j).mpr (Or.inl h))
          exact absurd ((h3 j).mpr (Or.inr ⟨k, hk, w3 k hk j ⟨hs, hns0⟩⟩)) hns
        · rw [List.getElem?_append_right (by omega)] at hs
          have := huniq _ hs
          omega
      · rintro rfl
        refine ⟨?_, ?_⟩
        · rw [h1, List.getElem?_append_right (by omega)]
          simpa using hn
        · intro hmem
          rcases (h3 _).mp hmem with h | ⟨k1, -, h⟩
          · have := w1 _ h
            omega
          · have := w2 _ h
            simp only at this
            omega
  refine ⟨⟨?_, ?_, ?_⟩, key, ?_⟩
  · intro j hj
    rcases (h3 j).mp hj with h | ⟨k1, -, h⟩
    · have := w1 _ h
      omega
    · have := w2 _ h
      simp only at this
      omega
  · rintro ⟨k, i⟩ he
    rcases (h4 k i).mp he with ⟨h, -⟩ | ⟨n, hn, rfl⟩
    · have := w2 _ h
      simp only at this ⊢
      omega
    · have := hidx n k hn
      simp only
      omega
  · intro k hk j hr
    obtain ⟨i, hi, -, hrun⟩ := key k hk
    rw [(hrun j).mp hr]
    exact hi
  · intro k
    simp only [List.mem_map, Prod.exists, exists_and_right, exists_eq_right]
    constructor
    · rintro ⟨i, hi⟩
      rcases (h4 k i).mp hi with ⟨h, -⟩ | ⟨n, hn, -⟩
      · exact Or.inl ⟨i, h⟩
      · exact Or.inr (List.mem_iff_getElem?.mpr ⟨n, hn⟩)
    · rintro (⟨i, hi⟩ | hk)
      · by_cases hkP : k ∈ P
        · obtain ⟨i1, h, -⟩ := key k hkP
          exact ⟨i1, h⟩
        · exact ⟨i, (h4 k i).mpr (Or.inl ⟨hi, hkP⟩)⟩
      · obtain ⟨i1, h, -⟩ := key k hk
        exact ⟨i1, h⟩

/-- C6 (counterexample): with the kind list `mem,mem` every start succeeds in
the sample environment, yet after two `StartProfiling` requests three `mem`
profilers are live (0, 2 and 3) and only profiler 3 is in `globalProfiler`:
profilers 0 and 2 were started for a requested kind, are not the registered
one, and were never stopped. -/
theorem StartProfiling_twice_duplicate_kind_counterexample :
    sampleEnv.storageServerRequestValidate (signedRequest [("profiler", "mem,mem")]) = none ∧
    Split ((signedRequest [("profiler", "mem,mem")]).vars.get sampleEnv.peerRESTProfiler) ','
      = ["mem", "mem"] ∧
    (StartProfilingHandler sampleEnv (signedRequest [("profiler", "mem,mem")])
      (StartProfilingHandler sampleEnv (signedRequest [("profiler", "mem,mem")])
        (Sys.init [])).nextRequest).globalProfiler = some [("mem", 3)] ∧
    (StartProfilingHandler sampleEnv (signedRequest [("profiler", "mem,mem")])
      (StartProfilingHandler sampleEnv (signedRequest [("profiler", "mem,mem")])
        (Sys.init [])).nextRequest).running "mem" 0 ∧
    (StartProfilingHandler sampleEnv (signedRequest [("profiler", "mem,mem")])
      (StartProfilingHandler sampleEnv (signedRequest [("profiler", "mem,mem")])
        (Sys.init [])).nextRequest).running "mem" 2 ∧
    (StartProfilingHandler sampleEnv (signedRequest [("profiler", "mem,mem")])
      (StartProfilingHandler sampleEnv (signedRequest [("profiler", "mem,mem")])
        (Sys.init [])).nextRequest).running "mem" 3 := by
  have hstarted : (StartProfilingHandler sampleEnv (signedRequest [("profiler", "mem,mem")])
      (StartProfilingHandler sampleEnv (signedRequest [("profiler", "mem,mem")])
        (Sys.init [])).nextRequest).started = ["mem", "mem", "mem", "mem"] := rfl
  have hstopped : (StartProfilingHandler sampleEnv (signedRequest [("profiler", "mem,mem")])
      (StartProfilingHandler sampleEnv (signedRequest [("profiler", "mem,mem")])
        (Sys.init [])).nextRequest).stopped = [1, 1] := rfl
  refine ⟨rfl, rfl, rfl, ?_, ?_, ?_⟩ <;>
    simp [Sys.running, hstarted, hstopped]

/-- C6 (amended): when the requested kinds are pairwise distinct, every start
succeeds and the profilers are tracked at the beginning, two `StartProfiling`
requests in sequence with the same list end with status 200, with the same keys
in `globalProfiler` as after the first request, and with exactly one live
profiler per requested kind, the one registered in `globalProfiler` under that
kind; every other profiler of that kind has been stopped. -/
theorem StartProfiling_twice_same_kinds_one_live_each (env : Env σ) (r : Request)
    (s : Sys σ)
    (hv : env.storageServerRequestValidate r = none)
    (hnd : (Split (r.vars.get env.peerRESTProfiler) ',').Nodup)
    (hstart : ∀ k ∈ Split (r.vars.get env.peerRESTProfiler) ',', ∀ st,
      (env.exec (.startProfiler k) st).1 = none)
    (ht : s.profilersTracked (Split (r.vars.get env.peerRESTProfiler) ',')) :
    (StartProfilingHandler env r (StartProfilingHandler env r s).nextRequest).w.status
      = some 200 ∧
    (∀ k, k ∈ (StartProfilingHandler env r
        (StartProfilingHandler env r s).nextRequest).registry.map Prod.fst ↔
      k ∈ (StartProfilingHandler env r s).registry.map Prod.fst) ∧
    (∀ k ∈ Split (r.vars.get env.peerRESTProfiler) ',', ∃ i,
      (k, i) ∈ (StartProfilingHandler env r
        (StartProfilingHandler env r s).nextRequest).registry ∧
      (∀ j, (k, j) ∈ (StartProfilingHandler env r
        (StartProfilingHandler env r s).nextRequest).registry → j = i) ∧
      ∀ j, (StartProfilingHandler env r
        (StartProfilingHandler env r s).nextRequest).running k j ↔ j = i) := by
  obtain ⟨a1, -, a3, a4⟩ := StartProfiling_effect env r s hv hnd hstart
  obtain ⟨b1, b2, b3, b4⟩ := StartProfiling_effect env r
    (StartProfilingHandler env r s).nextRequest hv hnd hstart
  obtain ⟨t1, -, k1⟩ := tracked_after_start _ hnd s (StartProfilingHandler env r s) a1 a3 a4 ht
  have t1n : (StartProfilingHandler env r s).nextRequest.profilersTracked
      (Split (r.vars.get env.peerRESTProfiler) ',') := t1
  obtain ⟨-, u2, k2⟩ := tracked_after_start _ hnd (StartProfilingHandler env r s).nextRequest
    (StartProfilingHandler env r (StartProfilingHandler env r s).nextRequest) b1 b3 b4 t1n
  refine ⟨?_, ?_, u2⟩
  · rw [b2]
    simp [Sys.nextRequest, ResponseWriter.Flush, ResponseWriter.WriteHeader]
  · intro k
    rw [k2 k]
    have hsame : (StartProfilingHandler env r s).nextRequest.registry
        = (StartProfilingHandler env r s).registry := rfl
    rw [hsame]
    constructor
    · rintro (h | h)
      · exact h
      · exact (k1 k).mpr (Or.inr h)
    · exact Or.inl

/-- Witness of C6 (amended): `profiler=cpu` twice in the sample environment,
starting with no profiler. -/
theorem StartProfiling_twice_same_kinds_one_live_each_witness :
    (sampleEnv.storageServerRequestValidate (signedRequest [("profiler", "cpu")]) = none ∧
      (Split ((signedRequest [("profiler", "cpu")]).vars.get sampleEnv.peerRESTProfiler)
        ',').Nodup ∧
      (Sys.init ([] : List Call)).profilersTracked
        (Split ((signedRequest [("profiler", "cpu")]).vars.get sampleEnv.peerRESTProfiler)
          ',')) ∧
    (StartProfilingHandler sampleEnv (signedRequest [("profiler", "cpu")])
      (StartProfilingHandler sampleEnv (signedRequest [("profiler", "cpu")])
        (Sys.init [])).nextRequest).w.status = some 200 ∧
    (StartProfilingHandler sampleEnv (signedRequest [("profiler", "cpu")])
      (StartProfilingHandler sampleEnv (signedRequest [("profiler", "cpu")])
        (Sys.init [])).nextRequest).globalProfiler = some [("cpu", 1)] ∧
    (StartProfilingHandler sampleEnv (signedRequest [("profiler", "cpu")])
      (StartProfilingHandler sampleEnv (signedRequest [("profiler", "cpu")])
        (Sys.init [])).nextRequest).stopped = [0] :=
  have hsplit : Split ((signedRequest [("profiler", "cpu")]).vars.get
      sampleEnv.peerRESTProfiler) ',' = ["cpu"] := rfl
  have hnd : (Split ((signedRequest [("profiler", "cpu")]).vars.get
      sampleEnv.peerRESTProfiler) ',').Nodup := by
    rw [hsplit]
    simp
  have htr : (Sys.init ([] : List Call)).profilersTracked
      (Split ((signedRequest [("profiler", "cpu")]).vars.get sampleEnv.peerRESTProfiler)
        ',') := by
    simp [Sys.profilersTracked, Sys.init, Sys.registry, Sys.running]
  ⟨⟨rfl, hnd, htr⟩,
    (StartProfiling_twice_same_kinds_one_live_each sampleEnv
      (signedRequest [("profiler", "cpu")]) (Sys.init []) rfl hnd (fun _ _ _ => rfl) htr).1,
    rfl, rfl⟩

/-- The innermost loop of `getLocalDiskIDs` appends the ids its disks contribute. -/
theorem foldl_appendLocalDiskID (disks : List (Option StorageAPI)) (ids : List String) :
    disks.foldl appendLocalDiskID ids = ids ++ disks.filterMap localDiskID := by
  induction disks generalizing ids with
  | nil => simp
  | cons d rest ih =>
    rw [List.foldl_cons, ih]
    cases d with
    | none => simp [appendLocalDiskID, localDiskID]
    | some disk =>
      cases hid : disk.GetDiskID with
      | error e => simp [appendLocalDiskID, localDiskID, hid]
      | ok id =>
        by_cases hl : disk.IsLocal = true <;> by_cases he : id = "" <;>
          simp [appendLocalDiskID, localDiskID, hid, hl, he]

/-- The loop over the sets of a pool appends the ids of the pool's disks. -/
theorem foldl_sets_appendLocalDiskID (sets : List erasureObjects) (ids : List String) :
    sets.foldl (fun ids set => set.getDisks.foldl appendLocalDiskID ids) ids
      = ids ++ ((sets.map (fun set => set.getDisks)).flatten).filterMap localDiskID := by
  induction sets generalizing ids with
  | nil => simp
  | cons set rest ih =>
    rw [List.foldl_cons, ih, foldl_appendLocalDiskID]
    simp [List.filterMap_append]

/-- The loop over the pools appends the ids of all disks. -/
theorem foldl_pools_appendLocalDiskID (pools : List erasureSets) (ids : List String) :
    pools.foldl (fun ids pool => pool.sets.foldl
        (fun ids set => set.getDisks.foldl appendLocalDiskID ids) ids) ids
      = ids ++ ((pools.map (fun pool =>
          (pool.sets.map (fun set => set.getDisks)).flatten)).flatten).filterMap
            localDiskID := by
  induction pools generalizing ids with
  | nil => simp
  | cons pool rest ih =>
    rw [List.foldl_cons, ih, foldl_sets_appendLocalDiskID]
    simp [List.filterMap_append]

/-- C16: `getLocalDiskIDs` returns, in pool-then-set-then-disk order, exactly the
ids contributed by the disks that are not `nil`, are local, whose `GetDiskID`
returns no error and whose id is not empty. Hence every returned id is not
empty and is the id of such a disk of some set of some pool. -/
theorem getLocalDiskIDs_eq_ids_of_local_disks (z : erasureServerPools) :
    getLocalDiskIDs z = (allDisks z).filterMap localDiskID ∧
    ∀ id ∈ getLocalDiskIDs z, id ≠ "" ∧
      ∃ pool ∈ z.serverPools, ∃ set ∈ pool.sets, ∃ disk, some disk ∈ set.getDisks ∧
        disk.IsLocal = true ∧ disk.GetDiskID = .ok id := by
  have heq : getLocalDiskIDs z = (allDisks z).filterMap localDiskID := by
    simp [getLocalDiskIDs, allDisks, foldl_pools_appendLocalDiskID]
  refine ⟨heq, ?_⟩
  intro id hid
  rw [heq] at hid
  obtain ⟨d, hd, hsome⟩ := List.mem_filterMap.mp hid
  simp only [allDisks, List.mem_flatten, List.mem_map] at hd
  obtain ⟨l, ⟨pool, hpool, rfl⟩, hl⟩ := hd
  simp only [List.mem_flatten, List.mem_map] at hl
  obtain ⟨l2, ⟨set, hset, rfl⟩, hl2⟩ := hl
  cases d with
  | none => simp [localDiskID] at hsome
  | some disk =>
    cases hg : disk.GetDiskID with
    | error e => simp [localDiskID, hg] at hsome
    | ok id1 =>
      simp only [localDiskID, hg] at hsome
      split_ifs at hsome with hc
      simp only [Option.some.injEq] at hsome
      subst hsome
      exact ⟨hc.2, pool, hpool, set, hset, disk, hl2, hc.1, hg⟩

/-- C19: a valid `DeleteBucketMetadata` request with a non-empty bucket name `b`
makes exactly the evictions of `b` (replication stats, bucket metadata, and the
metacache when a metacache manager exists), in this order and nothing else, and
writes no response; with an empty bucket name the response is 403 "Bucket name
is missing" and no collaborator is called. -/
theorem DeleteBucketMetadata_evicts_only_requested_bucket (env : Env σ) (r : Request)
    (s : Sys σ)
    (hv : env.storageServerRequestValidate r = none)
    (hw : s.w = {}) :
    (r.vars.get env.peerRESTBucket ≠ "" →
      (DeleteBucketMetadataHandler env r s).calls
        = s.calls ++ bucketEvictions env (r.vars.get env.peerRESTBucket) ∧
      (DeleteBucketMetadataHandler env r s).st
        = served env (bucketEvictions env (r.vars.get env.peerRESTBucket)) s.st ∧
      (∀ c ∈ bucketEvictions env (r.vars.get env.peerRESTBucket),
        c = Call.replicationStatsDelete (r.vars.get env.peerRESTBucket) ∨
        c = Call.bucketMetadataRemove (r.vars.get env.peerRESTBucket) ∨
        c = Call.deleteBucketCache (r.vars.get env.peerRESTBucket)) ∧
      (DeleteBucketMetadataHandler env r s).w = s.w) ∧
    (r.vars.get env.peerRESTBucket = "" →
      (DeleteBucketMetadataHandler env r s).w.status = some 403 ∧
      (DeleteBucketMetadataHandler env r s).w.body = "Bucket name is missing" ∧
      (DeleteBucketMetadataHandler env r s).calls = s.calls ∧
      (DeleteBucketMetadataHandler env r s).st = s.st) := by
  constructor
  · intro hb
    refine ⟨?_, ?_, ?_, ?_⟩
    · cases hm : env.localMetacacheMgr <;>
        simp [DeleteBucketMetadataHandler, IsValid_of_ok env r s hv, hb, hm, invoke,
          bucketEvictions]
    · cases hm : env.localMetacacheMgr <;>
        simp [DeleteBucketMetadataHandler, IsValid_of_ok env r s hv, hb, hm, invoke,
          bucketEvictions, served]
    · intro c hc
      cases hm : env.localMetacacheMgr <;> simp [bucketEvictions, hm] at hc <;> tauto
    · cases hm : env.localMetacacheMgr <;>
        simp [DeleteBucketMetadataHandler, IsValid_of_ok env r s hv, hb, hm, invoke]
  · intro hb
    simp [DeleteBucketMetadataHandler, IsValid_of_ok env r s hv, hb,
      peerRESTServer.WriteErrorResponse, ResponseWriter.WriteHeader, ResponseWriter.Write,
      ResponseWriter.body, body_single_write, hw]

/-- Witness of C19: a signed `DeleteBucketMetadata` request for `photos` in the
sample environment, which has a metacache manager. -/
theorem DeleteBucketMetadata_evicts_only_requested_bucket_witness :
    (sampleEnv.storageServerRequestValidate (signedRequest [("bucket", "photos")]) = none ∧
      (Sys.init ([] : List Call)).w = {}) ∧
    (DeleteBucketMetadataHandler sampleEnv (signedRequest [("bucket", "photos")])
      (Sys.init [])).calls
      = [] ++ bucketEvictions sampleEnv
          ((signedRequest [("bucket", "photos")]).vars.get sampleEnv.peerRESTBucket) ∧
    (DeleteBucketMetadataHandler sampleEnv (signedRequest [("bucket", "photos")])
      (Sys.init [])).st
      = [Call.replicationStatsDelete "photos", Call.bucketMetadataRemove "photos",
        Call.deleteBucketCache "photos"] :=
  ⟨⟨rfl, rfl⟩,
    ((DeleteBucketMetadata_evicts_only_requested_bucket sampleEnv
      (signedRequest [("bucket", "photos")]) (Sys.init []) rfl rfl).1 (by decide)).1,
    rfl⟩

/-- C20: for a valid `LoadBucketMetadata` request with a non-empty bucket name
`b`: when the object layer is absent or `loadBucketMetadata` fails, the response
is 403 with the error text and no collaborator is called, so the bucket-metadata
map, the notification rules and the bucket targets are unchanged; when it
succeeds with metadata `m`, the calls are exactly `Set(b, m)`, then
`AddRulesMap(b, ...)` if and only if `m.notificationConfig` is not `nil`, then
`UpdateAllTargets(b, ...)` if and only if `m.bucketTargetConfig` is not `nil`. -/
theorem LoadBucketMetadata_reloads_or_fails_cleanly (env : Env σ) (r : Request) (s : Sys σ)
    (hv : env.storageServerRequestValidate r = none)
    (hb : r.vars.get env.peerRESTBucket ≠ "")
    (hw : s.w = {}) :
    (env.newObjectLayerFn = none →
      (LoadBucketMetadataHandler env r s).w.status = some 403 ∧
      (LoadBucketMetadataHandler env r s).w.body = env.errServerNotInitialized ∧
      (LoadBucketMetadataHandler env r s).calls = s.calls ∧
      (LoadBucketMetadataHandler env r s).st = s.st) ∧
    (∀ o err, env.newObjectLayerFn = some o →
      env.loadBucketMetadata (r.vars.get env.peerRESTBucket) s.st = .error err →
      (LoadBucketMetadataHandler env r s).w.status = some 403 ∧
      (LoadBucketMetadataHandler env r s).w.body = err ∧
      (LoadBucketMetadataHandler env r s).calls = s.calls ∧
      (LoadBucketMetadataHandler env r s).st = s.st) ∧
    (∀ o m, env.newObjectLayerFn = some o →
      env.loadBucketMetadata (r.vars.get env.peerRESTBucket) s.st = .ok m →
      (LoadBucketMetadataHandler env r s).calls
        = s.calls ++ bucketReloads (r.vars.get env.peerRESTBucket) m ∧
      (LoadBucketMetadataHandler env r s).st
        = served env (bucketReloads (r.vars.get env.peerRESTBucket) m) s.st ∧
      (LoadBucketMetadataHandler env r s).w = s.w) := by
  refine ⟨?_, ?_, ?_⟩
  · intro ho
    simp [LoadBucketMetadataHandler, IsValid_of_ok env r s hv, hb, ho,
      peerRESTServer.WriteErrorResponse, ResponseWriter.WriteHeader, ResponseWriter.Write,
      ResponseWriter.body, body_single_write, hw]
  · intro o err ho hl
    simp [LoadBucketMetadataHandler, IsValid_of_ok env r s hv, hb, ho, hl,
      peerRESTServer.WriteErrorResponse, ResponseWriter.WriteHeader, ResponseWriter.Write,
      ResponseWriter.body, body_single_write, hw]
  · intro o m ho hl
    cases hn : m.notificationConfig <;> cases ht : m.bucketTargetConfig <;>
      simp [LoadBucketMetadataHandler, IsValid_of_ok env r s hv, hb, ho, hl, hn, ht, invoke,
        bucketReloads, served]

/-- Witness of C20: a signed `LoadBucketMetadata` request for `photos` where the
stored metadata has a notification configuration and no bucket targets: the
metadata is set and the rules are added, the targets are not updated. -/
theorem LoadBucketMetadata_reloads_or_fails_cleanly_witness :
    (sampleEnvWithNotifications.storageServerRequestValidate
        (signedRequest [("bucket", "photos")]) = none ∧
      (signedRequest [("bucket", "photos")]).vars.get sampleEnvWithNotifications.peerRESTBucket
        ≠ "" ∧
      (Sys.init ([] : List Call)).w = {}) ∧
    (LoadBucketMetadataHandler sampleEnvWithNotifications
      (signedRequest [("bucket", "photos")]) (Sys.init [])).calls
      = [] ++ bucketReloads "photos"
          { notificationConfig :=
              some { ToRulesMap := [("s3:ObjectCreated:Put", "*", "arn:minio:sqs::1:webhook")] },
            bucketTargetConfig := none } ∧
    bucketReloads "photos"
        { notificationConfig :=
            some { ToRulesMap := [("s3:ObjectCreated:Put", "*", "arn:minio:sqs::1:webhook")] },
          bucketTargetConfig := none }
      = [Call.bucketMetadataSet "photos"
          { notificationConfig :=
              some { ToRulesMap := [("s3:ObjectCreated:Put", "*", "arn:minio:sqs::1:webhook")] },
            bucketTargetConfig := none },
        Call.AddRulesMap "photos" [("s3:ObjectCreated:Put", "*", "arn:minio:sqs::1:webhook")]] :=
  ⟨⟨rfl, by decide, rfl⟩,
    ((LoadBucketMetadata_reloads_or_fails_cleanly sampleEnvWithNotifications
      (signedRequest [("bucket", "photos")]) (Sys.init []) rfl (by decide) rfl).2.2
      sampleObjectLayer _ rfl rfl).1,
    rfl⟩

/-- A concatenation is empty exactly when both parts are. -/
theorem String_append_eq_empty (a b : String) : a ++ b = "" ↔ a = "" ∧ b = "" := by
  simp only [String.ext_iff, String.data_append]
  simp

/-- C17: the `Error` field of the payload of `DriveInfoHandler` is "serial: "
followed by the serial error when that is not empty, followed by " parallel: "
and the parallel error when that is not empty. It is empty exactly when both
errors are empty, and is "serial: s parallel: p" when both are not. For a valid
request the status is 200 whatever the errors are, and the body is the encoding
of that payload. -/
theorem DriveInfo_errors_go_in_payload_not_status (env : ProbeEnv σ) (r : Request)
    (s : Sys σ) (infoSerial infoParallel : ServerDrivesInfo)
    (hv : env.storageServerRequestValidate r = none)
    (hw : s.w = {}) :
    (drivesInfo infoSerial infoParallel).Error
      = (if infoSerial.Error ≠ "" then "serial: " ++ infoSerial.Error else "")
        ++ (if infoParallel.Error ≠ "" then " parallel: " ++ infoParallel.Error else "") ∧
    ((drivesInfo infoSerial infoParallel).Error = "" ↔
      infoSerial.Error = "" ∧ infoParallel.Error = "") ∧
    (infoSerial.Error ≠ "" → infoParallel.Error ≠ "" →
      (drivesInfo infoSerial infoParallel).Error
        = "serial: " ++ infoSerial.Error ++ " parallel: " ++ infoParallel.Error) ∧
    (DriveInfoHandler env r s).w.status = some 200 ∧
    (∀ bytes, env.gobEncodeDrivesInfo (drivesInfo (env.getLocalDrives false r s.st)
        (env.getLocalDrives true r s.st)) = .ok bytes →
      (DriveInfoHandler env r s).w.writes = [bytes]) := by
  refine ⟨?_, ?_, ?_, ?_, ?_⟩
  · by_cases h1 : infoSerial.Error = "" <;> by_cases h2 : infoParallel.Error = "" <;>
      simp [drivesInfo, h1, h2, String.append_assoc]
  · by_cases h1 : infoSerial.Error = "" <;> by_cases h2 : infoParallel.Error = "" <;>
      simp [drivesInfo, h1, h2, String_append_eq_empty]
  · intro h1 h2
    simp [drivesInfo, h1, h2]
  · cases he : env.gobEncodeDrivesInfo (drivesInfo (env.getLocalDrives false r s.st)
        (env.getLocalDrives true r s.st)) <;>
      simp [DriveInfoHandler, IsValid_of_ok env.toEnv r s hv, he, Flush,
        ResponseWriter.Flush, ResponseWriter.Write, ResponseWriter.WriteHeader, hw]
  · intro bytes he
    simp [DriveInfoHandler, IsValid_of_ok env.toEnv r s hv, he, Flush,
      ResponseWriter.Flush, ResponseWriter.Write, ResponseWriter.WriteHeader, hw]

/-- Witness of C17: a signed `DriveInfo` request in the sample environment, whose
serial probe reports `disk offline` and whose parallel probe reports `timeout`. -/
theorem DriveInfo_errors_go_in_payload_not_status_witness :
    (sampleProbeEnv.storageServerRequestValidate (signedRequest []) = none ∧
      (Sys.init ([] : List Call)).w = {}) ∧
    (DriveInfoHandler sampleProbeEnv (signedRequest []) (Sys.init [])).w.status = some 200 ∧
    (DriveInfoHandler sampleProbeEnv (signedRequest []) (Sys.init [])).w.writes
      = ["serial: disk offline parallel: timeout"] :=
  have h := DriveInfo_errors_go_in_payload_not_status sampleProbeEnv (signedRequest [])
    (Sys.init []) {} {} rfl rfl
  ⟨⟨rfl, rfl⟩, h.2.2.2.1, h.2.2.2.2 "serial: disk offline parallel: timeout" rfl⟩

/-- The short-read message is not the text "Success". -/
theorem shortReadError_ne_Success (expected found : Int) :
    shortReadError expected found ≠ "Success" := by
  intro h
  have hd := congrArg String.data h
  simp only [shortReadError, String.data_append] at hd
  have h3 := congrArg (fun l => l.take 3) hd
  simp [List.take_append_eq_append_take] at h3

/-- C18: for a valid `NetInfo` request the status is 200 and the header sent with
it announces `Trailer: FinalStatus`. The `FinalStatus` trailer is "Success"
when the copy of the body ends without an error other than `io.EOF` and the
number of bytes read is the declared `ContentLength`; it is the text of the
copy error when there is one, and the short-read message when the count
differs. Unless a copy error has the text "Success" itself, the trailer is
"Success" if and only if the copy ended without error with the declared count. -/
theorem NetInfo_FinalStatus_trailer (env : Env σ) (r : Request) (s : Sys σ)
    (hv : env.storageServerRequestValidate r = none)
    (hw : s.w = {}) :
    (NetInfoHandler env r s).w.status = some 200 ∧
    (NetInfoHandler env r s).w.sent.lookup "Trailer" = some ["FinalStatus"] ∧
    ((r.BodyErr = none ∨ r.BodyErr = some EOF) → (r.Body.length : Int) = r.ContentLength →
      HeaderGet (NetInfoHandler env r s).w.Header "FinalStatus" = "Success") ∧
    (∀ e, r.BodyErr = some e → e ≠ EOF →
      HeaderGet (NetInfoHandler env r s).w.Header "FinalStatus" = e) ∧
    ((r.BodyErr = none ∨ r.BodyErr = some EOF) → (r.Body.length : Int) ≠ r.ContentLength →
      HeaderGet (NetInfoHandler env r s).w.Header "FinalStatus"
        = "Subnet health: short read: expected " ++ toString r.ContentLength
          ++ " found " ++ toString (r.Body.length : Int)) ∧
    (r.BodyErr ≠ some "Success" →
      (HeaderGet (NetInfoHandler env r s).w.Header "FinalStatus" = "Success" ↔
        (r.BodyErr = none ∨ r.BodyErr = some EOF) ∧
          (r.Body.length : Int) = r.ContentLength)) := by
  have hk1 : CanonicalMIMEHeaderKey "Trailer" = "Trailer" := by rfl
  have hk2 : CanonicalMIMEHeaderKey "Content-Type" = "Content-Type" := by rfl
  have hk3 : CanonicalMIMEHeaderKey "FinalStatus" = "Finalstatus" := by rfl
  have hlk : ∀ a b c : List String, List.lookup "Finalstatus"
      [("Trailer", a), ("Content-Type", b), ("Finalstatus", c)] = some c := fun _ _ _ => rfl
  have hget : ∀ v, HeaderGet (NetInfoHandler env r s).w.Header "FinalStatus" = v ↔
      ((r.BodyErr = none ∨ r.BodyErr = some EOF) ∧ (r.Body.length : Int) = r.ContentLength
          ∧ v = "Success") ∨
      (∃ e, r.BodyErr = some e ∧ e ≠ EOF ∧ v = e) ∨
      ((r.BodyErr = none ∨ r.BodyErr = some EOF) ∧ (r.Body.length : Int) ≠ r.ContentLength
          ∧ v = shortReadError r.ContentLength r.Body.length) := by
    intro v
    cases hbe : r.BodyErr with
    | none =>
      by_cases hn : (r.Body.length : Int) = r.ContentLength <;>
        simp [NetInfoHandler, IsValid_of_ok env r s hv, copyBody, hbe, hn, setHeader, Flush,
          ResponseWriter.SetHeader, ResponseWriter.WriteHeader, ResponseWriter.Flush,
          HeaderGet, hk1, hk2, hk3, hlk, hw, eq_comm]
    | some e =>
      by_cases he1 : e = ErrUnexpectedEOF
      · subst he1
        simp [NetInfoHandler, IsValid_of_ok env r s hv, copyBody, hbe, setHeader,
          ResponseWriter.SetHeader, ResponseWriter.WriteHeader, HeaderGet, hk1, hk2, hk3, hlk, hw,
          ErrUnexpectedEOF, EOF, eq_comm]
      · by_cases he2 : e = EOF
        · subst he2
          by_cases hn : (r.Body.length : Int) = r.ContentLength <;>
            simp [NetInfoHandler, IsValid_of_ok env r s hv, copyBody, hbe, hn, setHeader,
              Flush, ResponseWriter.SetHeader, ResponseWriter.WriteHeader,
              ResponseWriter.Flush, HeaderGet, hk1, hk2, hk3, hlk, hw, ErrUnexpectedEOF, EOF,
              eq_comm]
        · simp [NetInfoHandler, IsValid_of_ok env r s hv, copyBody, hbe, he1, he2, setHeader,
            ResponseWriter.SetHeader, ResponseWriter.WriteHeader, HeaderGet, hk1, hk2, hk3,
            hlk, hw, eq_comm]
  refine ⟨?_, ?_, ?_, ?_, ?_, ?_⟩
  · simp only [NetInfoHandler, IsValid_of_ok env r s hv, Bool.not_true, Bool.false_eq_true,
      if_false]
    split_ifs <;>
      simp [setHeader, Flush, ResponseWriter.SetHeader, ResponseWriter.WriteHeader,
        ResponseWriter.Flush, hw]
  · have hlt : ∀ a b : List String, List.lookup "Trailer"
        [("Trailer", a), ("Content-Type", b)] = some a := fun _ _ => rfl
    simp only [NetInfoHandler, IsValid_of_ok env r s hv, Bool.not_true, Bool.false_eq_true,
      if_false]
    split_ifs <;>
      simp [setHeader, Flush, ResponseWriter.SetHeader, ResponseWriter.WriteHeader,
        ResponseWriter.Flush, hk1, hk2, hlt, hw]
  · intro h1 h2
    exact (hget _).mpr (Or.inl ⟨h1, h2, rfl⟩)
  · intro e h1 h2
    exact (hget _).mpr (Or.inr (Or.inl ⟨e, h1, h2, rfl⟩))
  · intro h1 h2
    exact (hget _).mpr (Or.inr (Or.inr ⟨h1, h2, rfl⟩))
  · intro hns
    rw [hget]
    constructor
    · rintro (⟨h1, h2, -⟩ | ⟨e, h1, -, h3⟩ | ⟨-, -, h3⟩)
      · exact ⟨h1, h2⟩
      · exact absurd (h3 ▸ h1) hns
      · exact absurd h3.symm (shortReadError_ne_Success _ _)
    · rintro ⟨h1, h2⟩
      exact Or.inl ⟨h1, h2, rfl⟩

/-- Witness of C18: a signed `NetInfo` request of three bytes in the sample
environment, once with the declared length 3 and once with 5. -/
theorem NetInfo_FinalStatus_trailer_witness :
    (sampleEnv.storageServerRequestValidate (netInfoRequest [1, 2, 3] 3) = none ∧
      (Sys.init ([] : List Call)).w = {}) ∧
    HeaderGet (NetInfoHandler sampleEnv (netInfoRequest [1, 2, 3] 3) (Sys.init [])).w.Header
      "FinalStatus" = "Success" ∧
    HeaderGet (NetInfoHandler sampleEnv (netInfoRequest [1, 2, 3] 5) (Sys.init [])).w.Header
      "FinalStatus" = "Subnet health: short read: expected 5 found 3" :=
  ⟨⟨rfl, rfl⟩,
    (NetInfo_FinalStatus_trailer sampleEnv (netInfoRequest [1, 2, 3] 3) (Sys.init [])
      rfl rfl).2.2.1 (Or.inl rfl) rfl,
    rfl⟩

/-- Looking up another key is not affected by dropping the entries of a key. -/
theorem lookup_filter_ne {α : Type} (m : GoMap α) (k k1 : String) (hk : k1 ≠ k) :
    (m.filter (fun e => e.1 != k)).lookup k1 = m.lookup k1 := by
  induction m with
  | nil => rfl
  | cons e rest ih =>
    obtain ⟨ek, ev⟩ := e
    by_cases h1 : ek = k
    · subst h1
      have : (k1 == ek) = false := by simpa using hk
      simp [List.filter_cons, List.lookup_cons, ih, this]
    · by_cases h2 : k1 = ek
      · subst h2
        simp [List.filter_cons, List.lookup_cons, h1]
      · have : (k1 == ek) = false := by simpa using h2
        simp [List.filter_cons, List.lookup_cons, h1, ih, this]

/-- After `m[k] = v` the key `k` holds `v` and the other keys hold what they held. -/
theorem lookup_set {α : Type} (m : GoMap α) (k k1 : String) (v : α) :
    (m.set k v).lookup k1 = if k1 = k then some v else m.lookup k1 := by
  by_cases hk : k1 = k
  · subst hk
    have hnone : (m.filter (fun e => e.1 != k1)).lookup k1 = none := by
      rw [List.lookup_eq_none_iff]
      intro p hp
      have hne := (List.mem_filter.mp hp).2
      simp only [bne_iff_ne, ne_eq] at hne ⊢
      exact fun h => hne h.symm
    simp [GoMap.set, List.lookup_append, hnone, List.lookup_cons]
  · have : (k1 == k) = false := by simpa using hk
    simp [GoMap.set, List.lookup_append, lookup_filter_ne m k k1 hk, List.lookup_cons, this,
      hk]

/-- The map built by the join loop on top of `m0`: a key of the source holds its
joined values, another key holds what it held in `m0`. -/
theorem lookup_foldl_join (src : GoMap (List String)) (m0 : GoMap String) (k : String)
    (hwf : src.wellFormed) :
    (src.foldl (fun m kv => m.set kv.1 (Join kv.2 ",")) m0).lookup k
      = match src.lookup k with
        | some v => some (Join v ",")
        | none => m0.lookup k := by
  induction src generalizing m0 with
  | nil => rfl
  | cons e rest ih =>
    obtain ⟨ek, ev⟩ := e
    have hnd : ek ∉ rest.map Prod.fst ∧ (rest.map Prod.fst).Nodup := by
      simpa [GoMap.wellFormed] using hwf
    rw [List.foldl_cons, ih _ hnd.2]
    by_cases hk : k = ek
    · subst hk
      have hnone : rest.lookup k = none := by
        rw [List.lookup_eq_none_iff]
        intro p hp
        have hne : p.1 ≠ k := fun h => hnd.1 (h ▸ List.mem_map_of_mem Prod.fst hp)
        simp only [bne_iff_ne, ne_eq]
        exact fun h => hne h.symm
      simp [hnone, lookup_set, List.lookup_cons]
    · have : (k == ek) = false := by simpa using hk
      simp [List.lookup_cons, this, lookup_set, hk]

/-- In a well-formed source, the joined map holds under every key the joined
values of that key. -/
theorem lookup_joined (src : GoMap (List String)) (k : String) (hwf : src.wellFormed) :
    (joined src).lookup k = (src.lookup k).map (fun v => Join v ",") := by
  rw [joined, lookup_foldl_join src [] k hwf]
  cases src.lookup k <;> rfl

/-- A key is in a map exactly when its lookup succeeds. -/
theorem mem_keys_iff_lookup {α : Type} (m : GoMap α) (k : String) :
    k ∈ m.map Prod.fst ↔ (m.lookup k).isSome = true := by
  induction m with
  | nil => simp
  | cons e rest ih =>
    obtain ⟨ek, ev⟩ := e
    by_cases hk : k = ek
    · subst hk
      simp [List.lookup_cons]
    · have : (k == ek) = false := by simpa using hk
      simp [List.lookup_cons, this, hk, ih]

/-- The result of `strings.Trim` neither begins nor ends with the trimmed character. -/
theorem Trim_no_surrounding (s : String) (c : Char) :
    (Trim s c).toList.head? ≠ some c ∧ (Trim s c).toList.getLast? ≠ some c := by
  have hhead : ∀ l : List Char, (l.dropWhile (fun x => x == c)).head? ≠ some c := by
    intro l h
    have := List.head?_dropWhile_not (fun x => x == c) l
    rw [h] at this
    simp at this
  have htl : (Trim s c).toList
      = ((s.toList.dropWhile (fun x => x == c)).reverse.dropWhile (fun x => x == c)).reverse :=
    rfl
  rw [htl, List.head?_reverse, List.getLast?_reverse]
  refine ⟨?_, hhead _⟩
  obtain ⟨u, hu⟩ := List.dropWhile_suffix (l := (s.toList.dropWhile (fun x => x == c)).reverse)
    (fun x => x == c)
  by_cases hnil : (s.toList.dropWhile (fun x => x == c)).reverse.dropWhile (fun x => x == c) = []
  · rw [hnil]
    simp
  · have h1 := List.getLast?_append_of_ne_nil u hnil
    rw [hu, List.getLast?_reverse] at h1
    rw [← h1]
    exact hhead _

/-- A store into a `map[string]string`: the map at the address gets the entry,
the other maps of the heap are untouched. -/
theorem store_effect (h : MapHeap) (a : Nat) (k v : String) :
    (h.store a k v).headers = h.headers ∧
    (h.store a k v).strings.length = h.strings.length ∧
    (a < h.strings.length → (h.store a k v).string a = (h.string a).set k v) ∧
    (∀ b, b ≠ a → (h.store a k v).string b = h.string b) := by
  refine ⟨rfl, by simp [MapHeap.store], ?_, ?_⟩
  · intro ha
    simp [MapHeap.store, MapHeap.string, List.getD_eq_getElem?_getD,
      List.getElem?_set_self ha]
  · intro b hb
    simp [MapHeap.store, MapHeap.string, List.getD_eq_getElem?_getD,
      List.getElem?_set_ne (Ne.symm hb)]

/-- The join loop writes into the map at `dst` only. -/
theorem joinInto_effect (src : GoMap (List String)) (dst : Nat) (h : MapHeap)
    (hd : dst < h.strings.length) :
    (joinInto src dst h).headers = h.headers ∧
    (joinInto src dst h).strings.length = h.strings.length ∧
    (joinInto src dst h).string dst
      = src.foldl (fun m kv => m.set kv.1 (Join kv.2 ",")) (h.string dst) ∧
    (∀ b, b ≠ dst → (joinInto src dst h).string b = h.string b) := by
  induction src generalizing h with
  | nil => simp [joinInto]
  | cons e rest ih =>
    obtain ⟨s1, s2, s3, s4⟩ := store_effect h dst e.1 (Join e.2 ",")
    obtain ⟨h1, h2, h3, h4⟩ := ih (h.store dst e.1 (Join e.2 ",")) (by rw [s2]; exact hd)
    have hstep : joinInto (e :: rest) dst h
        = joinInto rest dst (h.store dst e.1 (Join e.2 ",")) := rfl
    rw [hstep]
    refine ⟨h1.trans s1, h2.trans s2, ?_, ?_⟩
    · rw [h3, s3 hd]
      rfl
    · intro b hb
      rw [h4 b hb, s4 b hb]

/-- A join loop into a newly made map: the new map is the joined source, the
header maps and the older `map[string]string` maps are untouched. -/
theorem joinInto_make (src : GoMap (List String)) (h : MapHeap) :
    (joinInto src h.strings.length h.make.2).headers = h.headers ∧
    (joinInto src h.strings.length h.make.2).strings.length = h.strings.length + 1 ∧
    (joinInto src h.strings.length h.make.2).string h.strings.length = joined src ∧
    (∀ b, b < h.strings.length →
      (joinInto src h.strings.length h.make.2).string b = h.string b) := by
  have hlen : h.make.2.strings.length = h.strings.length + 1 := by simp [MapHeap.make]
  obtain ⟨h1, h2, h3, h4⟩ := joinInto_effect src h.strings.length h.make.2 (by omega)
  have hnew : h.make.2.string h.strings.length = [] := by
    simp [MapHeap.make, MapHeap.string, List.getD_eq_getElem?_getD]
  refine ⟨h1, h2.trans hlen, ?_, ?_⟩
  · rw [h3, hnew]
    rfl
  · intro b hb
    rw [h4 b (by omega)]
    simp [MapHeap.make, MapHeap.string, List.getD_eq_getElem?_getD,
      List.getElem?_append_left hb]

/-- The heap that `ToEntry` returns: three new maps at the next three addresses,
the joined URL query, the joined request headers and the joined response
headers with the ETag entry trimmed; the header maps and the older
`map[string]string` maps are as before. -/
theorem ToEntry_heap (aenv : AuditEnv) (w : Nat) (r : Request) (rHeader : Nat)
    (reqClaims : GoMap String) (deploymentID : String) (h : MapHeap) :
    (ToEntry aenv w r rHeader reqClaims deploymentID h).1.ReqQuery
      = some h.strings.length ∧
    (ToEntry aenv w r rHeader reqClaims deploymentID h).1.ReqHeader
      = some (h.strings.length + 1) ∧
    (ToEntry aenv w r rHeader reqClaims deploymentID h).1.RespHeader
      = some (h.strings.length + 2) ∧
    (ToEntry aenv w r rHeader reqClaims deploymentID h).2.headers = h.headers ∧
    (ToEntry aenv w r rHeader reqClaims deploymentID h).2.string h.strings.length
      = joined r.URLQuery ∧
    (ToEntry aenv w r rHeader reqClaims deploymentID h).2.string (h.strings.length + 1)
      = joined (h.header rHeader) ∧
    (ToEntry aenv w r rHeader reqClaims deploymentID h).2.string (h.strings.length + 2)
      = (if (joined (h.header w)).get aenv.ETag ≠ "" then
          (joined (h.header w)).set aenv.ETag (Trim ((joined (h.header w)).get aenv.ETag) '"')
        else joined (h.header w)) ∧
    (∀ b, b < h.strings.length →
      (ToEntry aenv w r rHeader reqClaims deploymentID h).2.string b = h.string b) := by
  obtain ⟨H2, hH2⟩ : ∃ H2, H2 = joinInto r.URLQuery h.strings.length h.make.2 := ⟨_, rfl⟩
  obtain ⟨H4, hH4⟩ : ∃ H4, H4 = joinInto (H2.header rHeader) H2.strings.length H2.make.2 :=
    ⟨_, rfl⟩
  obtain ⟨H6, hH6⟩ : ∃ H6, H6 = joinInto (H4.header w) H4.strings.length H4.make.2 :=
    ⟨_, rfl⟩
  have hres : (ToEntry aenv w r rHeader reqClaims deploymentID h).2
      = (if (H6.string H4.strings.length).get aenv.ETag ≠ "" then
          H6.store H4.strings.length aenv.ETag
            (Trim ((H6.string H4.strings.length).get aenv.ETag) '"')
        else H6) := by
    subst hH6 hH4 hH2
    rfl
  have hq : (ToEntry aenv w r rHeader reqClaims deploymentID h).1.ReqQuery
      = some h.strings.length := rfl
  have hrh : (ToEntry aenv w r rHeader reqClaims deploymentID h).1.ReqHeader
      = some H2.strings.length := by
    subst hH2
    rfl
  have hwh : (ToEntry aenv w r rHeader reqClaims deploymentID h).1.RespHeader
      = some H4.strings.length := by
    subst hH4 hH2
    rfl
  obtain ⟨a1, a2, a3, a4⟩ := joinInto_make r.URLQuery h
  rw [← hH2] at a1 a2 a3 a4
  obtain ⟨b1, b2, b3, b4⟩ := joinInto_make (H2.header rHeader) H2
  rw [← hH4] at b1 b2 b3 b4
  obtain ⟨c1, c2, c3, c4⟩ := joinInto_make (H4.header w) H4
  rw [← hH6] at c1 c2 c3 c4
  have hhd2 : ∀ a, H2.header a = h.header a := fun a => by simp [MapHeap.header, a1]
  have hhd4 : ∀ a, H4.header a = h.header a := fun a => by simp [MapHeap.header, b1, a1]
  rw [hhd2] at b3
  rw [hhd4] at c3
  obtain ⟨s1, s2, s3, s4⟩ := store_effect H6 H4.strings.length aenv.ETag
    (Trim ((H6.string H4.strings.length).get aenv.ETag) '"')
  have hn2 : h.strings.length + 1 = H2.strings.length := by omega
  have hn4 : h.strings.length + 2 = H4.strings.length := by omega
  refine ⟨hq, hrh.trans (by rw [a2]), hwh.trans (by rw [b2, a2]), ?_, ?_, ?_, ?_, ?_⟩
  · rw [hres]
    split_ifs
    · rw [s1, c1, b1, a1]
    · rw [c1, b1, a1]
  · have hne : h.strings.length ≠ H4.strings.length := by omega
    rw [hres]
    split_ifs
    · rw [s4 _ hne, c4 _ (by omega), b4 _ (by omega), a3]
    · rw [c4 _ (by omega), b4 _ (by omega), a3]
  · have hne : H2.strings.length ≠ H4.strings.length := by omega
    rw [hres, hn2]
    split_ifs
    · rw [s4 _ hne, c4 _ (by omega), b3]
    · rw [c4 _ (by omega), b3]
  · rw [hres, hn4, ← c3]
    split_ifs
    · rw [s3 (by omega)]
    · rfl
  · intro b hb
    have hne : b ≠ H4.strings.length := by omega
    rw [hres]
    split_ifs
    · rw [s4 _ hne, c4 _ (by omega), b4 _ (by omega), a4 _ hb]
    · rw [c4 _ (by omega), b4 _ (by omega), a4 _ hb]

/-- The `RespHeader` map of the entry that `ToEntry` returns. -/
theorem ToEntry_RespHeader (aenv : AuditEnv) (w : Nat) (r : Request) (rHeader : Nat)
    (reqClaims : GoMap String) (deploymentID : String) (h : MapHeap) :
    (ToEntry aenv w r rHeader reqClaims deploymentID h).2.deref
        (ToEntry aenv w r rHeader reqClaims deploymentID h).1.RespHeader
      = (if (joined (h.header w)).get aenv.ETag ≠ "" then
          (joined (h.header w)).set aenv.ETag (Trim ((joined (h.header w)).get aenv.ETag) '"')
        else joined (h.header w)) := by
  obtain ⟨-, -, h3, -, -, -, h7, -⟩ := ToEntry_heap aenv w r rHeader reqClaims deploymentID h
  rw [h3]
  exact h7

/-- The ETag entry of `RespHeader`: the joined ETag values of the response,
trimmed of the surrounding double quotes. -/
theorem ToEntry_RespHeader_ETag (aenv : AuditEnv) (w : Nat) (r : Request) (rHeader : Nat)
    (reqClaims : GoMap String) (deploymentID : String) (h : MapHeap)
    (hw : (h.header w).wellFormed) :
    ((ToEntry aenv w r rHeader reqClaims deploymentID h).2.deref
        (ToEntry aenv w r rHeader reqClaims deploymentID h).1.RespHeader).lookup aenv.ETag
      = ((h.header w).lookup aenv.ETag).map (fun v => Trim (Join v ",") '"') := by
  rw [ToEntry_RespHeader]
  have hl := lookup_joined (h.header w) aenv.ETag hw
  split_ifs with hc
  · rw [lookup_set, if_pos rfl]
    simp only [GoMap.get, hl] at hc ⊢
    cases hlk : (h.header w).lookup aenv.ETag with
    | none => simp [hlk] at hc
    | some v => simp
  · rw [hl]
    simp only [GoMap.get, hl] at hc
    cases hlk : (h.header w).lookup aenv.ETag with
    | none => rfl
    | some v =>
      simp only [hlk, Option.map_some', Option.getD_some] at hc
      have h0 : Join v "," = "" := by simpa using hc
      simp only [Option.map_some', h0]
      rfl

/-- C11: in the entry that `ToEntry` returns, the value under the ETag key of
`RespHeader`, when the key is present, neither begins nor ends with a double
quote. -/
theorem ToEntry_ETag_has_no_surrounding_quotes (aenv : AuditEnv) (w : Nat) (r : Request)
    (rHeader : Nat) (reqClaims : GoMap String) (deploymentID : String) (h : MapHeap) :
    ∀ v, ((ToEntry aenv w r rHeader reqClaims deploymentID h).2.deref
        (ToEntry aenv w r rHeader reqClaims deploymentID h).1.RespHeader).lookup aenv.ETag
        = some v →
      v.toList.head? ≠ some '"' ∧ v.toList.getLast? ≠ some '"' := by
  intro v hv
  rw [ToEntry_RespHeader] at hv
  split_ifs at hv with hc
  · rw [lookup_set, if_pos rfl] at hv
    cases hv
    exact Trim_no_surrounding _ _
  · have hempty : v = "" := by
      simpa [GoMap.get, hv] using hc
    subst hempty
    exact ⟨by decide, by decide⟩

/-- C12: the `ReqQuery`, `ReqHeader` and `RespHeader` maps of the entry have the
keys of the URL query, of the request headers and of the response headers, and
under each key the values of that key joined with "," in their order; the only
exception is the ETag key of `RespHeader`, whose joined value is trimmed of the
surrounding double quotes. -/
theorem ToEntry_maps_hold_joined_values (aenv : AuditEnv) (w : Nat) (r : Request)
    (rHeader : Nat) (reqClaims : GoMap String) (deploymentID : String) (h : MapHeap)
    (hq : r.URLQuery.wellFormed) (hr : (h.header rHeader).wellFormed)
    (hw : (h.header w).wellFormed) :
    (∀ k, ((ToEntry aenv w r rHeader reqClaims deploymentID h).2.deref
        (ToEntry aenv w r rHeader reqClaims deploymentID h).1.ReqQuery).lookup k
      = (r.URLQuery.lookup k).map (fun v => Join v ",")) ∧
    (∀ k, ((ToEntry aenv w r rHeader reqClaims deploymentID h).2.deref
        (ToEntry aenv w r rHeader reqClaims deploymentID h).1.ReqHeader).lookup k
      = ((h.header rHeader).lookup k).map (fun v => Join v ",")) ∧
    (∀ k, k ≠ aenv.ETag →
      ((ToEntry aenv w r rHeader reqClaims deploymentID h).2.deref
        (ToEntry aenv w r rHeader reqClaims deploymentID h).1.RespHeader).lookup k
      = ((h.header w).lookup k).map (fun v => Join v ",")) ∧
    ((ToEntry aenv w r rHeader reqClaims deploymentID h).2.deref
        (ToEntry aenv w r rHeader reqClaims deploymentID h).1.RespHeader).lookup aenv.ETag
      = ((h.header w).lookup aenv.ETag).map (fun v => Trim (Join v ",") '"') ∧
    (∀ k, k ∈ ((ToEntry aenv w r rHeader reqClaims deploymentID h).2.deref
        (ToEntry aenv w r rHeader reqClaims deploymentID h).1.ReqQuery).map Prod.fst
      ↔ k ∈ r.URLQuery.map Prod.fst) ∧
    (∀ k, k ∈ ((ToEntry aenv w r rHeader reqClaims deploymentID h).2.deref
        (ToEntry aenv w r rHeader reqClaims deploymentID h).1.ReqHeader).map Prod.fst
      ↔ k ∈ (h.header rHeader).map Prod.fst) ∧
    (∀ k, k ∈ ((ToEntry aenv w r rHeader reqClaims deploymentID h).2.deref
        (ToEntry aenv w r rHeader reqClaims deploymentID h).1.RespHeader).map Prod.fst
      ↔ k ∈ (h.header w).map Prod.fst) := by
  obtain ⟨h1, h2, -, -, h5, h6, -, -⟩ := ToEntry_heap aenv w r rHeader reqClaims deploymentID h
  have e1 : ∀ k, ((ToEntry aenv w r rHeader reqClaims deploymentID h).2.deref
      (ToEntry aenv w r rHeader reqClaims deploymentID h).1.ReqQuery).lookup k
      = (r.URLQuery.lookup k).map (fun v => Join v ",") := by
    intro k
    rw [h1]
    show ((ToEntry aenv w r rHeader reqClaims deploymentID h).2.string _).lookup k = _
    rw [h5, lookup_joined _ _ hq]
  have e2 : ∀ k, ((ToEntry aenv w r rHeader reqClaims deploymentID h).2.deref
      (ToEntry aenv w r rHeader reqClaims deploymentID h).1.ReqHeader).lookup k
      = ((h.header rHeader).lookup k).map (fun v => Join v ",") := by
    intro k
    rw [h2]
    show ((ToEntry aenv w r rHeader reqClaims deploymentID h).2.string _).lookup k = _
    rw [h6, lookup_joined _ _ hr]
  have e3 : ∀ k, k ≠ aenv.ETag →
      ((ToEntry aenv w r rHeader reqClaims deploymentID h).2.deref
        (ToEntry aenv w r rHeader reqClaims deploymentID h).1.RespHeader).lookup k
      = ((h.header w).lookup k).map (fun v => Join v ",") := by
    intro k hk
    rw [ToEntry_RespHeader]
    split_ifs
    · rw [lookup_set, if_neg hk, lookup_joined _ _ hw]
    · rw [lookup_joined _ _ hw]
  have e4 := ToEntry_RespHeader_ETag aenv w r rHeader reqClaims deploymentID h hw
  refine ⟨e1, e2, e3, e4, ?_, ?_, ?_⟩
  · intro k
    rw [mem_keys_iff_lookup, mem_keys_iff_lookup, e1]
    cases r.URLQuery.lookup k <;> rfl
  · intro k
    rw [mem_keys_iff_lookup, mem_keys_iff_lookup, e2]
    cases (h.header rHeader).lookup k <;> rfl
  · intro k
    rw [mem_keys_iff_lookup, mem_keys_iff_lookup]
    by_cases hk : k = aenv.ETag
    · subst hk
      rw [e4]
      cases (h.header w).lookup aenv.ETag <;> rfl
    · rw [e3 k hk]
      cases (h.header w).lookup k <;> rfl

/-- Witness of C12: the sample exchange; `events=put&events=delete` becomes
`put,delete` and the quoted ETag is the exception. -/
theorem ToEntry_maps_hold_joined_values_witness :
    (sampleAuditRequest.URLQuery.wellFormed ∧ (sampleAuditHeap.header 1).wellFormed ∧
      (sampleAuditHeap.header 0).wellFormed) ∧
    ((ToEntry sampleAuditEnv 0 sampleAuditRequest 1 [] "dep" sampleAuditHeap).2.deref
        (ToEntry sampleAuditEnv 0 sampleAuditRequest 1 [] "dep" sampleAuditHeap).1.ReqQuery).lookup
        "events"
      = (sampleAuditRequest.URLQuery.lookup "events").map (fun v => Join v ",") ∧
    (sampleAuditRequest.URLQuery.lookup "events").map (fun v => Join v ",")
      = some "put,delete" :=
  have hq : sampleAuditRequest.URLQuery.wellFormed := by
    simp [GoMap.wellFormed, sampleAuditRequest]
  have hr : (sampleAuditHeap.header 1).wellFormed := by
    simp [GoMap.wellFormed, sampleAuditHeap, MapHeap.header]
  have hw : (sampleAuditHeap.header 0).wellFormed := by
    simp [GoMap.wellFormed, sampleAuditHeap, MapHeap.header]
  ⟨⟨hq, hr, hw⟩,
    (ToEntry_maps_hold_joined_values sampleAuditEnv 0 sampleAuditRequest 1 [] "dep"
      sampleAuditHeap hq hr hw).1 "events",
    rfl⟩

/-- C13: `ToEntry` writes to the three maps it makes and to nothing else: every
`http.Header` map of the heap, in particular the request's `r.Header` and the
map of `w.Header()`, and every older `map[string]string` is the same after the
call as before it; the URL query is only read from the request. In particular
a quoted ETag value of the response keeps its quotes in the response header
while the entry holds the trimmed copy. -/
theorem ToEntry_leaves_inputs_unchanged (aenv : AuditEnv) (w : Nat) (r : Request)
    (rHeader : Nat) (reqClaims : GoMap String) (deploymentID : String) (h : MapHeap) :
    (ToEntry aenv w r rHeader reqClaims deploymentID h).2.headers = h.headers ∧
    (ToEntry aenv w r rHeader reqClaims deploymentID h).2.header w = h.header w ∧
    (ToEntry aenv w r rHeader reqClaims deploymentID h).2.header rHeader
      = h.header rHeader ∧
    (∀ b, b < h.strings.length →
      (ToEntry aenv w r rHeader reqClaims deploymentID h).2.string b = h.string b) ∧
    (∀ v, (h.header w).wellFormed → (h.header w).lookup aenv.ETag = some [v] →
      ((ToEntry aenv w r rHeader reqClaims deploymentID h).2.header w).lookup aenv.ETag
        = some [v] ∧
      ((ToEntry aenv w r rHeader reqClaims deploymentID h).2.deref
          (ToEntry aenv w r rHeader reqClaims deploymentID h).1.RespHeader).lookup aenv.ETag
        = some (Trim v '"')) := by
  obtain ⟨-, -, -, h4, -, -, -, h8⟩ := ToEntry_heap aenv w r rHeader reqClaims deploymentID h
  have hhd : ∀ a, (ToEntry aenv w r rHeader reqClaims deploymentID h).2.header a
      = h.header a := fun a => by simp [MapHeap.header, h4]
  refine ⟨h4, hhd w, hhd rHeader, h8, ?_⟩
  intro v hwf hv
  refine ⟨by rw [hhd w]; exact hv, ?_⟩
  rw [ToEntry_RespHeader_ETag aenv w r rHeader reqClaims deploymentID h hwf, hv]
  rfl

/-- Witness of C13: in the sample exchange the response header keeps the quoted
ETag and the entry holds it without the quotes. -/
theorem ToEntry_leaves_inputs_unchanged_witness :
    ((sampleAuditHeap.header 0).wellFormed ∧
      (sampleAuditHeap.header 0).lookup sampleAuditEnv.ETag
        = some ["\"9b2cf535f27731c9\""]) ∧
    (((ToEntry sampleAuditEnv 0 sampleAuditRequest 1 [] "dep" sampleAuditHeap).2.header
        0).lookup sampleAuditEnv.ETag = some ["\"9b2cf535f27731c9\""] ∧
      ((ToEntry sampleAuditEnv 0 sampleAuditRequest 1 [] "dep" sampleAuditHeap).2.deref
          (ToEntry sampleAuditEnv 0 sampleAuditRequest 1 [] "dep"
            sampleAuditHeap).1.RespHeader).lookup sampleAuditEnv.ETag
        = some (Trim "\"9b2cf535f27731c9\"" '"')) ∧
    Trim "\"9b2cf535f27731c9\"" '"' = "9b2cf535f27731c9" :=
  have hw : (sampleAuditHeap.header 0).wellFormed := by
    simp [GoMap.wellFormed, sampleAuditHeap, MapHeap.header]
  ⟨⟨hw, rfl⟩,
    (ToEntry_leaves_inputs_unchanged sampleAuditEnv 0 sampleAuditRequest 1 [] "dep"
      sampleAuditHeap).2.2.2.2 _ hw rfl,
    rfl⟩

/-- Witness of C11: the sample exchange, whose response carries a quoted ETag. -/
theorem ToEntry_ETag_has_no_surrounding_quotes_witness :
    ((ToEntry sampleAuditEnv 0 sampleAuditRequest 1 [] "dep" sampleAuditHeap).2.deref
        (ToEntry sampleAuditEnv 0 sampleAuditRequest 1 [] "dep"
          sampleAuditHeap).1.RespHeader).lookup sampleAuditEnv.ETag
      = some "9b2cf535f27731c9" ∧
    ("9b2cf535f27731c9".toList.head? ≠ some '"' ∧
      "9b2cf535f27731c9".toList.getLast? ≠ some '"') :=
  ⟨rfl, ToEntry_ETag_has_no_surrounding_quotes sampleAuditEnv 0 sampleAuditRequest 1 [] "dep"
    sampleAuditHeap "9b2cf535f27731c9" rfl⟩

/-- Witness of C16: the sample pools yield the ids `a` and `c`, and `c` is the id
of a local disk of a set of a pool. -/
theorem getLocalDiskIDs_eq_ids_of_local_disks_witness :
    getLocalDiskIDs samplePools = ["a", "c"] ∧
    "c" ∈ getLocalDiskIDs samplePools ∧
    ("c" ≠ "" ∧
      ∃ pool ∈ samplePools.serverPools, ∃ set ∈ pool.sets, ∃ disk, some disk ∈ set.getDisks ∧
        disk.IsLocal = true ∧ disk.GetDiskID = .ok "c") :=
  have hmem : "c" ∈ getLocalDiskIDs samplePools := by
    rw [show getLocalDiskIDs samplePools = ["a", "c"] from rfl]
    simp
  ⟨rfl, hmem, (getLocalDiskIDs_eq_ids_of_local_disks samplePools).2 "c" hmem⟩

/-- The chunks of a byte sequence, concatenated, are the byte sequence. -/
theorem chunksAux_flatten (size : Nat) (fuel : Nat) (l : List Nat) (hf : l.length ≤ fuel) :
    (chunksAux size fuel l).flatten = l := by
  induction fuel generalizing l with
  | zero =>
    have : l = [] := List.length_eq_zero.mp (Nat.le_zero.mp hf)
    subst this
    rfl
  | succ fuel ih =>
    cases l with
    | nil => rfl
    | cons b bs =>
      have hlen : ((b :: bs).drop (size + 1)).length ≤ fuel := by
        simp only [List.length_drop, List.length_cons] at hf ⊢
        omega
      simp only [chunksAux, List.flatten_cons, ih _ hlen]
      exact List.take_append_drop (size + 1) (b :: bs)

/-- Opening what was sealed gives back the concatenated chunks. -/
theorem openChunks_sealChunks (c : StreamCipher) (hc : c.lawful) (key nonce : List Nat)
    (ad : Context) (i : Nat) (cs : List (List Nat)) :
    openChunks c key nonce ad i (sealChunks c key nonce ad i cs) = .ok cs.flatten := by
  induction cs generalizing i with
  | nil => rfl
  | cons chunk rest ih =>
    simp [sealChunks, openChunks, hc key nonce i ad chunk, ih (i + 1)]

/-- C14: `Decrypt` undoes `Encrypt`: for a KMS and an AEAD that keep their
contracts, every byte sequence `p`, the empty one included, every context, the
empty one included, and every nonce, decrypting the encryption of `p` under the
same context succeeds and yields exactly `p`. -/
theorem Decrypt_Encrypt_roundtrip (kms : KMS) (c : StreamCipher) (nonce : List Nat)
    (p : List Nat) (ctx : Context) (hk : kms.lawful) (hc : c.lawful) :
    Decrypt kms c (Encrypt kms c nonce p ctx) ctx = .ok p := by
  simp only [Decrypt, Encrypt, ne_eq, not_true_eq_false, if_false, hk ctx]
  rw [openChunks_sealChunks c hc]
  rw [chunks, chunksAux_flatten _ _ _ (Nat.le_refl _)]

/-- The sample KMS keeps its contract. -/
theorem sampleKMS_lawful : sampleKMS.lawful := by
  intro ctx
  simp [sampleKMS]

/-- The sample cipher keeps its contract. -/
theorem sampleCipher_lawful : sampleCipher.lawful := by
  intro key nonce i ad chunk
  simp [sampleCipher, Function.comp_def]

/-- Witness of C14: the cases of the test, with the sample KMS and cipher: `nil`
data with a `nil` context, one byte with the context `key: value`, and 1 MiB of
zeros with the context `key: value, a: b`. -/
theorem Decrypt_Encrypt_roundtrip_witness :
    (sampleKMS.lawful ∧ sampleCipher.lawful) ∧
    Decrypt sampleKMS sampleCipher (Encrypt sampleKMS sampleCipher [7] [] []) [] = .ok [] ∧
    Decrypt sampleKMS sampleCipher
      (Encrypt sampleKMS sampleCipher [7] [1] [("key", "value")]) [("key", "value")]
      = .ok [1] ∧
    Decrypt sampleKMS sampleCipher
      (Encrypt sampleKMS sampleCipher [7] (List.replicate (2 ^ 20) 0)
        [("key", "value"), ("a", "b")]) [("key", "value"), ("a", "b")]
      = .ok (List.replicate (2 ^ 20) 0) :=
  ⟨⟨sampleKMS_lawful, sampleCipher_lawful⟩,
    Decrypt_Encrypt_roundtrip sampleKMS sampleCipher [7] [] [] sampleKMS_lawful
      sampleCipher_lawful,
    Decrypt_Encrypt_roundtrip sampleKMS sampleCipher [7] [1] [("key", "value")]
      sampleKMS_lawful sampleCipher_lawful,
    Decrypt_Encrypt_roundtrip sampleKMS sampleCipher [7] (List.replicate (2 ^ 20) 0)
      [("key", "value"), ("a", "b")] sampleKMS_lawful sampleCipher_lawful⟩

/-- C15: `Publish` returns for every publisher state and event, and touches the
subscriptions one by one. A subscriber whose filter accepts the event and whose
buffer is full (2000 events in the 2000-deep buffer of a listener) keeps its
buffer as it is; a subscriber whose filter accepts the event and whose buffer
has room gets the event once, after its earlier events, whatever the state of
the other subscribers; a subscriber whose filter rejects the event keeps its
buffer. -/
theorem Publish_is_lossy_and_isolated {ε : Type} (subs : List (Subscription ε)) (item : ε)
    (i : Nat) (sub : Subscription ε) (hi : subs[i]? = some sub) :
    (Publish subs item).length = subs.length ∧
    (sub.filter item = true → sub.cap ≤ sub.buffer.length →
      (Publish subs item)[i]? = some sub) ∧
    (sub.filter item = true → sub.cap = 2000 → sub.buffer.length = 2000 →
      (Publish subs item)[i]? = some sub) ∧
    (sub.filter item = true → sub.buffer.length < sub.cap →
      (Publish subs item)[i]? = some { sub with buffer := sub.buffer ++ [item] }) ∧
    (sub.filter item = false → (Publish subs item)[i]? = some sub) := by
  refine ⟨by simp [Publish], ?_, ?_, ?_, ?_⟩
  · intro hf hfull
    have : ¬ sub.buffer.length < sub.cap := by omega
    simp [Publish, List.getElem?_map, hi, hf, this]
  · intro hf hcap hlen
    have : ¬ sub.buffer.length < sub.cap := by omega
    simp [Publish, List.getElem?_map, hi, hf, this]
  · intro hf hroom
    simp [Publish, List.getElem?_map, hi, hf, hroom]
  · intro hf
    simp [Publish, List.getElem?_map, hi, hf]

/-- Witness of C15: publishing to a full listener and a ready one: the full one
keeps its 2000 events, the ready one gets the event behind its two events. -/
theorem Publish_is_lossy_and_isolated_witness :
    (samplePublisher[0]? = some fullListener ∧ fullListener.filter 7 = true ∧
      fullListener.cap = 2000 ∧ fullListener.buffer.length = 2000) ∧
    (Publish samplePublisher 7)[0]? = some fullListener ∧
    (Publish samplePublisher 7)[1]?
      = some { readyListener with buffer := readyListener.buffer ++ [7] } ∧
    readyListener.buffer ++ [7] = [1, 2, 7] :=
  have hlen : fullListener.buffer.length = 2000 := List.length_replicate 2000 0
  ⟨⟨rfl, rfl, rfl, hlen⟩,
    (Publish_is_lossy_and_isolated samplePublisher 7 0 fullListener rfl).2.2.1 rfl rfl hlen,
    (Publish_is_lossy_and_isolated samplePublisher 7 1 readyListener rfl).2.2.2.1 rfl
      (by decide),
    rfl⟩

/-- C24: a request that fails validation with error `e` gets, from a handler of
the form `if !s.IsValid(w, r) { s.WriteErrorResponse(w, errors.New("Invalid request")); return }`
(`GetLocksHandler`, `DeletePolicyHandler` and the other state-mutating
handlers, `DriveInfoHandler`, `NetInfoHandler`), status 403 and two writes, the
text of `e` by `IsValid` and then `Invalid request` by the handler, so that the
body is the text of `e` immediately followed by `Invalid request`; from
`HealthHandler` it gets status 403 and the text of `e` alone. -/
theorem failed_validation_writes_error_then_Invalid_request (env : LocksEnv σ)
    (penv : ProbeEnv σ) (r : Request) (s : Sys σ) (e : String)
    (hv : env.storageServerRequestValidate r = some e)
    (hpv : penv.storageServerRequestValidate r = some e)
    (hw : s.w.status = none) (hb : s.w.writes = []) :
    ((GetLocksHandler env r s).w.status = some 403 ∧
      (GetLocksHandler env r s).w.writes = [e, "Invalid request"] ∧
      (GetLocksHandler env r s).w.body = e ++ "Invalid request") ∧
    ((DeletePolicyHandler env.toEnv r s).w.status = some 403 ∧
      (DeletePolicyHandler env.toEnv r s).w.writes = [e, "Invalid request"] ∧
      (DeletePolicyHandler env.toEnv r s).w.body = e ++ "Invalid request") ∧
    (∀ h : MutatingHandler,
      (h.serve env.toEnv r s).w.status = some 403 ∧
      (h.serve env.toEnv r s).w.writes = [e, "Invalid request"] ∧
      (h.serve env.toEnv r s).w.body = e ++ "Invalid request") ∧
    ((DriveInfoHandler penv r s).w.status = some 403 ∧
      (DriveInfoHandler penv r s).w.writes = [e, "Invalid request"] ∧
      (DriveInfoHandler penv r s).w.body = e ++ "Invalid request") ∧
    ((NetInfoHandler env.toEnv r s).w.status = some 403 ∧
      (NetInfoHandler env.toEnv r s).w.writes = [e, "Invalid request"] ∧
      (NetInfoHandler env.toEnv r s).w.body = e ++ "Invalid request") ∧
    ((HealthHandler env.toEnv r s).w.status = some 403 ∧
      (HealthHandler env.toEnv r s).w.writes = [e] ∧
      (HealthHandler env.toEnv r s).w.body = e) := by
  have hj : String.join [e, "Invalid request"] = e ++ "Invalid request" := by
    apply String.ext
    simp [String.data_join]
  refine ⟨?_, ?_, ?_, ?_, ?_, ?_⟩
  · simp [GetLocksHandler, IsValid_of_error env.toEnv r s e hv,
      peerRESTServer.WriteErrorResponse, ResponseWriter.WriteHeader, ResponseWriter.Write,
      ResponseWriter.body, hw, hb, hj]
  · simp [DeletePolicyHandler, IsValid_of_error env.toEnv r s e hv,
      peerRESTServer.WriteErrorResponse, ResponseWriter.WriteHeader, ResponseWriter.Write,
      ResponseWriter.body, hw, hb, hj]
  · intro h
    cases h <;>
      simp [MutatingHandler.serve, DeletePolicyHandler, LoadPolicyHandler,
        LoadPolicyMappingHandler, DeleteUserHandler, LoadUserHandler,
        DeleteServiceAccountHandler, LoadServiceAccountHandler, LoadGroupHandler,
        StartProfilingHandler, DeleteBucketMetadataHandler, LoadBucketMetadataHandler,
        PutBucketNotificationHandler, SignalServiceHandler, ServerUpdateHandler,
        IsValid_of_error env.toEnv r s e hv, peerRESTServer.WriteErrorResponse,
        ResponseWriter.WriteHeader, ResponseWriter.Write, ResponseWriter.body, hw, hb, hj]
  · simp [DriveInfoHandler, IsValid_of_error penv.toEnv r s e hpv,
      peerRESTServer.WriteErrorResponse, ResponseWriter.WriteHeader, ResponseWriter.Write,
      ResponseWriter.body, hw, hb, hj]
  · simp [NetInfoHandler, IsValid_of_error env.toEnv r s e hv,
      peerRESTServer.WriteErrorResponse, ResponseWriter.WriteHeader, ResponseWriter.Write,
      ResponseWriter.body, hw, hb, hj]
  · simp [HealthHandler, IsValid_of_error env.toEnv r s e hv,
      peerRESTServer.WriteErrorResponse, ResponseWriter.WriteHeader, ResponseWriter.Write,
      ResponseWriter.body, hw, hb, body_single_write]

/-- Witness of C24: an unsigned request in the sample environment; `GetLocks`
answers `JWT token missingInvalid request`, `Health` answers `JWT token missing`. -/
theorem failed_validation_writes_error_then_Invalid_request_witness :
    (sampleLocksEnv.storageServerRequestValidate (unsignedRequest []) = some "JWT token missing" ∧
      (Sys.init ([] : List Call)).w.status = none ∧
      (Sys.init ([] : List Call)).w.writes = []) ∧
    (GetLocksHandler sampleLocksEnv (unsignedRequest []) (Sys.init [])).w.status = some 403 ∧
    (GetLocksHandler sampleLocksEnv (unsignedRequest []) (Sys.init [])).w.body
      = "JWT token missing" ++ "Invalid request" ∧
    (HealthHandler sampleEnv (unsignedRequest []) (Sys.init [])).w.body = "JWT token missing" :=
  have h := failed_validation_writes_error_then_Invalid_request sampleLocksEnv sampleProbeEnv
    (unsignedRequest []) (Sys.init []) "JWT token missing" rfl rfl rfl rfl
  ⟨⟨rfl, rfl, rfl⟩, h.1.1, h.1.2.2, h.2.2.2.2.2.2.2⟩

/-- The only requested kind starts: `startProfiler` is called on it. -/
theorem startProfilers_single_calls (env : Env σ) (p : String) (u : Sys σ) :
    (startProfilers env [p] u).calls = u.calls ++ [Call.startProfiler p] := by
  cases h : (env.exec (.startProfiler p) u.st).1 <;>
    simp [startProfilers, startProfiler, invoke, h, setProfiler, Flush,
      peerRESTServer.WriteErrorResponse]

/-- C23 (what the code does): on a valid `StartProfiling` request whose profiler
parameter is the empty string, `strings.Split` yields the one-element list `[""]`,
so the guard `len(profiles) == 0` does not fire and `startProfiler("")` is
called; when that start succeeds the response is the plain flush (status 200 on
a new writer, no error text) and a profiler of kind `""` has been started. -/
theorem StartProfiling_empty_profiler_calls_startProfiler (env : Env σ) (r : Request)
    (s : Sys σ) (hv : env.storageServerRequestValidate r = none)
    (hp : r.vars.get env.peerRESTProfiler = "") :
    Call.startProfiler "" ∈ (StartProfilingHandler env r s).calls ∧
    ((∀ st, (env.exec (.startProfiler "") st).1 = none) →
      (StartProfilingHandler env r s).w = s.w.Flush ∧
      (StartProfilingHandler env r s).started = s.started ++ [""]) := by
  have hS : Split (r.vars.get env.peerRESTProfiler) ',' = [""] := by rw [hp]; rfl
  constructor
  · have hH : StartProfilingHandler env r s
        = startProfilers env [""] (stopRunning env [""]
            (if s.globalProfiler.isNone then { s with globalProfiler := some [] } else s)) := by
      simp [StartProfilingHandler, IsValid_of_ok env r s hv, hS]
    rw [hH, startProfilers_single_calls]
    simp
  · intro hstart
    have h := StartProfiling_effect env r s hv (by rw [hS]; simp)
      (by
        rw [hS]
        intro k hk st
        rw [List.mem_singleton] at hk
        subst hk
        exact hstart st)
    rw [hS] at h
    exact ⟨h.2.1, h.1⟩

/-- Witness of C23: `profiler=` (empty) on a valid request in the sample
environment: `startProfiler("")` is the one call made, a profiler of kind `""`
is started and registered, and the response is 200 with an empty body. -/
theorem StartProfiling_empty_profiler_calls_startProfiler_witness :
    (sampleEnv.storageServerRequestValidate (signedRequest [("profiler", "")]) = none ∧
      (signedRequest [("profiler", "")]).vars.get sampleEnv.peerRESTProfiler = "") ∧
    Call.startProfiler "" ∈
      (StartProfilingHandler sampleEnv (signedRequest [("profiler", "")]) (Sys.init [])).calls ∧
    (StartProfilingHandler sampleEnv (signedRequest [("profiler", "")]) (Sys.init [])).w.status
      = some 200 ∧
    (StartProfilingHandler sampleEnv (signedRequest [("profiler", "")]) (Sys.init [])).w.writes
      = [] ∧
    (StartProfilingHandler sampleEnv (signedRequest [("profiler", "")]) (Sys.init [])).calls
      = [Call.startProfiler ""] ∧
    (StartProfilingHandler sampleEnv (signedRequest [("profiler", "")]) (Sys.init [])).started
      = [""] ∧
    (StartProfilingHandler sampleEnv (signedRequest [("profiler", "")])
      (Sys.init [])).globalProfiler = some [("", 0)] :=
  have h := StartProfiling_empty_profiler_calls_startProfiler sampleEnv
    (signedRequest [("profiler", "")]) (Sys.init []) rfl rfl
  ⟨⟨rfl, rfl⟩, h.1, rfl, rfl, rfl, rfl, rfl⟩


/-- Publishing changes no filter. -/
theorem Publish_filters {ε : Type} (subs : List (Subscription ε)) (item : ε) :
    (Publish subs item).map Subscription.filter = subs.map Subscription.filter := by
  induction subs with
  | nil => rfl
  | cons sub rest ih =>
    simp only [Publish, List.map_cons, List.map_map] at ih ⊢
    rw [ih]
    congr 1
    split_ifs <;> rfl

/-- Encoding a value leaves the subscription as it is. -/
theorem encodeFlush_subs (env : StreamEnv σ) (v : Any) (t : StreamSys σ) :
    (encodeFlush env v t).subs = t.subs := by
  unfold encodeFlush
  cases env.gobEncode t.encoded v <;> rfl

/-- Taking an entry from the channel changes no filter. -/
theorem receive_filters (t t1 : StreamSys σ) (entry : Any)
    (h : t.receive = some (entry, t1)) :
    t1.subs.map Subscription.filter = t.subs.map Subscription.filter := by
  unfold StreamSys.receive at h
  cases hs : t.subs with
  | nil => simp [hs] at h
  | cons sub others =>
    cases hb : sub.buffer with
    | nil => simp [hs, hb] at h
    | cons e waiting =>
      simp only [hs, hb, Option.some.injEq, Prod.mk.injEq] at h
      rw [← h.2]
      simp

/-- One pass of the `Listen` loop changes no filter. -/
theorem listenSelect_filters (env : StreamEnv σ) (t : StreamSys σ) (o : Occurrence) :
    (listenSelect env t o).subs.map Subscription.filter = t.subs.map Subscription.filter := by
  unfold listenSelect
  by_cases hr : t.returned = true
  · simp [hr]
  · simp only [hr, Bool.false_eq_true, if_false]
    cases o with
    | publish item => exact Publish_filters t.subs item
    | recv =>
      cases h : t.receive with
      | none => rfl
      | some p =>
        obtain ⟨entry, t1⟩ := p
        simp only [encodeFlush_subs]
        exact receive_filters t t1 entry h
    | tick => simp only [encodeFlush_subs]
    | done => rfl

/-- The `Listen` loop changes no filter. -/
theorem listenLoop_filters (env : StreamEnv σ) (timeline : List Occurrence) (t : StreamSys σ) :
    (timeline.foldl (listenSelect env) t).subs.map Subscription.filter
      = t.subs.map Subscription.filter := by
  induction timeline generalizing t with
  | nil => rfl
  | cons o rest ih => rw [List.foldl_cons, ih, listenSelect_filters]

/-- A rules-map of the modelled `event` package for one event name matches that
name on the keys that its pattern matches. -/
theorem MatchSimple_single (eventName pattern targetID key : String) :
    event.MatchSimple (event.NewRulesMap [eventName] pattern targetID) eventName key
      = event.wildcardMatch pattern.toList key.toList := by
  simp [event.MatchSimple, event.NewRulesMap]

/-- C21: on a valid `Listen` request whose parameters are accepted, the filter
of the subscription that `ListenHandler` registers (and keeps while it serves)
accepts a published value if and only if the value is an `event.Event`, its
bucket name is empty or the requested bucket filter is empty or the two are
equal, and the rules-map built from the requested event names and the pattern
of the requested key beginning and ending matches the event name and the
object key. With the `event` package as modelled from the spec, for
`prefix=logs/`, `suffix=.json`, `events=s3:ObjectCreated:Put` and no bucket
filter, an `s3:ObjectCreated:Put` event with key `logs/a.json` is accepted and
one with key `other/x.txt` is rejected. -/
theorem ListenHandler_filter_accepts_iff (env : StreamEnv σ) (r : Request) (s : Sys σ)
    (prefix_ suffix : String) (eventNames : List event.Name)
    (hv : env.storageServerRequestValidate r = none)
    (hp : filterRuleValue env r.URLQuery env.peerRESTListenPrefix = .ok prefix_)
    (hs : filterRuleValue env r.URLQuery env.peerRESTListenSuffix = .ok suffix)
    (hn : parseNames env (Values.index r.URLQuery env.peerRESTListenEvents) = .ok eventNames) :
    ∃ filter : Any → Bool,
      (∀ timeline, (ListenHandler env r timeline s).subs.map Subscription.filter = [filter]) ∧
      (∀ evI, filter evI = true ↔
        ∃ ev, evI = .Event ev ∧
          (ev.S3.Bucket.Name = "" ∨ Values.Get r.URLQuery env.peerRESTListenBucket = "" ∨
            ev.S3.Bucket.Name = Values.Get r.URLQuery env.peerRESTListenBucket) ∧
          env.MatchSimple
            (env.NewRulesMap eventNames (env.NewPattern prefix_ suffix) (env.mustGetUUID s.st))
            ev.EventName ev.S3.Object.Key = true) ∧
      (prefix_ = "logs/" → suffix = ".json" → eventNames = ["s3:ObjectCreated:Put"] →
        Values.Get r.URLQuery env.peerRESTListenBucket = "" →
        env.NewPattern = event.NewPattern → env.NewRulesMap = event.NewRulesMap →
        env.MatchSimple = event.MatchSimple →
        ∀ bucket, filter (putEvent bucket "logs/a.json") = true ∧
          filter (putEvent bucket "other/x.txt") = false) := by
  refine ⟨listenFilter env r.URLQuery
    (env.NewRulesMap eventNames (env.NewPattern prefix_ suffix) (env.mustGetUUID s.st)),
    ?_, ?_, ?_⟩
  · intro timeline
    simp only [ListenHandler, IsValid_of_ok env.toEnv r s hv, hp, hs, hn, Bool.not_true,
      Bool.false_eq_true, if_false]
    rw [listenLoop_filters]
    rfl
  · intro evI
    cases evI with
    | Event ev =>
      simp only [listenFilter, Any.Event.injEq, exists_eq_left']
      by_cases h1 : ev.S3.Bucket.Name = ""
      · simp [h1]
      · by_cases h2 : Values.Get r.URLQuery env.peerRESTListenBucket = ""
        · simp [h1, h2]
        · by_cases h3 : ev.S3.Bucket.Name = Values.Get r.URLQuery env.peerRESTListenBucket
          · simp [h1, h2, h3]
          · simp [h1, h2, h3]
    | Info info => simp [listenFilter]
    | LogEntry entry => simp [listenFilter]
  · intro h1 h2 h3 h4 h5 h6 h7 bucket
    subst h1 h2 h3
    have ha : event.wildcardMatch (event.NewPattern "logs/" ".json").toList
        "logs/a.json".toList = true := by decide
    have hb : event.wildcardMatch (event.NewPattern "logs/" ".json").toList
        "other/x.txt".toList = false := by decide
    have hm : ∀ key, listenFilter env r.URLQuery
        (env.NewRulesMap ["s3:ObjectCreated:Put"] (env.NewPattern "logs/" ".json")
          (env.mustGetUUID s.st)) (putEvent bucket key)
        = event.wildcardMatch (event.NewPattern "logs/" ".json").toList key.toList := by
      intro key
      simp only [listenFilter, putEvent, h4, h5, h6, h7, MatchSimple_single, ne_eq,
        not_true_eq_false, and_false, if_false]
    rw [hm, hm]
    exact ⟨ha, hb⟩

/-- Witness of C21: `listen?prefix=logs/&suffix=.json&events=s3:ObjectCreated:Put`
in the sample environment. The registered filter accepts the `Put` event of
`logs/a.json` and rejects the one of `other/x.txt`; published in that order,
only the first reaches the response. -/
theorem ListenHandler_filter_accepts_iff_witness :
    (sampleStreamEnv.storageServerRequestValidate listenRequest = none ∧
      filterRuleValue sampleStreamEnv listenRequest.URLQuery
        sampleStreamEnv.peerRESTListenPrefix = .ok "logs/" ∧
      filterRuleValue sampleStreamEnv listenRequest.URLQuery
        sampleStreamEnv.peerRESTListenSuffix = .ok ".json" ∧
      parseNames sampleStreamEnv
        (Values.index listenRequest.URLQuery sampleStreamEnv.peerRESTListenEvents)
        = .ok ["s3:ObjectCreated:Put"]) ∧
    (∃ filter : Any → Bool,
      (ListenHandler sampleStreamEnv listenRequest [] (Sys.init [])).subs.map
        Subscription.filter = [filter] ∧
      filter (putEvent "b" "logs/a.json") = true ∧
      filter (putEvent "b" "other/x.txt") = false) ∧
    (ListenHandler sampleStreamEnv listenRequest
      [.publish (putEvent "b" "logs/a.json"), .publish (putEvent "b" "other/x.txt"),
        .recv, .recv] (Sys.init [])).encoded = [putEvent "b" "logs/a.json"] :=
  have h := ListenHandler_filter_accepts_iff sampleStreamEnv listenRequest (Sys.init [])
    "logs/" ".json" ["s3:ObjectCreated:Put"] rfl rfl rfl rfl
  ⟨⟨rfl, rfl, rfl, rfl⟩,
    h.elim fun filter hf =>
      ⟨filter, hf.1 [], hf.2.2 rfl rfl rfl rfl rfl rfl rfl "b"⟩,
    rfl⟩


/-- No encode has failed when nothing was encoded. -/
theorem allEncoded_nil (env : StreamEnv σ) : allEncoded env [] := by
  intro before v h
  have := List.eq_nil_of_prefix_nil h
  simp at this

/-- One more successful encode. -/
theorem allEncoded_concat (env : StreamEnv σ) (sent : List Any) (v : Any) (b : String)
    (h : allEncoded env sent) (hb : env.gobEncode sent v = .ok b) :
    allEncoded env (sent ++ [v]) := by
  intro before v1 hp
  rcases List.prefix_concat_iff.mp hp with heq | hpre
  · obtain ⟨h1, h2⟩ := List.append_inj' heq rfl
    simp only [List.cons.injEq, and_true] at h2
    subst h1 h2
    exact ⟨b, hb⟩
  · exact h before v1 hpre

/-- A loop whose passes do nothing once the handler has returned stays as it is. -/
theorem loop_returned (f : StreamSys σ → Occurrence → StreamSys σ)
    (hf : ∀ t o, t.returned = true → f t o = t) (more : List Occurrence) (t : StreamSys σ)
    (h : t.returned = true) : more.foldl f t = t := by
  induction more with
  | nil => rfl
  | cons o rest ih => rw [List.foldl_cons, hf t o h, ih]

/-- A property kept by every pass is kept by the loop. -/
theorem loop_invariant (f : StreamSys σ → Occurrence → StreamSys σ) (P : StreamSys σ → Prop)
    (hP : ∀ t o, P t → P (f t o)) (timeline : List Occurrence) (t : StreamSys σ) (h : P t) :
    P (timeline.foldl f t) := by
  induction timeline generalizing t with
  | nil => exact h
  | cons o rest ih => exact ih (f t o) (hP t o h)

/-- Encoding from a serving state sends exactly the value. -/
theorem encodeFlush_sends (env : StreamEnv σ) (v : Any) (t0 t : StreamSys σ)
    (he : t.encoded = t0.encoded) (hw : t.sys = t0.sys) (hr : t.returned = false)
    (hd : t.doneCh = some false) :
    t0.sends env v (encodeFlush env v t) := by
  unfold StreamSys.sends encodeFlush
  rw [he, hw]
  cases hg : env.gobEncode t0.encoded v with
  | error err => exact ⟨rfl, rfl, rfl, rfl⟩
  | ok b =>
    refine ⟨rfl, ?_, ?_, hr, hd⟩
    · cases hst : t0.sys.w.status <;>
        simp [Flush, ResponseWriter.Flush, ResponseWriter.Write, ResponseWriter.WriteHeader, hst]
    · cases hst : t0.sys.w.status <;>
        simp [Flush, ResponseWriter.Flush, ResponseWriter.Write, ResponseWriter.WriteHeader, hst]

/-- Encoding from a serving state leaves the handler serving, or ended on the
first encode error. -/
theorem encodeFlush_serving (env : StreamEnv σ) (v : Any) (t : StreamSys σ)
    (h : t.serving env) :
    (encodeFlush env v t).serving env ∨ (encodeFlush env v t).endedOnFirstError env := by
  obtain ⟨hr, hd, ha⟩ := h
  unfold encodeFlush
  cases hg : env.gobEncode t.encoded v with
  | error err => exact Or.inr ⟨rfl, rfl, t.encoded, v, err, rfl, hg, ha⟩
  | ok b => exact Or.inl ⟨hr, hd, allEncoded_concat env t.encoded v b ha hg⟩

/-- Taking an entry from the channel changes the channel only. -/
theorem receive_frame (t t1 : StreamSys σ) (entry : Any) (h : t.receive = some (entry, t1)) :
    t1.sys = t.sys ∧ t1.encoded = t.encoded ∧ t1.returned = t.returned ∧
      t1.doneCh = t.doneCh ∧ t1.keepAliveTicker = t.keepAliveTicker := by
  unfold StreamSys.receive at h
  cases hs : t.subs with
  | nil => simp [hs] at h
  | cons sub others =>
    cases hb : sub.buffer with
    | nil => simp [hs, hb] at h
    | cons e waiting =>
      simp only [hs, hb, Option.some.injEq, Prod.mk.injEq] at h
      rw [← h.2]
      exact ⟨rfl, rfl, rfl, rfl, rfl⟩

/-- Encoding keeps the ticker. -/
theorem encodeFlush_ticker (env : StreamEnv σ) (v : Any) (t : StreamSys σ) :
    (encodeFlush env v t).keepAliveTicker = t.keepAliveTicker := by
  unfold encodeFlush
  cases env.gobEncode t.encoded v <;> rfl

/-- A received entry is sent. -/
theorem receive_sends (env : StreamEnv σ) (t t1 : StreamSys σ) (entry : Any)
    (h : t.receive = some (entry, t1)) (hs : t.serving env) :
    t.sends env entry (encodeFlush env entry t1) := by
  obtain ⟨f1, f2, f3, f4, -⟩ := receive_frame t t1 entry h
  exact encodeFlush_sends env entry t t1 f2 f1 (f3.trans hs.1) (f4.trans hs.2.1)

/-- A received entry leaves the handler serving, or ended on the first encode error. -/
theorem receive_serving (env : StreamEnv σ) (t t1 : StreamSys σ) (entry : Any)
    (h : t.receive = some (entry, t1)) (hs : t.serving env) :
    (encodeFlush env entry t1).serving env ∨ (encodeFlush env entry t1).endedOnFirstError env := by
  obtain ⟨-, f2, f3, f4, -⟩ := receive_frame t t1 entry h
  exact encodeFlush_serving env entry t1 ⟨f3.trans hs.1, f4.trans hs.2.1, f2 ▸ hs.2.2⟩

/-- One pass of the `Listen` loop: the handler serves with its ticker, or has
ended on the first encode error. -/
theorem listenSelect_state (env : StreamEnv σ) (t : StreamSys σ) (o : Occurrence)
    (h : t.keepAliveTicker = some 500 ∧ (t.serving env ∨ t.endedOnFirstError env)) :
    (listenSelect env t o).keepAliveTicker = some 500 ∧
      ((listenSelect env t o).serving env ∨ (listenSelect env t o).endedOnFirstError env) := by
  obtain ⟨hk, hs | he⟩ := h
  · have hr := hs.1
    unfold listenSelect
    simp only [hr, Bool.false_eq_true, if_false]
    cases o with
    | publish item => exact ⟨hk, Or.inl hs⟩
    | recv =>
      cases hrec : t.receive with
      | none => exact ⟨hk, Or.inl hs⟩
      | some p =>
        obtain ⟨entry, t1⟩ := p
        exact ⟨(encodeFlush_ticker env entry t1).trans
          ((receive_frame t t1 entry hrec).2.2.2.2.trans hk), receive_serving env t t1 entry hrec hs⟩
    | tick => exact ⟨(encodeFlush_ticker env _ t).trans hk, encodeFlush_serving env _ t hs⟩
    | done => exact ⟨hk, Or.inl hs⟩
  · have hr := he.1
    unfold listenSelect
    simp only [hr, if_true]
    exact ⟨hk, Or.inr he⟩

/-- One pass of the `Trace` loop: the handler serves with its ticker, or has
ended on the first encode error. -/
theorem traceSelect_state (env : StreamEnv σ) (t : StreamSys σ) (o : Occurrence)
    (h : t.keepAliveTicker = some 500 ∧ (t.serving env ∨ t.endedOnFirstError env)) :
    (traceSelect env t o).keepAliveTicker = some 500 ∧
      ((traceSelect env t o).serving env ∨ (traceSelect env t o).endedOnFirstError env) := by
  obtain ⟨hk, hs | he⟩ := h
  · have hr := hs.1
    unfold traceSelect
    simp only [hr, Bool.false_eq_true, if_false]
    cases o with
    | publish item => exact ⟨hk, Or.inl hs⟩
    | recv =>
      cases hrec : t.receive with
      | none => exact ⟨hk, Or.inl hs⟩
      | some p =>
        obtain ⟨entry, t1⟩ := p
        exact ⟨(encodeFlush_ticker env entry t1).trans
          ((receive_frame t t1 entry hrec).2.2.2.2.trans hk), receive_serving env t t1 entry hrec hs⟩
    | tick => exact ⟨(encodeFlush_ticker env _ t).trans hk, encodeFlush_serving env _ t hs⟩
    | done => exact ⟨hk, Or.inl hs⟩
  · have hr := he.1
    unfold traceSelect
    simp only [hr, if_true]
    exact ⟨hk, Or.inr he⟩

/-- One pass of the `ConsoleLog` loop: the handler serves without a ticker, or
has returned with `doneCh` closed. -/
theorem consoleLogSelect_state (env : StreamEnv σ) (t : StreamSys σ) (o : Occurrence)
    (h : t.keepAliveTicker = none ∧
      (t.serving env ∨ (t.returned = true ∧ t.doneCh = some true))) :
    (consoleLogSelect env t o).keepAliveTicker = none ∧
      ((consoleLogSelect env t o).serving env ∨
        ((consoleLogSelect env t o).returned = true ∧
          (consoleLogSelect env t o).doneCh = some true)) := by
  obtain ⟨hk, hs | he⟩ := h
  · have hr := hs.1
    unfold consoleLogSelect
    simp only [hr, Bool.false_eq_true, if_false]
    cases o with
    | publish item => exact ⟨hk, Or.inl hs⟩
    | recv =>
      cases hrec : t.receive with
      | none => exact ⟨hk, Or.inl hs⟩
      | some p =>
        obtain ⟨entry, t1⟩ := p
        refine ⟨(encodeFlush_ticker env entry t1).trans
          ((receive_frame t t1 entry hrec).2.2.2.2.trans hk), ?_⟩
        rcases receive_serving env t t1 entry hrec hs with h1 | h2
        · exact Or.inl h1
        · exact Or.inr ⟨h2.1, h2.2.1⟩
    | tick => exact ⟨hk, Or.inl hs⟩
    | done => exact ⟨hk, Or.inr ⟨rfl, rfl⟩⟩
  · have hsel : consoleLogSelect env t o = t := by
      unfold consoleLogSelect
      simp [he.1]
    rw [hsel]
    exact ⟨hk, Or.inr he⟩

/-- A pass of the `Listen` loop after the handler has returned does nothing. -/
theorem listenSelect_returned (env : StreamEnv σ) (t : StreamSys σ) (o : Occurrence)
    (h : t.returned = true) : listenSelect env t o = t := by
  unfold listenSelect
  simp [h]

/-- A pass of the `Trace` loop after the handler has returned does nothing. -/
theorem traceSelect_returned (env : StreamEnv σ) (t : StreamSys σ) (o : Occurrence)
    (h : t.returned = true) : traceSelect env t o = t := by
  unfold traceSelect
  simp [h]

/-- A pass of the `ConsoleLog` loop after the handler has returned does nothing. -/
theorem consoleLogSelect_returned (env : StreamEnv σ) (t : StreamSys σ) (o : Occurrence)
    (h : t.returned = true) : consoleLogSelect env t o = t := by
  unfold consoleLogSelect
  simp [h]

/-- A tick taken by the `Listen` loop sends the zero `event.Event`. -/
theorem listenSelect_tick (env : StreamEnv σ) (t : StreamSys σ) (h : t.serving env) :
    t.sends env (.Event {}) (listenSelect env t .tick) := by
  unfold listenSelect
  simp only [h.1, Bool.false_eq_true, if_false]
  exact encodeFlush_sends env _ t t rfl rfl h.1 h.2.1

/-- A tick taken by the `Trace` loop sends the zero `trace.Info`. -/
theorem traceSelect_tick (env : StreamEnv σ) (t : StreamSys σ) (h : t.serving env) :
    t.sends env (.Info {}) (traceSelect env t .tick) := by
  unfold traceSelect
  simp only [h.1, Bool.false_eq_true, if_false]
  exact encodeFlush_sends env _ t t rfl rfl h.1 h.2.1

/-- The `ConsoleLog` loop has no case for a tick. -/
theorem consoleLogSelect_tick (env : StreamEnv σ) (t : StreamSys σ) :
    consoleLogSelect env t .tick = t := by
  unfold consoleLogSelect
  cases t.returned <;> rfl

/-- An entry taken by the `Listen` loop is sent. -/
theorem listenSelect_recv (env : StreamEnv σ) (t t1 : StreamSys σ) (entry : Any)
    (h : t.serving env) (hrec : t.receive = some (entry, t1)) :
    t.sends env entry (listenSelect env t .recv) := by
  unfold listenSelect
  simp only [h.1, Bool.false_eq_true, if_false, hrec]
  exact receive_sends env t t1 entry hrec h

/-- An entry taken by the `Trace` loop is sent. -/
theorem traceSelect_recv (env : StreamEnv σ) (t t1 : StreamSys σ) (entry : Any)
    (h : t.serving env) (hrec : t.receive = some (entry, t1)) :
    t.sends env entry (traceSelect env t .recv) := by
  unfold traceSelect
  simp only [h.1, Bool.false_eq_true, if_false, hrec]
  exact receive_sends env t t1 entry hrec h

/-- An entry taken by the `ConsoleLog` loop is sent. -/
theorem consoleLogSelect_recv (env : StreamEnv σ) (t t1 : StreamSys σ) (entry : Any)
    (h : t.serving env) (hrec : t.receive = some (entry, t1)) :
    t.sends env entry (consoleLogSelect env t .recv) := by
  unfold consoleLogSelect
  simp only [h.1, Bool.false_eq_true, if_false, hrec]
  exact receive_sends env t t1 entry hrec h

/-- The end of the request context ends the serving `ConsoleLog` loop. -/
theorem consoleLogSelect_done (env : StreamEnv σ) (t : StreamSys σ) (h : t.serving env) :
    consoleLogSelect env t .done = t.ret := by
  unfold consoleLogSelect
  simp [h.1]

/-- The `Listen` handler on accepted parameters is its loop from a serving state. -/
theorem ListenHandler_loop (env : StreamEnv σ) (r : Request) (s : Sys σ)
    (prefix_ suffix : String) (eventNames : List event.Name)
    (hv : env.storageServerRequestValidate r = none)
    (hp : filterRuleValue env r.URLQuery env.peerRESTListenPrefix = .ok prefix_)
    (hs : filterRuleValue env r.URLQuery env.peerRESTListenSuffix = .ok suffix)
    (hn : parseNames env (Values.index r.URLQuery env.peerRESTListenEvents) = .ok eventNames) :
    ∃ t0 : StreamSys σ, (∀ tl, ListenHandler env r tl s = tl.foldl (listenSelect env) t0) ∧
      t0.keepAliveTicker = some 500 ∧ t0.serving env := by
  refine ⟨
    { sys := Flush { s with w := s.w.WriteHeader 200 }, doneCh := some false,
      subs := listenSubscribe [] (listenFilter env r.URLQuery
        (env.NewRulesMap eventNames (env.NewPattern prefix_ suffix) (env.mustGetUUID s.st))),
      keepAliveTicker := some 500 },
    fun tl => ?_, rfl, rfl, rfl, allEncoded_nil env⟩
  simp only [ListenHandler, IsValid_of_ok env.toEnv r s hv, hp, hs, hn, Bool.not_true,
    Bool.false_eq_true, if_false]

/-- The `Trace` handler on accepted parameters is its loop from a serving state. -/
theorem TraceHandler_loop (env : StreamEnv σ) (r : Request) (s : Sys σ)
    (traceOpts : ServiceTraceOpts)
    (hv : env.storageServerRequestValidate r = none)
    (ht : extractTraceOptsFromPeerRequest env r = .ok traceOpts) :
    ∃ t0 : StreamSys σ, (∀ tl, TraceHandler env r tl s = tl.foldl (traceSelect env) t0) ∧
      t0.keepAliveTicker = some 500 ∧ t0.serving env := by
  refine ⟨
    { sys := Flush { s with w := s.w.WriteHeader 200 }, doneCh := some false,
      subs := Subscribe [] 2000 (fun entry => env.mustTrace entry traceOpts),
      keepAliveTicker := some 500 },
    fun tl => ?_, rfl, rfl, rfl, allEncoded_nil env⟩
  simp only [TraceHandler, IsValid_of_ok env.toEnv r s hv, ht, Bool.not_true,
    Bool.false_eq_true, if_false]

/-- The `ConsoleLog` handler on a valid request is its loop from a serving state. -/
theorem ConsoleLogHandler_loop (env : StreamEnv σ) (r : Request) (s : Sys σ)
    (hv : env.storageServerRequestValidate r = none) :
    ∃ t0 : StreamSys σ,
      (∀ tl, ConsoleLogHandler env r tl s = tl.foldl (consoleLogSelect env) t0) ∧
      t0.keepAliveTicker = none ∧ t0.serving env := by
  refine ⟨
    { sys := Flush { setHeader "Connection" "close" s with
        w := (setHeader "Connection" "close" s).w.WriteHeader 200 },
      doneCh := some false,
      subs := Subscribe [] 2000 (fun _ => true) },
    fun tl => ?_, rfl, rfl, rfl, allEncoded_nil env⟩
  simp only [ConsoleLogHandler, IsValid_of_ok env.toEnv r s hv, Bool.not_true,
    Bool.false_eq_true, if_false]

/-- C22 (the claim at `ConsoleLogHandler`): the handler serves a valid request
and no entry is pending; a keep-alive period passes. Nothing is handed to the
encoder, nothing is written and the response is not flushed again (the one
flush is the one that follows `WriteHeader`): no value `zero` is sent. -/
theorem ConsoleLog_tick_sends_no_envelope_counterexample :
    sampleStreamEnv.storageServerRequestValidate streamRequest = none ∧
    (ConsoleLogHandler sampleStreamEnv streamRequest [] (Sys.init [])).serving sampleStreamEnv ∧
    (ConsoleLogHandler sampleStreamEnv streamRequest [] (Sys.init [])).receive.isNone = true ∧
    (∀ zero, ¬ (ConsoleLogHandler sampleStreamEnv streamRequest [] (Sys.init [])).sends
      sampleStreamEnv zero
      (ConsoleLogHandler sampleStreamEnv streamRequest [.tick] (Sys.init []))) ∧
    (ConsoleLogHandler sampleStreamEnv streamRequest [.tick] (Sys.init [])).encoded = [] ∧
    (ConsoleLogHandler sampleStreamEnv streamRequest [.tick] (Sys.init [])).sys.w.writes = [] ∧
    (ConsoleLogHandler sampleStreamEnv streamRequest [.tick] (Sys.init [])).sys.w.flushes = 1 ∧
    (ConsoleLogHandler sampleStreamEnv streamRequest [.tick] (Sys.init [])).keepAliveTicker
      = none := by
  refine ⟨rfl, ⟨rfl, rfl, allEncoded_nil sampleStreamEnv⟩, rfl, ?_, rfl, rfl, rfl, rfl⟩
  intro zero h
  have h1 : ([] : List Any) = [] ++ [zero] := h.1
  simp at h1

/-- C22 (amended): on a valid request with accepted parameters, at every moment
of the timeline, `ListenHandler` and `TraceHandler` have a keep-alive ticker of
500 ms and either serve or have ended on the first encode error with `doneCh`
closed. While they serve, a tick taken by the select, whether or not an entry
is pending, sends exactly one envelope, the zero value of the stream's element
type (`event.Event{}`, `trace.Info{}`): it is the one value handed to the
encoder, on success its bytes are written and flushed once, on failure the
handler returns and closes `doneCh`; a received entry is sent likewise. Once
returned, nothing more happens. `ConsoleLogHandler` has no ticker: a tick
changes nothing; it serves or has returned with `doneCh` closed, it sends the
entries it receives in the same way, and it also returns, closing `doneCh`,
when the request context is cancelled. -/
theorem stream_keepalive_and_end (env : StreamEnv σ) (r : Request) (s : Sys σ)
    (timeline : List Occurrence) (prefix_ suffix : String) (eventNames : List event.Name)
    (traceOpts : ServiceTraceOpts)
    (hv : env.storageServerRequestValidate r = none)
    (hp : filterRuleValue env r.URLQuery env.peerRESTListenPrefix = .ok prefix_)
    (hs : filterRuleValue env r.URLQuery env.peerRESTListenSuffix = .ok suffix)
    (hn : parseNames env (Values.index r.URLQuery env.peerRESTListenEvents) = .ok eventNames)
    (ht : extractTraceOptsFromPeerRequest env r = .ok traceOpts) :
    ((ListenHandler env r timeline s).keepAliveTicker = some 500 ∧
      ((ListenHandler env r timeline s).serving env ∨
        (ListenHandler env r timeline s).endedOnFirstError env) ∧
      ((ListenHandler env r timeline s).serving env →
        (ListenHandler env r timeline s).sends env (.Event {})
          (ListenHandler env r (timeline ++ [.tick]) s)) ∧
      ((ListenHandler env r timeline s).serving env →
        ∀ entry t1, (ListenHandler env r timeline s).receive = some (entry, t1) →
          (ListenHandler env r timeline s).sends env entry
            (ListenHandler env r (timeline ++ [.recv]) s)) ∧
      ((ListenHandler env r timeline s).returned = true →
        ∀ more, ListenHandler env r (timeline ++ more) s = ListenHandler env r timeline s)) ∧
    ((TraceHandler env r timeline s).keepAliveTicker = some 500 ∧
      ((TraceHandler env r timeline s).serving env ∨
        (TraceHandler env r timeline s).endedOnFirstError env) ∧
      ((TraceHandler env r timeline s).serving env →
        (TraceHandler env r timeline s).sends env (.Info {})
          (TraceHandler env r (timeline ++ [.tick]) s)) ∧
      ((TraceHandler env r timeline s).serving env →
        ∀ entry t1, (TraceHandler env r timeline s).receive = some (entry, t1) →
          (TraceHandler env r timeline s).sends env entry
            (TraceHandler env r (timeline ++ [.recv]) s)) ∧
      ((TraceHandler env r timeline s).returned = true →
        ∀ more, TraceHandler env r (timeline ++ more) s = TraceHandler env r timeline s)) ∧
    ((ConsoleLogHandler env r timeline s).keepAliveTicker = none ∧
      ConsoleLogHandler env r (timeline ++ [.tick]) s = ConsoleLogHandler env r timeline s ∧
      ((ConsoleLogHandler env r timeline s).serving env ∨
        ((ConsoleLogHandler env r timeline s).returned = true ∧
          (ConsoleLogHandler env r timeline s).doneCh = some true)) ∧
      ((ConsoleLogHandler env r timeline s).serving env →
        ∀ entry t1, (ConsoleLogHandler env r timeline s).receive = some (entry, t1) →
          (ConsoleLogHandler env r timeline s).sends env entry
            (ConsoleLogHandler env r (timeline ++ [.recv]) s)) ∧
      ((ConsoleLogHandler env r timeline s).serving env →
        ConsoleLogHandler env r (timeline ++ [.done]) s
          = (ConsoleLogHandler env r timeline s).ret) ∧
      ((ConsoleLogHandler env r timeline s).returned = true →
        ∀ more, ConsoleLogHandler env r (timeline ++ more) s
          = ConsoleLogHandler env r timeline s)) := by
  obtain ⟨tL, hL, hkL, hsL⟩ := ListenHandler_loop env r s prefix_ suffix eventNames hv hp hs hn
  obtain ⟨tT, hT, hkT, hsT⟩ := TraceHandler_loop env r s traceOpts hv ht
  obtain ⟨tC, hC, hkC, hsC⟩ := ConsoleLogHandler_loop env r s hv
  have iL := loop_invariant (listenSelect env)
    (fun t => t.keepAliveTicker = some 500 ∧ (t.serving env ∨ t.endedOnFirstError env))
    (listenSelect_state env) timeline tL ⟨hkL, Or.inl hsL⟩
  have iT := loop_invariant (traceSelect env)
    (fun t => t.keepAliveTicker = some 500 ∧ (t.serving env ∨ t.endedOnFirstError env))
    (traceSelect_state env) timeline tT ⟨hkT, Or.inl hsT⟩
  have iC := loop_invariant (consoleLogSelect env)
    (fun t => t.keepAliveTicker = none ∧
      (t.serving env ∨ (t.returned = true ∧ t.doneCh = some true)))
    (consoleLogSelect_state env) timeline tC ⟨hkC, Or.inl hsC⟩
  simp only [hL, hT, hC, List.foldl_append, List.foldl_cons, List.foldl_nil]
  refine ⟨⟨iL.1, iL.2, ?_, ?_, ?_⟩, ⟨iT.1, iT.2, ?_, ?_, ?_⟩, ⟨iC.1, ?_, iC.2, ?_, ?_, ?_⟩⟩
  · exact fun h => listenSelect_tick env _ h
  · exact fun h entry t1 hrec => listenSelect_recv env _ t1 entry h hrec
  · exact fun h more => loop_returned _ (listenSelect_returned env) more _ h
  · exact fun h => traceSelect_tick env _ h
  · exact fun h entry t1 hrec => traceSelect_recv env _ t1 entry h hrec
  · exact fun h more => loop_returned _ (traceSelect_returned env) more _ h
  · exact consoleLogSelect_tick env _
  · exact fun h entry t1 hrec => consoleLogSelect_recv env _ t1 entry h hrec
  · exact fun h => consoleLogSelect_done env _ h
  · exact fun h more => loop_returned _ (consoleLogSelect_returned env) more _ h

/-- Witness of C22: `listen?prefix=logs/&suffix=.json&events=s3:ObjectCreated:Put`
(also a valid `trace` request) in the sample environment, whose peer takes
three envelopes. From the start of the loop a tick sends the zero
`event.Event`; after one tick it is the one value encoded and the response has
been flushed twice (once after `WriteHeader`); the fourth tick fails to encode
and ends the handler with `doneCh` closed, and the fifth changes nothing. -/
theorem stream_keepalive_and_end_witness :
    (sampleStreamEnv.storageServerRequestValidate listenRequest = none ∧
      filterRuleValue sampleStreamEnv listenRequest.URLQuery
        sampleStreamEnv.peerRESTListenPrefix = .ok "logs/" ∧
      filterRuleValue sampleStreamEnv listenRequest.URLQuery
        sampleStreamEnv.peerRESTListenSuffix = .ok ".json" ∧
      parseNames sampleStreamEnv
        (Values.index listenRequest.URLQuery sampleStreamEnv.peerRESTListenEvents)
        = .ok ["s3:ObjectCreated:Put"] ∧
      extractTraceOptsFromPeerRequest sampleStreamEnv listenRequest = .ok {}) ∧
    (ListenHandler sampleStreamEnv listenRequest [] (Sys.init [])).keepAliveTicker = some 500 ∧
    (ListenHandler sampleStreamEnv listenRequest [] (Sys.init [])).sends sampleStreamEnv
      (.Event {}) (ListenHandler sampleStreamEnv listenRequest [.tick] (Sys.init [])) ∧
    (ListenHandler sampleStreamEnv listenRequest [.tick] (Sys.init [])).encoded = [.Event {}] ∧
    (ListenHandler sampleStreamEnv listenRequest [.tick] (Sys.init [])).sys.w.flushes = 2 ∧
    (TraceHandler sampleStreamEnv listenRequest [.tick] (Sys.init [])).encoded = [.Info {}] ∧
    (ListenHandler sampleStreamEnv listenRequest [.tick, .tick, .tick, .tick]
      (Sys.init [])).doneCh = some true ∧
    (ListenHandler sampleStreamEnv listenRequest [.tick, .tick, .tick, .tick]
      (Sys.init [])).sys.w.flushes = 4 ∧
    (ListenHandler sampleStreamEnv listenRequest [.tick, .tick, .tick, .tick, .tick]
      (Sys.init [])).encoded = [.Event {}, .Event {}, .Event {}, .Event {}] :=
  have h := stream_keepalive_and_end sampleStreamEnv listenRequest (Sys.init []) []
    "logs/" ".json" ["s3:ObjectCreated:Put"] {} rfl rfl rfl rfl rfl
  ⟨⟨rfl, rfl, rfl, rfl, rfl⟩, h.1.1, h.1.2.2.1 ⟨rfl, rfl, allEncoded_nil sampleStreamEnv⟩,
    rfl, rfl, rfl, rfl, rfl, rfl⟩

end Theorems

end Minio
